import Mathlib

/-! # Cinema booking system: the seat-lock protocol

A shallow embedding of `backend/services/redis_lock.go`, of the lock, unlock and
booking handlers of `backend/handlers/handlers.go`, of the expiry monitor of
`backend/services/lock_monitor.go` and of the subscriber hub of
`backend/websocket`.

* The Redis server behind `*redis.Client` is a value of type `RedisClient`: an
  association list from keys to lock records (value and remaining TTL in
  seconds) together with a flag telling whether the server can be reached.
  Every command returns the new server state and its reply.
* A Go `error` is an `Option String` (`none` is `nil`), a Go slice is a `List`
  (the `nil` slice is `[]`).
* The functions named after the methods of the service (`UnlockSeat`,
  `LockMultipleSeats`, ...) give a call that runs from its first to its last
  round trip with nothing in between. The round trips of a call are given one
  by one by `Call.step`, and `LockSystem` interleaves the round trips of the
  calls in flight with each other, with the passage of time and with outages.
* The database of bookings and sessions may stop answering between two calls
  of one request: `MongoDB.updateFaults` tells which `UpdateOne` calls fail.
-/

namespace CinemaBooking

/-! ## The lock store (go-redis commands used by the service) -/

/-- A lock record: the value stored under a key and its remaining TTL in seconds. -/
structure LockRecord where
  owner : String
  ttl : Nat
deriving DecidableEq, Repr

/-- Errors of a Redis command: `redis.Nil` (no such key) or a transport error. -/
inductive RedisError where
  | Nil
  | conn (msg : String)
deriving DecidableEq, Repr

/-- Text of an error, as `%w` prints it. -/
def RedisError.text : RedisError → String
  | .Nil => "redis: nil"
  | .conn msg => msg

/-- The server behind a `*redis.Client`. -/
structure RedisClient where
  online : Bool
  data : List (String × LockRecord)
deriving DecidableEq, Repr

/-- The error every command answers while the server cannot be reached. -/
def connRefused : RedisError := .conn "dial tcp: connection refused"

/-- First record stored under key `k`. -/
def lookup (k : String) : List (String × LockRecord) → Option LockRecord
  | [] => none
  | (k', r) :: rest => if k' = k then some r else lookup k rest

/-- Entries whose key is not `k`. -/
def erase (k : String) : List (String × LockRecord) → List (String × LockRecord)
  | [] => []
  | (k', r) :: rest => if k' = k then erase k rest else (k', r) :: erase k rest

/-- Number of entries stored under key `k`. -/
def countKey (k : String) : List (String × LockRecord) → Nat
  | [] => 0
  | (k', _) :: rest => if k' = k then countKey k rest + 1 else countKey k rest

/-- Refresh of the TTL of the entries stored under `k`. -/
def setTTL (k : String) (ttl : Nat) : List (String × LockRecord) → List (String × LockRecord)
  | [] => []
  | (k', r) :: rest =>
    if k' = k then (k', { r with ttl := ttl }) :: setTTL k ttl rest else (k', r) :: setTTL k ttl rest

/-- Command `SET key value EX ttl NX`: creates the record only when the key is absent and
answers whether it was created. -/
def RedisClient.SetNX (c : RedisClient) (key value : String) (ttl : Nat) :
    RedisClient × Except RedisError Bool :=
  if c.online then
    match lookup key c.data with
    | none => ({ c with data := (key, { owner := value, ttl := ttl }) :: c.data }, .ok true)
    | some _ => (c, .ok false)
  else (c, .error connRefused)

/-- Command `GET key`: the stored value, or `redis.Nil` when the key is absent. -/
def RedisClient.Get (c : RedisClient) (key : String) : Except RedisError String :=
  if c.online then
    match lookup key c.data with
    | none => .error .Nil
    | some r => .ok r.owner
  else .error connRefused

/-- Command `DEL key`: removes the key and answers how many keys were removed. -/
def RedisClient.Del (c : RedisClient) (key : String) : RedisClient × Except RedisError Nat :=
  if c.online then
    ({ c with data := erase key c.data }, .ok (if (lookup key c.data).isSome then 1 else 0))
  else (c, .error connRefused)

/-- Command `EXPIRE key ttl`: sets the TTL of an existing key and answers whether it exists. -/
def RedisClient.Expire (c : RedisClient) (key : String) (ttl : Nat) :
    RedisClient × Except RedisError Bool :=
  if c.online then
    ({ c with data := setTTL key ttl c.data }, .ok (lookup key c.data).isSome)
  else (c, .error connRefused)

/-- Command `TTL key`: remaining seconds, `-2` when the key is absent. -/
def RedisClient.TTL (c : RedisClient) (key : String) : Except RedisError Int :=
  if c.online then
    match lookup key c.data with
    | none => .ok (-2)
    | some r => .ok r.ttl
  else .error connRefused

/-- Result of one queued `SETNX` of a pipeline (`*redis.BoolCmd`). -/
structure BoolCmd where
  val : Bool
  err : Option RedisError
deriving DecidableEq, Repr

/-- The queued `SETNX` commands of a pipeline, run in order. -/
def RedisClient.runSetNX (c : RedisClient) :
    List (String × String × Nat) → RedisClient × List BoolCmd
  | [] => (c, [])
  | (key, value, ttl) :: rest =>
    match c.SetNX key value ttl with
    | (c1, .ok b) =>
      let (c2, cmds) := c1.runSetNX rest
      (c2, { val := b, err := none } :: cmds)
    | (c1, .error e) =>
      let (c2, cmds) := c1.runSetNX rest
      (c2, { val := false, err := some e } :: cmds)

/-- First error among the results of a pipeline. -/
def firstError : List BoolCmd → Option RedisError
  | [] => none
  | cmd :: rest =>
    match cmd.err with
    | some e => some e
    | none => firstError rest

/-- The call `pipe.Exec`: nothing is sent for an empty pipeline; otherwise the commands run in
order and the first error among them is returned next to the results. -/
def RedisClient.Exec (c : RedisClient) (queued : List (String × String × Nat)) :
    RedisClient × List BoolCmd × Option RedisError :=
  match queued with
  | [] => (c, [], none)
  | _ :: _ =>
    let (c1, cmds) := c.runSetNX queued
    (c1, cmds, firstError cmds)

/-! ## `services/redis_lock.go` -/

/-- Lock duration in seconds (`5 * time.Minute`). -/
def LockDuration : Nat := 5 * 60

/-- Prefix of every lock key. -/
def LockKeyPrefix : String := "seat_lock:"

/-- The service: its client pointer may be `nil`. -/
structure RedisLockService where
  client : Option RedisClient
deriving DecidableEq, Repr

/-- Key of a seat: `fmt.Sprintf("%s%s:%s", LockKeyPrefix, sessionID, seatID)`. -/
def getLockKey (sessionID seatID : String) : String :=
  LockKeyPrefix ++ sessionID ++ ":" ++ seatID

/-- Method `LockSeat`: returns the service, `acquired` and the error. -/
def LockSeat (s : RedisLockService) (sessionID seatID userID : String) :
    RedisLockService × Bool × Option String :=
  match s.client with
  | none => (s, false, some "redis client not initialized")
  | some c =>
    let key := getLockKey sessionID seatID
    match c.SetNX key userID LockDuration with
    | (c1, .error err) => ({ client := some c1 }, false, some ("failed to acquire lock: " ++ err.text))
    | (c1, .ok result) => ({ client := some c1 }, result, none)

/-- Method `UnlockSeat` on an initialised client (the method dereferences the client without a
`nil` check). -/
def UnlockSeat (c : RedisClient) (sessionID seatID userID : String) :
    RedisClient × Bool × Option String :=
  let key := getLockKey sessionID seatID
  match c.Get key with
  | .error .Nil => (c, true, none)
  | .error err => (c, false, some ("failed to check lock owner: " ++ err.text))
  | .ok currentOwner =>
    if currentOwner ≠ userID then
      (c, false, some "cannot unlock: seat is locked by another user")
    else
      match c.Del key with
      | (c1, .error err) => (c1, false, some ("failed to release lock: " ++ err.text))
      | (c1, .ok deleted) => (c1, decide (deleted > 0), none)

/-- Method `IsLocked` on an initialised client. -/
def IsLocked (c : RedisClient) (sessionID seatID : String) : Bool × String × Option String :=
  let key := getLockKey sessionID seatID
  match c.Get key with
  | .error .Nil => (false, "", none)
  | .error err => (false, "", some ("failed to check lock status: " ++ err.text))
  | .ok owner => (true, owner, none)

/-- Method `GetLockTTL` on an initialised client (seconds). -/
def GetLockTTL (c : RedisClient) (sessionID seatID : String) : Int × Option String :=
  let key := getLockKey sessionID seatID
  match c.TTL key with
  | .error err => (0, some ("failed to get lock TTL: " ++ err.text))
  | .ok ttl => (ttl, none)

/-- Method `ExtendLock` on an initialised client. -/
def ExtendLock (c : RedisClient) (sessionID seatID userID : String) :
    RedisClient × Bool × Option String :=
  let key := getLockKey sessionID seatID
  match c.Get key with
  | .error .Nil => (c, false, some "lock does not exist")
  | .error err => (c, false, some ("failed to check lock owner: " ++ err.text))
  | .ok currentOwner =>
    if currentOwner ≠ userID then
      (c, false, some "cannot extend: seat is locked by another user")
    else
      match c.Expire key LockDuration with
      | (c1, .error err) => (c1, false, some ("failed to extend lock: " ++ err.text))
      | (c1, .ok result) => (c1, result, none)

/-- The loop over the pipeline results: `seatIDs[i]` goes to `lockedSeats` when command `i`
succeeded and to `failedSeats` otherwise. -/
def partitionResults : List String → List BoolCmd → List String × List String
  | seatID :: seatIDs, cmd :: results =>
    let (lockedSeats, failedSeats) := partitionResults seatIDs results
    if cmd.val then (seatID :: lockedSeats, failedSeats) else (lockedSeats, seatID :: failedSeats)
  | _, _ => ([], [])

/-- The rollback loop: `UnlockSeat` for every element of `lockedSeats`, results ignored. -/
def rollback (c : RedisClient) (sessionID : String) (lockedSeats : List String)
    (userID : String) : RedisClient :=
  match lockedSeats with
  | [] => c
  | seatID :: rest => rollback (UnlockSeat c sessionID seatID userID).1 sessionID rest userID

/-- The pipeline of `LockMultipleSeats`: one `SETNX` with the user ID and the lock duration per
requested seat, queued in request order and executed in one round trip. -/
def lockPipeline (c : RedisClient) (sessionID : String) (seatIDs : List String)
    (userID : String) : RedisClient × List BoolCmd × Option RedisError :=
  c.Exec (seatIDs.map fun seatID => (getLockKey sessionID seatID, userID, LockDuration))

/-- Method `LockMultipleSeats` on an initialised client: returns the client, `lockedSeats`,
`failedSeats` and the error. -/
def LockMultipleSeats (c : RedisClient) (sessionID : String) (seatIDs : List String)
    (userID : String) : RedisClient × List String × List String × Option String :=
  match lockPipeline c sessionID seatIDs userID with
  | (c1, results, err) =>
    if err.isSome ∧ err ≠ some RedisError.Nil then
      (c1, [], seatIDs, some ("failed to execute lock pipeline: " ++ (err.map RedisError.text).getD ""))
    else
      let (lockedSeats, failedSeats) := partitionResults seatIDs results
      if failedSeats.length > 0 ∧ lockedSeats.length > 0 then
        (rollback c1 sessionID lockedSeats userID, [], seatIDs,
          some "could not lock all seats, some are already locked")
      else
        (c1, lockedSeats, failedSeats, none)

/-- Method `UnlockMultipleSeats` on an initialised client: every seat is tried, a failed release
is only logged, and the returned error is always `nil`. -/
def UnlockMultipleSeats (c : RedisClient) (sessionID : String) (seatIDs : List String)
    (userID : String) : RedisClient × Option String :=
  match seatIDs with
  | [] => (c, none)
  | seatID :: rest => UnlockMultipleSeats (UnlockSeat c sessionID seatID userID).1 sessionID rest userID

/-! ## `models/models.go`, the audit producer and the hub, as far as the handlers use them -/

/-- Seat status constants. -/
inductive SeatStatus where
  | AVAILABLE
  | LOCKED
  | BOOKED
deriving DecidableEq, Repr

/-- One entry of a `SEATS_UPDATE` message. -/
structure SeatUpdate where
  SeatID : String
  Status : SeatStatus
  LockedBy : String := ""
deriving DecidableEq, Repr

/-- An audit event as the producer receives it (identity and timestamp are stamped later). -/
structure AuditLog where
  EventType : String
  SessionID : String
  UserID : String
  SeatIDs : List String
  Description : String
deriving DecidableEq, Repr

/-- Request body of the lock endpoint. -/
structure LockSeatRequest where
  SessionID : String
  SeatIDs : List String
  UserID : String
deriving DecidableEq, Repr

/-- Request body of the unlock endpoint. -/
structure UnlockSeatRequest where
  SessionID : String
  SeatIDs : List String
  UserID : String
deriving DecidableEq, Repr

/-- The `Data` field of a response (`gin.H` with the keys the two handlers use). -/
inductive ResponseData where
  | absent
  | failedSeats (seats : List String)
  | lockedSeats (seats : List String) (expiresIn : Nat)
deriving DecidableEq, Repr

/-- The uniform response body. -/
structure APIResponse where
  Success : Bool
  Message : String := ""
  Data : ResponseData := .absent
  Error : String := ""
deriving DecidableEq, Repr

/-- Rendering of a string slice by the verb `%v`. -/
def fmtSeats (seatIDs : List String) : String :=
  "[" ++ " ".intercalate seatIDs ++ "]"

/-- The event built by `LogSeatLocked`. -/
def LogSeatLocked (sessionID userID : String) (seatIDs : List String) : AuditLog :=
  { EventType := "SEAT_LOCKED", SessionID := sessionID, UserID := userID, SeatIDs := seatIDs,
    Description := "User " ++ userID ++ " locked seats: " ++ fmtSeats seatIDs }

/-- The event built by `LogSeatUnlocked`. -/
def LogSeatUnlocked (sessionID userID : String) (seatIDs : List String) (reason : String) :
    AuditLog :=
  { EventType := "SEAT_UNLOCKED", SessionID := sessionID, UserID := userID, SeatIDs := seatIDs,
    Description := "Seats unlocked (" ++ reason ++ "): " ++ fmtSeats seatIDs }

/-- What a handler hands to the hub and to the audit producer, in program order. -/
inductive Emitted where
  | broadcast (sessionID : String) (msgType : String) (updates : List SeatUpdate)
  | auditLog (log : AuditLog)
deriving DecidableEq, Repr

/-- The call `BroadcastMultipleSeatUpdates`: one `SEATS_UPDATE` message for the session. -/
def BroadcastMultipleSeatUpdates (sessionID : String) (seatUpdates : List SeatUpdate) : Emitted :=
  .broadcast sessionID "SEATS_UPDATE" seatUpdates

/-! ## `handlers/handlers.go`: the lock and unlock handlers -/

/-- HTTP status codes used by the handlers. -/
def StatusOK : Nat := 200

/-- Status `400`. -/
def StatusBadRequest : Nat := 400

/-- Status `409`. -/
def StatusConflict : Nat := 409

/-- Status `500`. -/
def StatusInternalServerError : Nat := 500

/-- The handler state: the lock service's client and everything emitted so far. -/
structure Handler where
  lockService : RedisClient
  emitted : List Emitted
deriving DecidableEq, Repr

/-- Handler `LockSeats`; `bound` is the outcome of `ShouldBindJSON`. Returns the handler state,
the status code and the body. -/
def Handler.LockSeats (h : Handler) (bound : Except String LockSeatRequest) :
    Handler × Nat × APIResponse :=
  match bound with
  | .error err => (h, StatusBadRequest, { Success := false, Error := "Invalid request: " ++ err })
  | .ok req =>
    match LockMultipleSeats h.lockService req.SessionID req.SeatIDs req.UserID with
    | (c1, _, failedSeats, some err) =>
      ({ h with lockService := c1 }, StatusConflict,
        { Success := false, Error := err, Data := .failedSeats failedSeats })
    | (c1, lockedSeats, _, none) =>
      let seatUpdates := lockedSeats.map fun seatID =>
        ({ SeatID := seatID, Status := .LOCKED, LockedBy := req.UserID } : SeatUpdate)
      ({ lockService := c1,
         emitted := h.emitted ++ [BroadcastMultipleSeatUpdates req.SessionID seatUpdates,
           .auditLog (LogSeatLocked req.SessionID req.UserID lockedSeats)] },
        StatusOK,
        { Success := true, Message := "Seats locked successfully",
          Data := .lockedSeats lockedSeats LockDuration })

/-- Handler `UnlockSeats`; `bound` is the outcome of `ShouldBindJSON`. -/
def Handler.UnlockSeats (h : Handler) (bound : Except String UnlockSeatRequest) :
    Handler × Nat × APIResponse :=
  match bound with
  | .error err => (h, StatusBadRequest, { Success := false, Error := "Invalid request: " ++ err })
  | .ok req =>
    match UnlockMultipleSeats h.lockService req.SessionID req.SeatIDs req.UserID with
    | (c1, some err) =>
      ({ h with lockService := c1 }, StatusInternalServerError, { Success := false, Error := err })
    | (c1, none) =>
      let seatUpdates := req.SeatIDs.map fun seatID =>
        ({ SeatID := seatID, Status := .AVAILABLE } : SeatUpdate)
      ({ lockService := c1,
         emitted := h.emitted ++ [BroadcastMultipleSeatUpdates req.SessionID seatUpdates,
           .auditLog (LogSeatUnlocked req.SessionID req.UserID req.SeatIDs "manual")] },
        StatusOK,
        { Success := true, Message := "Seats unlocked successfully" })

/-! ## Runs of the lock service -/

/-- Passage of `dt` seconds on the server: every TTL decreases and a record whose TTL is used
up disappears. -/
def expireAfter (dt : Nat) : List (String × LockRecord) → List (String × LockRecord)
  | [] => []
  | (k, r) :: rest =>
    if r.ttl ≤ dt then expireAfter dt rest
    else (k, { r with ttl := r.ttl - dt }) :: expireAfter dt rest

/-- One call of the lock service by a user, on seats of one session. -/
inductive Op where
  | lockSeat (sessionID seatID userID : String)
  | unlockSeat (sessionID seatID userID : String)
  | extendLock (sessionID seatID userID : String)
  | lockMultipleSeats (sessionID : String) (seatIDs : List String) (userID : String)
  | unlockMultipleSeats (sessionID : String) (seatIDs : List String) (userID : String)
deriving DecidableEq, Repr

/-- The user who issues a call. -/
def Op.user : Op → String
  | .lockSeat _ _ u => u
  | .unlockSeat _ _ u => u
  | .extendLock _ _ u => u
  | .lockMultipleSeats _ _ u => u
  | .unlockMultipleSeats _ _ u => u

/-- The client after a call that runs from its first to its last round trip with nothing in
between; `Call.step` below gives the round trips one by one. -/
def Op.run (c : RedisClient) : Op → RedisClient
  | .lockSeat sessionID seatID userID =>
    ((LockSeat { client := some c } sessionID seatID userID).1.client).getD c
  | .unlockSeat sessionID seatID userID => (UnlockSeat c sessionID seatID userID).1
  | .extendLock sessionID seatID userID => (ExtendLock c sessionID seatID userID).1
  | .lockMultipleSeats sessionID seatIDs userID =>
    (LockMultipleSeats c sessionID seatIDs userID).1
  | .unlockMultipleSeats sessionID seatIDs userID =>
    (UnlockMultipleSeats c sessionID seatIDs userID).1

/-- Events of a run: a service call, the passage of time, or the server going down or coming
back (its records are kept). -/
inductive Event where
  | call (op : Op)
  | wait (dt : Nat)
  | setOnline (b : Bool)
deriving DecidableEq, Repr

/-- The client after an event. -/
def Event.apply (c : RedisClient) : Event → RedisClient
  | .call op => op.run c
  | .wait dt => { c with data := expireAfter dt c.data }
  | .setOnline b => { c with online := b }

/-- The client after a run of events that starts from `c`. -/
def runFrom (c : RedisClient) (events : List Event) : RedisClient :=
  events.foldl Event.apply c

/-- States of the lock store that a run can reach from the empty store. -/
def Reachable (c : RedisClient) : Prop :=
  ∃ events : List Event, runFrom { online := true, data := [] } events = c

/-- Owners recorded for a seat of a session: the values of all entries under its key. -/
def owners (c : RedisClient) (sessionID seatID : String) : List String :=
  (c.data.filter fun e => e.1 = getLockKey sessionID seatID).map fun e => e.2.owner

/-- Removal of every entry stored under the keys of the listed seats of a session. -/
def eraseSeats (sessionID : String) : List String → List (String × LockRecord) →
    List (String × LockRecord)
  | [], d => d
  | a :: rest, d => eraseSeats sessionID rest (erase (getLockKey sessionID a) d)

/-! ## A concrete store: user `u1` holds seat `A1` of session `S1` -/

/-- A reachable server on which `u1` holds `A1` of session `S1` with 120 s left. -/
def u1HoldsA1 : RedisClient :=
  { online := true, data := [("seat_lock:S1:A1", { owner := "u1", ttl := 120 })] }

/-! ## Lifetime of a lock record along a run -/

/-- Seconds that pass during a run. -/
def elapsed : List Event → Nat
  | [] => 0
  | .wait dt :: rest => dt + elapsed rest
  | _ :: rest => elapsed rest

/-- Whether an event is an `ExtendLock` call for key `k` issued by `owner`. -/
def Event.refreshes (k owner : String) : Event → Bool
  | .call (.extendLock sessionID seatID userID) =>
    decide (getLockKey sessionID seatID = k ∧ userID = owner)
  | _ => false

/-- Whether key `k` has a record before the run and after each of its events: the record was
neither released nor expired at any of these moments. -/
def heldThroughout (k : String) : RedisClient → List Event → Bool
  | c, [] => (lookup k c.data).isSome
  | c, e :: rest => (lookup k c.data).isSome && heldThroughout k (e.apply c) rest

/-! ## The booking and session store (`config.MongoDB`) -/

/-- An object identifier, as the 96-bit number its 24 hexadecimal digits denote. -/
abbrev ObjectID := Nat

/-- The zero identifier, returned next to an error by `ObjectIDFromHex`. -/
def NilObjectID : ObjectID := 0

/-- Value of a hexadecimal digit, upper or lower case. -/
def hexDigitValue (ch : Char) : Option Nat :=
  if '0' ≤ ch ∧ ch ≤ '9' then some (ch.toNat - '0'.toNat)
  else if 'a' ≤ ch ∧ ch ≤ 'f' then some (ch.toNat - 'a'.toNat + 10)
  else if 'A' ≤ ch ∧ ch ≤ 'F' then some (ch.toNat - 'A'.toNat + 10)
  else none

/-- Value of a string of hexadecimal digits, most significant first. -/
def hexValue (acc : Nat) : List Char → Option Nat
  | [] => some acc
  | ch :: rest =>
    match hexDigitValue ch with
    | none => none
    | some v => hexValue (acc * 16 + v) rest

/-- The call `primitive.ObjectIDFromHex`: the string must have 24 hexadecimal digits. -/
def ObjectIDFromHex (s : String) : Except String ObjectID :=
  if s.length ≠ 24 then .error "the provided hex string is not a valid ObjectID"
  else
    match hexValue 0 s.data with
    | none => .error "the provided hex string is not a valid ObjectID"
    | some n => .ok n

/-- The `w` lowest hexadecimal digits of `n`, lower case, most significant first. -/
def hexDigits : Nat → Nat → List Char
  | 0, _ => []
  | w + 1, n => hexDigits w (n / 16) ++ [Nat.digitChar (n % 16)]

/-- The method `Hex` of an object identifier. -/
def ObjectID.Hex (id : ObjectID) : String :=
  String.mk (hexDigits 24 id)

/-- A seat of a session document. Times are seconds, prices are whole currency units. -/
structure Seat where
  ID : String
  Row : String
  Number : Int
  Status : SeatStatus
  LockedBy : String := ""
  LockedAt : Option Nat := none
  Price : Nat
deriving DecidableEq, Repr

/-- A session document. -/
structure MovieSession where
  ID : ObjectID
  MovieTitle : String
  MoviePoster : String
  Theater : String
  StartTime : Nat
  EndTime : Nat
  Seats : List Seat
  TotalSeats : Int
  CreatedAt : Nat
  UpdatedAt : Nat
deriving DecidableEq, Repr

/-- The zero value of `MovieSession`. -/
def MovieSession.zero : MovieSession :=
  { ID := NilObjectID, MovieTitle := "", MoviePoster := "", Theater := "", StartTime := 0,
    EndTime := 0, Seats := [], TotalSeats := 0, CreatedAt := 0, UpdatedAt := 0 }

/-- A booking document. The amount is a `float64` in the source; every amount the handler
computes is a whole number, kept here as a natural number. -/
structure Booking where
  ID : ObjectID
  SessionID : ObjectID
  UserID : String
  UserEmail : String
  Seats : List String
  TotalAmount : Nat
  Status : String
  PaymentID : String := ""
  CreatedAt : Nat
  ConfirmedAt : Option Nat
deriving DecidableEq, Repr

/-- Request body of the booking endpoint. -/
structure BookingRequest where
  SessionID : String
  SeatIDs : List String
  UserID : String
  UserEmail : String
deriving DecidableEq, Repr

/-- The database: whether it can be reached when a request starts, its `sessions` and `bookings`
collections, and what becomes of the `UpdateOne` calls to come. A request shares one deadline
among its calls and the server may drop out between two of them, so an `UpdateOne` can fail
although the `InsertOne` before it was answered: `updateFaults` lists, for the coming `UpdateOne`
calls in order, whether the call fails (`true`); calls beyond the list are answered. -/
structure MongoDB where
  up : Bool
  sessions : List MovieSession
  bookings : List Booking
  updateFaults : List Bool := []
deriving DecidableEq, Repr

/-- The call `FindOne` on `sessions` with filter `_id`. -/
def MongoDB.FindSession (db : MongoDB) (id : ObjectID) : Except String MovieSession :=
  if db.up then
    match db.sessions.find? fun s => decide (s.ID = id) with
    | none => .error "mongo: no documents in result"
    | some s => .ok s
  else .error "server selection error"

/-- The call `InsertOne` on `bookings`: the driver gives the document the fresh identifier
`newID` and answers it. -/
def MongoDB.InsertBooking (db : MongoDB) (newID : ObjectID) (booking : Booking) :
    MongoDB × Except String ObjectID :=
  if db.up then
    ({ db with bookings := db.bookings ++ [{ booking with ID := newID }] }, .ok newID)
  else (db, .error "server selection error")

/-- Status of the first seat with the given label set to `status`. -/
def setSeatStatus (seatID : String) (status : SeatStatus) : List Seat → List Seat
  | [] => []
  | s :: rest =>
    if s.ID = seatID then { s with Status := status } :: rest
    else s :: setSeatStatus seatID status rest

/-- The positional update on the first document that matches `_id` and `seats.id`. -/
def updateFirstSession (id : ObjectID) (seatID : String) (status : SeatStatus) :
    List MovieSession → List MovieSession
  | [] => []
  | s :: rest =>
    if s.ID = id ∧ (s.Seats.any fun seat => decide (seat.ID = seatID)) = true then
      { s with Seats := setSeatStatus seatID status s.Seats } :: rest
    else s :: updateFirstSession id seatID status rest

/-- The call `UpdateOne` on `sessions` with filter `{_id, seats.id}` and update
`$set seats.$.status`; its result is ignored by the caller. The call is applied when the
database can be reached and the call is not one that fails; either way it uses up the first
entry of `updateFaults`. -/
def MongoDB.UpdateSeatStatus (db : MongoDB) (id : ObjectID) (seatID : String)
    (status : SeatStatus) : MongoDB :=
  if db.up = true ∧ db.updateFaults.head? ≠ some true then
    { db with sessions := updateFirstSession id seatID status db.sessions,
              updateFaults := db.updateFaults.tail }
  else { db with updateFaults := db.updateFaults.tail }

/-! ## `handlers/handlers.go`: the booking handler -/

/-- Status `201`. -/
def StatusCreated : Nat := 201

/-- The flat price per seat the handler multiplies by. -/
def seatPrice : Nat := 150

/-- The event built by `LogBookingSuccess`. -/
def LogBookingSuccess (sessionID userID : String) (seatIDs : List String) (bookingID : String) :
    AuditLog :=
  { EventType := "BOOKING_SUCCESS", SessionID := sessionID, UserID := userID,
    SeatIDs := seatIDs,
    Description := "Booking " ++ bookingID ++ " confirmed for user " ++ userID ++ ", seats: " ++
      fmtSeats seatIDs }

/-- Data handed to the email service; the booking date is the session's start time. -/
structure BookingConfirmationData where
  UserName : String
  BookingID : String
  MovieTitle : String
  Theater : String
  Seats : List String
  TotalAmount : Nat
  BookingDate : Nat
deriving DecidableEq, Repr

/-- The body of the `201` answer of the booking handler. -/
structure BookingData where
  bookingId : String
  seats : List String
  totalAmount : Nat
deriving DecidableEq, Repr

/-- The answer of the booking handler: status code, uniform body and, on success, the data. -/
structure BookingResponse where
  code : Nat
  body : APIResponse
  data : Option BookingData := none
deriving DecidableEq, Repr

/-- What the booking handler does after ownership verification, in program order. -/
inductive BookingStep where
  | insertBooking (booking : Booking)
  | markBooked (sessionID : ObjectID) (seatID : String)
  | unlockSeats (sessionID : String) (seatIDs : List String) (userID : String)
  | broadcast (sessionID : String) (updates : List SeatUpdate)
  | auditLog (log : AuditLog)
  | email (recipient : String) (data : BookingConfirmationData)
deriving DecidableEq, Repr

/-- The ownership loop of `CreateBooking`: the first requested seat whose probe fails, that is
not locked, or that is locked by someone else. -/
def firstNotOwned (c : RedisClient) (sessionID : String) (userID : String) :
    List String → Option String
  | [] => none
  | seatID :: rest =>
    match IsLocked c sessionID seatID with
    | (isLocked, lockedBy, err) =>
      if err.isSome ∨ isLocked = false ∨ lockedBy ≠ userID then some seatID
      else firstNotOwned c sessionID userID rest

/-- The loop that marks the requested seats as booked, one `UpdateOne` per seat. -/
def markSeatsBooked (db : MongoDB) (id : ObjectID) : List String → MongoDB
  | [] => db
  | seatID :: rest => markSeatsBooked (db.UpdateSeatStatus id seatID .BOOKED) id rest

/-- Result of the booking handler: the handler state, the database, the answer and the steps
taken. -/
structure BookingOutcome where
  handler : Handler
  db : MongoDB
  response : BookingResponse
  steps : List BookingStep
deriving DecidableEq, Repr

/-- The statement `sessionObjectID, _ := primitive.ObjectIDFromHex(req.SessionID)`: the parsed
request field, or the zero identifier when it does not parse. -/
def bookingSessionID (req : BookingRequest) : ObjectID :=
  match ObjectIDFromHex req.SessionID with
  | .ok id => id
  | .error _ => NilObjectID

/-- The session document of the booking, or the placeholder the handler fills in when the
lookup fails. -/
def sessionOrPlaceholder (db : MongoDB) (id : ObjectID) (now : Nat) : MovieSession :=
  match db.FindSession id with
  | .ok s => s
  | .error _ =>
    { MovieSession.zero with
      MovieTitle := "Cinema Booking", Theater := "Theater 1", StartTime := now }

/-- The booking document the handler builds before the insert. -/
def newBooking (req : BookingRequest) (now : Nat) : Booking :=
  { ID := NilObjectID, SessionID := bookingSessionID req, UserID := req.UserID,
    UserEmail := req.UserEmail, Seats := req.SeatIDs,
    TotalAmount := req.SeatIDs.length * seatPrice, Status := "CONFIRMED",
    CreatedAt := now, ConfirmedAt := some now }

/-- The `SEATS_UPDATE` entries of a booking: every requested seat with status BOOKED. -/
def bookedUpdates (seatIDs : List String) : List SeatUpdate :=
  seatIDs.map fun seatID => ({ SeatID := seatID, Status := .BOOKED } : SeatUpdate)

/-- What `CreateBooking` returns once the booking with identifier `insertedID` is inserted into
`db1`: the updates of the seats sent (their results are discarded), locks released, broadcast,
audit event and email handed over, answer 201. -/
def finishBooking (h : Handler) (db1 : MongoDB) (req : BookingRequest) (session : MovieSession)
    (now : Nat) (insertedID : ObjectID) : BookingOutcome :=
  let bookingID := ObjectID.Hex insertedID
  let db2 := markSeatsBooked db1 (bookingSessionID req) req.SeatIDs
  let c1 := (UnlockMultipleSeats h.lockService req.SessionID req.SeatIDs req.UserID).1
  let audit := LogBookingSuccess req.SessionID req.UserID req.SeatIDs bookingID
  let mail : BookingConfirmationData :=
    { UserName := req.UserEmail, BookingID := bookingID, MovieTitle := session.MovieTitle,
      Theater := session.Theater, Seats := req.SeatIDs,
      TotalAmount := (newBooking req now).TotalAmount, BookingDate := session.StartTime }
  { handler :=
      { lockService := c1,
        emitted := h.emitted ++
          [BroadcastMultipleSeatUpdates req.SessionID (bookedUpdates req.SeatIDs),
           .auditLog audit] },
    db := db2,
    steps := [.insertBooking { newBooking req now with ID := insertedID }] ++
      (req.SeatIDs.map fun seatID => BookingStep.markBooked (bookingSessionID req) seatID) ++
      [.unlockSeats req.SessionID req.SeatIDs req.UserID,
       .broadcast req.SessionID (bookedUpdates req.SeatIDs), .auditLog audit,
       .email req.UserEmail mail],
    response :=
      { code := StatusCreated,
        body := { Success := true, Message := "Booking confirmed" },
        data := some { bookingId := bookingID, seats := req.SeatIDs,
                       totalAmount := (newBooking req now).TotalAmount } } }

/-- Handler `CreateBooking`; `bound` is the outcome of `ShouldBindJSON`, `now` the reading of the
clock during the call and `newID` the identifier the driver gives to the inserted booking. -/
def Handler.CreateBooking (h : Handler) (db : MongoDB) (bound : Except String BookingRequest)
    (now : Nat) (newID : ObjectID) : BookingOutcome :=
  match bound with
  | .error err =>
    { handler := h, db := db, steps := [],
      response := { code := StatusBadRequest,
                    body := { Success := false, Error := "Invalid request: " ++ err } } }
  | .ok req =>
    match firstNotOwned h.lockService req.SessionID req.UserID req.SeatIDs with
    | some seatID =>
      { handler := h, db := db, steps := [],
        response := { code := StatusConflict,
                      body := { Success := false,
                                Error := "Seat " ++ seatID ++ " is not locked by you" } } }
    | none =>
      let session := sessionOrPlaceholder db (bookingSessionID req) now
      match db.InsertBooking newID (newBooking req now) with
      | (db1, .error _) =>
        { handler := h, db := db1, steps := [],
          response := { code := StatusInternalServerError,
                        body := { Success := false, Error := "Failed to create booking" } } }
      | (db1, .ok insertedID) => finishBooking h db1 req session now insertedID

/-- Status of the first seat with the given label, if there is one. -/
def seatStatus (seats : List Seat) (seatID : String) : Option SeatStatus :=
  (seats.find? fun seat => decide (seat.ID = seatID)).map fun seat => seat.Status


/-! ## A concrete booking scenario -/

/-- A session of three available seats `A1`, `A2`, `A3` with identifier
`64b7f3a2c1d4e5f601234567`. -/
def demoSession : MovieSession :=
  { ID := 0x64b7f3a2c1d4e5f601234567, MovieTitle := "Inception", MoviePoster := "",
    Theater := "Theater 1", StartTime := 5000, EndTime := 12200,
    Seats := [{ ID := "A1", Row := "A", Number := 1, Status := .AVAILABLE, Price := 150 },
              { ID := "A2", Row := "A", Number := 2, Status := .AVAILABLE, Price := 150 },
              { ID := "A3", Row := "A", Number := 3, Status := .AVAILABLE, Price := 150 }],
    TotalSeats := 3, CreatedAt := 0, UpdatedAt := 0 }

/-- A database that holds the demo session and no booking. -/
def demoDB : MongoDB :=
  { up := true, sessions := [demoSession], bookings := [] }

/-- The same database when the two `UpdateOne` calls to come fail, as they do when the server
drops out after the insert. -/
def demoDBUpdatesFail : MongoDB :=
  { demoDB with updateFaults := [true, true] }

/-- A lock store on which `u1` holds `A1` and `A2` of the demo session. -/
def u1HoldsA1A2 : RedisClient :=
  { online := true,
    data := [("seat_lock:64b7f3a2c1d4e5f601234567:A1", { owner := "u1", ttl := 250 }),
             ("seat_lock:64b7f3a2c1d4e5f601234567:A2", { owner := "u1", ttl := 250 })] }

/-- A lock store on which `u1` holds the label `Z9`, which is no seat of the demo session. -/
def u1HoldsZ9 : RedisClient :=
  { online := true,
    data := [("seat_lock:64b7f3a2c1d4e5f601234567:Z9", { owner := "u1", ttl := 250 })] }

/-- The request of `u1` to book `A1` and `A2` of the demo session. -/
def demoRequest : BookingRequest :=
  { SessionID := "64b7f3a2c1d4e5f601234567", SeatIDs := ["A1", "A2"], UserID := "u1",
    UserEmail := "u1@x.org" }

/-! ## `services/lock_monitor.go`: the expiry monitor

Strings are sequences of characters here and indices count characters. The source indexes bytes;
the prefix `seat_lock:` and the colon are ASCII, so on every key the byte-indexed tests and
slices of the source select the same substrings as the character-indexed ones below. -/

/-- The slice expression `s[lo:hi]`; `none` stands for the run-time panic "slice bounds out of
range". -/
def sliceChars (s : List Char) (lo hi : Nat) : Option (List Char) :=
  if lo ≤ hi ∧ hi ≤ s.length then some ((s.drop lo).take (hi - lo)) else none

/-- The loop of `parseKeyParts` over the characters that are left, at index `i`, with the current
`start` and the parts found so far. -/
def parseKeyPartsLoop (s : List Char) :
    List Char → Nat → Nat → List String → Option (Nat × List String)
  | [], _, start, parts => some (start, parts)
  | ch :: rest, i, start, parts =>
    if ch = ':' then
      match sliceChars s start i with
      | none => none
      | some part => parseKeyPartsLoop s rest (i + 1) (i + 1) (parts ++ [String.mk part])
    else parseKeyPartsLoop s rest (i + 1) start parts

/-- Function `parseKeyParts`: the pieces between colons, without a trailing empty piece. -/
def parseKeyParts (s : String) : Option (List String) :=
  match parseKeyPartsLoop s.data s.data 0 0 [] with
  | none => none
  | some (start, parts) =>
    if start < s.length then
      match sliceChars s.data start s.length with
      | none => none
      | some part => some (parts ++ [String.mk part])
    else some parts

/-- The call `BroadcastSeatUpdate`: one `SEAT_UPDATE` message for the session, carrying the single
update. -/
def BroadcastSeatUpdate (sessionID : String) (seatUpdate : SeatUpdate) : Emitted :=
  .broadcast sessionID "SEAT_UPDATE" [seatUpdate]

/-- The audit event of an expired lock; it names no user. -/
def lockExpiredLog (sessionID seatID : String) : AuditLog :=
  { EventType := "LOCK_EXPIRED", SessionID := sessionID, UserID := "", SeatIDs := [seatID],
    Description := "Seat lock expired (5 min timeout)" }

/-- Method `handleExpiredKey`: what the monitor emits for an expired key; `none` stands for a
panic on an index out of range. -/
def handleExpiredKey (key : String) : Option (List Emitted) :=
  if key.length < 11 then some []
  else
    match sliceChars key.data 0 10 with
    | none => none
    | some head =>
      if String.mk head ≠ "seat_lock:" then some []
      else
        match sliceChars key.data 10 key.length with
        | none => none
        | some tail =>
          match parseKeyParts (String.mk tail) with
          | none => none
          | some keyParts =>
            match keyParts with
            | [sessionID, seatID] =>
              some [BroadcastSeatUpdate sessionID { SeatID := seatID, Status := .AVAILABLE },
                    .auditLog (lockExpiredLog sessionID seatID)]
            | _ => some []

/-! ## `websocket/hub.go` and `websocket/client.go`: the subscriber hub

The hub loop handles one message of its `register`, `unregister` and `broadcast` channels at a
time; a step below is the handling of one such message. A client pointer is an index into the
list of clients. The source ranges over a map in unspecified order; the model ranges over the
set of a session in list order. -/

/-- Capacity of a subscriber's outbound buffer (`make(chan []byte, 256)`). -/
def sendCapacity : Nat := 256

/-- The channel `send` of a client: the queued messages, oldest first, and whether the channel
has been closed. -/
structure SendChan where
  queue : List String
  closed : Bool
deriving DecidableEq, Repr

/-- A subscriber, as far as the hub uses it. -/
structure Client where
  SessionID : String
  UserID : String
  send : SendChan
deriving DecidableEq, Repr

/-- The hub: the map `clients` from session ID to the set of client pointers, and the clients
the pointers refer to. -/
structure Hub where
  clients : List (String × List Nat)
  heap : List Client
deriving DecidableEq, Repr

/-- How the handling of a message ends: normally, with a run-time panic, or with the hub loop
blocked for ever in `h.unregister <- client`, a send on the unbuffered channel that only the
blocked loop itself receives from. -/
inductive HubResult where
  | done (hub : Hub)
  | panic (msg : String)
  | blocked (hub : Hub) (client : Nat)
deriving DecidableEq, Repr

/-- The set `h.clients[sessionID]`, if the map has the key. -/
def Hub.sessionSet (h : Hub) (sessionID : String) : Option (List Nat) :=
  (h.clients.find? fun e => decide (e.1 = sessionID)).map fun e => e.2

/-- The map with `client` added to the set of `sessionID`, the set being created when the key
is missing. -/
def addToSession (sessionID : String) (client : Nat) :
    List (String × List Nat) → List (String × List Nat)
  | [] => [(sessionID, [client])]
  | (sid, set) :: rest =>
    if sid = sessionID then (sid, if client ∈ set then set else set ++ [client]) :: rest
    else (sid, set) :: addToSession sessionID client rest

/-- The map with `client` deleted from the set of `sessionID` and the key deleted when the set
becomes empty. -/
def removeFromSession (sessionID : String) (client : Nat) :
    List (String × List Nat) → List (String × List Nat)
  | [] => []
  | (sid, set) :: rest =>
    if sid = sessionID then
      if (set.filter fun p => decide (p ≠ client)).isEmpty then rest
      else (sid, set.filter fun p => decide (p ≠ client)) :: rest
    else (sid, set) :: removeFromSession sessionID client rest

/-- Method `registerClient`. -/
def Hub.registerClient (h : Hub) (client : Nat) : HubResult :=
  match h.heap.get? client with
  | none => .panic "invalid memory address or nil pointer dereference"
  | some c => .done { h with clients := addToSession c.SessionID client h.clients }

/-- Method `unregisterClient`: a registered client is deleted from its session's set and its
`send` channel is closed; closing a closed channel panics. -/
def Hub.unregisterClient (h : Hub) (client : Nat) : HubResult :=
  match h.heap.get? client with
  | none => .panic "invalid memory address or nil pointer dereference"
  | some c =>
    match h.sessionSet c.SessionID with
    | none => .done h
    | some set =>
      if client ∈ set then
        if c.send.closed then .panic "close of closed channel"
        else
          let closedClient : Client := { c with send := { c.send with closed := true } }
          .done { clients := removeFromSession c.SessionID client h.clients,
                  heap := h.heap.set client closedClient }
      else .done h

/-- The loop of `broadcastToSession` over the clients of the set that are left. For each one the
`select` sends on `client.send`: a closed channel panics, a channel with room takes the message,
and on a full channel the default branch runs `h.unregister <- client`, which blocks. -/
def Hub.broadcastLoop (h : Hub) (message : String) : List Nat → HubResult
  | [] => .done h
  | client :: rest =>
    match h.heap.get? client with
    | none => .panic "invalid memory address or nil pointer dereference"
    | some c =>
      if c.send.closed then .panic "send on closed channel"
      else if c.send.queue.length < sendCapacity then
        let served : Client := { c with send := { c.send with queue := c.send.queue ++ [message] } }
        Hub.broadcastLoop { h with heap := h.heap.set client served } message rest
      else .blocked h client

/-- Method `broadcastToSession`. -/
def Hub.broadcastToSession (h : Hub) (sessionID : String) (message : String) : HubResult :=
  match h.sessionSet sessionID with
  | none => .done h
  | some set => h.broadcastLoop message set

/-- Method `changeSession` of a client: nothing for the current session; otherwise the hub
handles the `unregister` message, the client overwrites its session ID, and the hub handles the
`register` message. -/
def Hub.changeSession (h : Hub) (client : Nat) (newSessionID : String) : HubResult :=
  match h.heap.get? client with
  | none => .panic "invalid memory address or nil pointer dereference"
  | some c =>
    if c.SessionID = newSessionID then .done h
    else
      match h.unregisterClient client with
      | .done h1 =>
        match h1.heap.get? client with
        | none => .panic "invalid memory address or nil pointer dereference"
        | some c1 =>
          let moved : Client := { c1 with SessionID := newSessionID }
          Hub.registerClient { h1 with heap := h1.heap.set client moved } client
      | other => other

/-- An inbound frame after `json.Unmarshal`: not an object, an object without a string `type`,
or an object with a string `type` and possibly a string `sessionId`. -/
inductive Inbound where
  | unparsable
  | untyped
  | typed (msgType : String) (sessionId : Option String)
deriving DecidableEq, Repr

/-- Method `handleMessage` of a client. `PING` queues the `PONG` frame on the client's own
`send` channel (a blocking send: it panics on a closed channel and blocks the reader on a full
one); `SUBSCRIBE` with a session ID changes the session; everything else is ignored. -/
def Hub.handleMessage (h : Hub) (client : Nat) (message : Inbound) : HubResult :=
  match message with
  | .typed "PING" _ =>
    match h.heap.get? client with
    | none => .panic "invalid memory address or nil pointer dereference"
    | some c =>
      if c.send.closed then .panic "send on closed channel"
      else if c.send.queue.length < sendCapacity then
        let pong : String := "\x7b\"type\":\"PONG\"\x7d"
        let served : Client := { c with send := { c.send with queue := c.send.queue ++ [pong] } }
        .done { h with heap := h.heap.set client served }
      else .blocked h client
  | .typed "SUBSCRIBE" (some newSessionID) => h.changeSession client newSessionID
  | _ => .done h

/-- A hub with one subscriber, client `0` of user `u1`, registered under session `S1` with an
empty open buffer. -/
def oneSubscriberS1 : Hub :=
  { clients := [("S1", [0])],
    heap := [{ SessionID := "S1", UserID := "u1", send := { queue := [], closed := false } }] }

/-- A server on which `u1` holds `A1` and `u2` holds `A2` of session `S1`. -/
def u1HoldsA1u2HoldsA2 : RedisClient :=
  { online := true,
    data := [("seat_lock:S1:A1", { owner := "u1", ttl := 120 }),
             ("seat_lock:S1:A2", { owner := "u2", ttl := 200 })] }

/-! ## Runs of the hub -/

/-- A message the hub loop handles (`register`, `unregister`, `broadcast`) or a `SUBSCRIBE`
frame that a client handles. -/
inductive HubStep where
  | register (client : Nat)
  | unregister (client : Nat)
  | broadcast (sessionID : String) (message : String)
  | subscribe (client : Nat) (sessionID : String)
deriving DecidableEq, Repr

/-- The outcome of one step. -/
def Hub.step (h : Hub) : HubStep → HubResult
  | .register client => h.registerClient client
  | .unregister client => h.unregisterClient client
  | .broadcast sessionID message => h.broadcastToSession sessionID message
  | .subscribe client sessionID => h.handleMessage client (.typed "SUBSCRIBE" (some sessionID))

/-- The outcome of a run of steps; a panic or a blocked hub loop ends the run. -/
def Hub.run (h : Hub) : List HubStep → HubResult
  | [] => .done h
  | s :: rest =>
    match h.step s with
    | .done h1 => h1.run rest
    | other => other

/-- A hub that has created one client of `u1` for session `S1` (`NewClient`: empty open buffer)
and registered nobody yet. -/
def freshHub : Hub :=
  { clients := [],
    heap := [{ SessionID := "S1", UserID := "u1", send := { queue := [], closed := false } }] }

/-- A hub whose session `S1` has the subscribers `0`, with 256 pending messages, and `1`, with
an empty buffer, and whose session `S2` has the subscriber `2`. -/
def slowAndFastS1 : Hub :=
  { clients := [("S1", [0, 1]), ("S2", [2])],
    heap := [{ SessionID := "S1", UserID := "slow",
               send := { queue := List.replicate 256 "old", closed := false } },
             { SessionID := "S1", UserID := "fast", send := { queue := [], closed := false } },
             { SessionID := "S2", UserID := "other", send := { queue := [], closed := false } }] }

/-! ## `handlers/handlers.go`: the session handler -/

/-- Status `404`. -/
def StatusNotFound : Nat := 404

/-- One round of the loop of `GetSession`: a seat that is locked and not BOOKED is shown as
LOCKED by the owner of the lock; the error of the probe is dropped. -/
def reconcileSeat (c : RedisClient) (sessionID : String) (seat : Seat) : Seat :=
  match IsLocked c sessionID seat.ID with
  | (isLocked, lockedBy, _) =>
    if isLocked = true ∧ seat.Status ≠ .BOOKED then
      { seat with Status := .LOCKED, LockedBy := lockedBy }
    else seat

/-- The loop of `GetSession` over the seats of the session. -/
def reconcileSeats (c : RedisClient) (sessionID : String) : List Seat → List Seat
  | [] => []
  | seat :: rest => reconcileSeat c sessionID seat :: reconcileSeats c sessionID rest

/-- The answer of the session handler: status code, uniform body and, on success, the session. -/
structure SessionResponse where
  code : Nat
  body : APIResponse
  session : Option MovieSession := none
deriving DecidableEq, Repr

/-- Handler `GetSession` for the path parameter `sessionID`; it changes no state. -/
def Handler.GetSession (h : Handler) (db : MongoDB) (sessionID : String) : SessionResponse :=
  match ObjectIDFromHex sessionID with
  | .error _ =>
    { code := StatusBadRequest, body := { Success := false, Error := "Invalid session ID" } }
  | .ok objectID =>
    match db.FindSession objectID with
    | .error _ =>
      { code := StatusNotFound, body := { Success := false, Error := "Session not found" } }
    | .ok session =>
      { code := StatusOK, body := { Success := true },
        session := some { session with
          Seats := reconcileSeats h.lockService sessionID session.Seats } }

/-- The demo session after `A1` was booked. -/
def demoSessionA1Booked : MovieSession :=
  { demoSession with
    Seats := [{ ID := "A1", Row := "A", Number := 1, Status := .BOOKED, Price := 150 },
              { ID := "A2", Row := "A", Number := 2, Status := .AVAILABLE, Price := 150 },
              { ID := "A3", Row := "A", Number := 3, Status := .AVAILABLE, Price := 150 }] }

/-! ## A run that sells a seat twice -/

/-- Step 1: on an empty lock store, `u1` posts a lock request for `A1` of the demo session. -/
def resaleLock1 : Handler × Nat × APIResponse :=
  Handler.LockSeats { lockService := { online := true, data := [] }, emitted := [] }
    (.ok { SessionID := "64b7f3a2c1d4e5f601234567", SeatIDs := ["A1"], UserID := "u1" })

/-- Step 2: `u1` books `A1`. -/
def resaleBooking1 : BookingOutcome :=
  resaleLock1.1.CreateBooking demoDB
    (.ok { SessionID := "64b7f3a2c1d4e5f601234567", SeatIDs := ["A1"], UserID := "u1",
           UserEmail := "u1@x.org" }) 1000 77

/-- Step 3: `u2` posts a lock request for the booked seat `A1`. -/
def resaleLock2 : Handler × Nat × APIResponse :=
  resaleBooking1.handler.LockSeats
    (.ok { SessionID := "64b7f3a2c1d4e5f601234567", SeatIDs := ["A1"], UserID := "u2" })

/-- The booking request of `u2` for `A1`. -/
def resaleRequest2 : BookingRequest :=
  { SessionID := "64b7f3a2c1d4e5f601234567", SeatIDs := ["A1"], UserID := "u2",
    UserEmail := "u2@x.org" }

/-- Step 4: `u2` books `A1`. -/
def resaleBooking2 : BookingOutcome :=
  resaleLock2.1.CreateBooking resaleBooking1.db (.ok resaleRequest2) 2000 78

/-! ## `handlers/admin.go`: the pagination parser -/

/-- The value a mathematical integer has as a 64-bit `int`, with wrap-around. -/
def wrapInt (x : Int) : Int :=
  (x + 2 ^ 63) % 2 ^ 64 - 2 ^ 63

/-- Function `parseIntHelper` on the characters that are left, with the current `*result`:
returns the flag, the error and the final `*result`. -/
def parseIntHelper : List Char → Int → Bool × Option String × Int
  | [], result => (true, none, result)
  | ch :: rest, result =>
    if ch < '0' ∨ ch > '9' then (false, none, result)
    else parseIntHelper rest (wrapInt (result * 10 + ((ch.toNat : Int) - ('0'.toNat : Int))))

/-- Function `parseInt`: the result and the error of the helper, started at zero. -/
def parseInt (s : String) : Int × Option String :=
  match parseIntHelper s.data 0 with
  | (_, err, result) => (result, err)

/-- Page, limit and skip of a listing. -/
structure Pagination where
  page : Int
  limit : Int
  skip : Int
deriving DecidableEq, Repr

/-- The pagination block of `GetBookings` for the query parameters `page` and `limit` (empty when
absent). -/
def bookingsPagination (pageQuery limitQuery : String) : Pagination :=
  let page : Int :=
    if pageQuery ≠ "" then
      match parseInt pageQuery with
      | (parsed, err) => if err = none ∧ parsed > 0 then parsed else 1
    else 1
  let limit : Int :=
    if limitQuery ≠ "" then
      match parseInt limitQuery with
      | (parsed, err) => if err = none ∧ parsed > 0 ∧ parsed ≤ 100 then parsed else 20
    else 20
  { page := page, limit := limit, skip := wrapInt ((page - 1) * limit) }

/-- Whether a character is a decimal digit (the words of the specification). -/
def isDecimalDigit (ch : Char) : Bool :=
  decide ('0' ≤ ch ∧ ch ≤ '9')

/-- Decimal value of a string of digits, most significant first, continuing from `acc` (the
words of the specification, without a bound). -/
def decimalValue (acc : Nat) : List Char → Nat
  | [] => acc
  | ch :: rest => decimalValue (acc * 10 + (ch.toNat - '0'.toNat)) rest

/-- The digits of a string that precede its first non-digit. -/
def leadingDigits (s : String) : List Char :=
  s.data.takeWhile isDecimalDigit

/-! ## The audit pipeline: `services/kafka_producer.go` and `services/kafka_consumer.go` -/

/-- The full `models.AuditLog` value: the fields of `AuditLog` together with the identity and the
timestamp, each zero while it is unset. -/
structure AuditLogEntry extends AuditLog where
  ID : ObjectID := NilObjectID
  Timestamp : Nat := 0
deriving DecidableEq, Repr

/-- A JSON value as it occurs in a marshalled audit event: null, a string, an array of strings,
an object identifier in its hexadecimal form, or a time in its RFC 3339 form. -/
inductive JsonValue where
  | null
  | str (s : String)
  | strs (items : List String)
  | oid (id : ObjectID)
  | time (t : Nat)
deriving DecidableEq, Repr

/-- The call `json.Marshal(auditLog)`: one member per field, under its `json` name. The tag
`omitempty` on `id` has no effect on the fixed-size identifier. -/
def marshalAuditLog (e : AuditLogEntry) : List (String × JsonValue) :=
  [("id", .oid e.ID), ("eventType", .str e.EventType), ("sessionId", .str e.SessionID),
   ("userId", .str e.UserID), ("seatIds", .strs e.SeatIDs), ("timestamp", .time e.Timestamp),
   ("description", .str e.Description)]

/-- Decoding of a string field: a missing or null member leaves the zero value, a member of
another type is an error. -/
def jsonString (doc : List (String × JsonValue)) (key : String) : Except String String :=
  match doc.lookup key with
  | none => .ok ""
  | some .null => .ok ""
  | some (.str s) => .ok s
  | some _ => .error ("json: cannot unmarshal field " ++ key)

/-- Decoding of a field that holds an array of strings. -/
def jsonStrings (doc : List (String × JsonValue)) (key : String) :
    Except String (List String) :=
  match doc.lookup key with
  | none => .ok []
  | some .null => .ok []
  | some (.strs items) => .ok items
  | some _ => .error ("json: cannot unmarshal field " ++ key)

/-- Decoding of an identifier field. -/
def jsonObjectID (doc : List (String × JsonValue)) (key : String) : Except String ObjectID :=
  match doc.lookup key with
  | none => .ok NilObjectID
  | some .null => .ok NilObjectID
  | some (.oid id) => .ok id
  | some _ => .error ("json: cannot unmarshal field " ++ key)

/-- Decoding of a time field. -/
def jsonTime (doc : List (String × JsonValue)) (key : String) : Except String Nat :=
  match doc.lookup key with
  | none => .ok 0
  | some .null => .ok 0
  | some (.time t) => .ok t
  | some _ => .error ("json: cannot unmarshal field " ++ key)

/-- The call `json.Unmarshal(msg.Value, &auditLog)`. -/
def unmarshalAuditLog (doc : List (String × JsonValue)) : Except String AuditLogEntry := do
  let id ← jsonObjectID doc "id"
  let eventType ← jsonString doc "eventType"
  let sessionId ← jsonString doc "sessionId"
  let userId ← jsonString doc "userId"
  let seatIds ← jsonStrings doc "seatIds"
  let timestamp ← jsonTime doc "timestamp"
  let description ← jsonString doc "description"
  return { ID := id, EventType := eventType, SessionID := sessionId, UserID := userId,
           SeatIDs := seatIds, Timestamp := timestamp, Description := description }

/-- A message of the bus: key, value and headers. -/
structure KafkaMessage where
  Key : String
  Value : List (String × JsonValue)
  Headers : List (String × JsonValue)
deriving DecidableEq, Repr

/-- The writer of the bus: whether the broker can be reached and the messages written. -/
structure KafkaWriter where
  up : Bool
  written : List KafkaMessage
deriving DecidableEq, Repr

/-- The message `SendAuditLog` builds for an event whose timestamp is set. -/
def auditMessage (e : AuditLogEntry) : KafkaMessage :=
  { Key := e.SessionID, Value := marshalAuditLog e,
    Headers := [("event_type", .str e.EventType), ("timestamp", .time e.Timestamp)] }

/-- Method `SendAuditLog` of the producer, with the reading `now` of the clock: returns the
writer and the error. A nil writer skips the event without error. -/
def SendAuditLog (writer : Option KafkaWriter) (now : Nat) (auditLog : AuditLogEntry) :
    Option KafkaWriter × Option String :=
  match writer with
  | none => (none, none)
  | some w =>
    let stamped : AuditLogEntry :=
      if auditLog.Timestamp = 0 then { auditLog with Timestamp := now } else auditLog
    if w.up then (some { w with written := w.written ++ [auditMessage stamped] }, none)
    else (some w, some "failed to write message to Kafka: connection refused")

/-- The collection `audit_logs`: whether the database can be reached and the documents. -/
structure AuditStore where
  up : Bool
  logs : List AuditLogEntry
deriving DecidableEq, Repr

/-- Method `processMessage` of the consumer, with the reading `now` of the clock and the
identifier `freshID` that `NewObjectID` would return: returns the collection and the error. -/
def processMessage (store : AuditStore) (msg : KafkaMessage) (now : Nat) (freshID : ObjectID) :
    AuditStore × Option String :=
  match unmarshalAuditLog msg.Value with
  | .error err => (store, some err)
  | .ok auditLog =>
    let identified : AuditLogEntry :=
      if auditLog.ID = NilObjectID then { auditLog with ID := freshID } else auditLog
    let stamped : AuditLogEntry :=
      if identified.Timestamp = 0 then { identified with Timestamp := now } else identified
    if store.up then ({ store with logs := store.logs ++ [stamped] }, none)
    else (store, some "server selection error")

/-- The event `LogSeatLocked` hands to `SendAuditLog` when `u1` locked `A1` of `S1`: identity
and timestamp are unset. -/
def seatLockedEvent : AuditLogEntry :=
  { toAuditLog := LogSeatLocked "S1" "u1" ["A1"] }

/-! ## Calls in flight: the round trips of a call, interleaved with those of other calls

A call of the lock service sends one command (or one pipeline) per round trip to the store. The
store serves the round trips of all calls in flight one at a time, in any order, and records
expire in between. -/

/-- What remains of a call of the lock service before its next round trip. The loop of
`UnlockSeat` calls is the loop of `UnlockMultipleSeats` and of the rollback; a single
`UnlockSeat` is the loop over one seat. `extendExpire` and `unlockDel` are the calls that have
read their own user ID under the key and are about to send `EXPIRE` and `DEL`. -/
inductive Call where
  | lockSeat (sessionID seatID userID : String)
  | extendLock (sessionID seatID userID : String)
  | extendExpire (sessionID seatID userID : String)
  | lockMultipleSeats (sessionID : String) (seatIDs : List String) (userID : String)
  | unlockSeats (sessionID : String) (seatIDs : List String) (userID : String)
  | unlockDel (sessionID seatID : String) (rest : List String) (userID : String)
deriving DecidableEq, Repr

/-- The user who issued the call. -/
def Call.user : Call → String
  | .lockSeat _ _ u => u
  | .extendLock _ _ u => u
  | .extendExpire _ _ u => u
  | .lockMultipleSeats _ _ u => u
  | .unlockSeats _ _ u => u
  | .unlockDel _ _ _ u => u

/-- A call of the service before its first round trip. -/
def Call.ofOp : Op → Call
  | .lockSeat sessionID seatID userID => .lockSeat sessionID seatID userID
  | .unlockSeat sessionID seatID userID => .unlockSeats sessionID [seatID] userID
  | .extendLock sessionID seatID userID => .extendLock sessionID seatID userID
  | .lockMultipleSeats sessionID seatIDs userID => .lockMultipleSeats sessionID seatIDs userID
  | .unlockMultipleSeats sessionID seatIDs userID => .unlockSeats sessionID seatIDs userID

/-- The next round trip of a call: the store after it and what remains of the call (`none` when
the call returns). `LockSeat` sends `SET NX`; `ExtendLock` sends `GET` and, when it read the
caller, `EXPIRE`; `LockMultipleSeats` sends its pipeline, which the server is taken to run as
one batch, and on a partial failure goes on with the rollback; each `UnlockSeat` of a loop sends
`GET` and, when it read the caller, `DEL`. -/
def Call.step (c : RedisClient) : Call → RedisClient × Option Call
  | .lockSeat sessionID seatID userID =>
    ((c.SetNX (getLockKey sessionID seatID) userID LockDuration).1, none)
  | .extendLock sessionID seatID userID =>
    match c.Get (getLockKey sessionID seatID) with
    | .error _ => (c, none)
    | .ok currentOwner =>
      if currentOwner ≠ userID then (c, none)
      else (c, some (.extendExpire sessionID seatID userID))
  | .extendExpire sessionID seatID _ =>
    ((c.Expire (getLockKey sessionID seatID) LockDuration).1, none)
  | .lockMultipleSeats sessionID seatIDs userID =>
    match lockPipeline c sessionID seatIDs userID with
    | (c1, results, err) =>
      if err.isSome ∧ err ≠ some RedisError.Nil then (c1, none)
      else
        if (partitionResults seatIDs results).2.length > 0 ∧
            (partitionResults seatIDs results).1.length > 0 then
          (c1, some (.unlockSeats sessionID (partitionResults seatIDs results).1 userID))
        else (c1, none)
  | .unlockSeats _ [] _ => (c, none)
  | .unlockSeats sessionID (seatID :: rest) userID =>
    match c.Get (getLockKey sessionID seatID) with
    | .error _ => (c, some (.unlockSeats sessionID rest userID))
    | .ok currentOwner =>
      if currentOwner ≠ userID then (c, some (.unlockSeats sessionID rest userID))
      else (c, some (.unlockDel sessionID seatID rest userID))
  | .unlockDel sessionID seatID rest userID =>
    ((c.Del (getLockKey sessionID seatID)).1, some (.unlockSeats sessionID rest userID))

/-- The key on which a call is about to send the command it decided on in an earlier round trip:
the `EXPIRE` of an extension or the `DEL` of a release. -/
def Call.pendingKey : Call → Option String
  | .extendExpire sessionID seatID _ => some (getLockKey sessionID seatID)
  | .unlockDel sessionID seatID _ _ => some (getLockKey sessionID seatID)
  | _ => none

/-- A bound on the number of round trips (and loop exits) a call has left. -/
def Call.rounds : Call → Nat
  | .lockSeat _ _ _ => 1
  | .extendLock _ _ _ => 2
  | .extendExpire _ _ _ => 1
  | .lockMultipleSeats _ seatIDs _ => 2 * seatIDs.length + 2
  | .unlockSeats _ seatIDs _ => 2 * seatIDs.length + 1
  | .unlockDel _ _ rest _ => 2 * rest.length + 2

/-- The store after a call ran through its round trips with nothing in between, for at most
`fuel` round trips. -/
def Call.finish : Nat → RedisClient → Call → RedisClient
  | 0, c, _ => c
  | fuel + 1, c, call =>
    match call.step c with
    | (c1, none) => c1
    | (c1, some next) => Call.finish fuel c1 next

/-- The lock store together with the calls in flight, in order of arrival; a call that returned
leaves `none` in its place. -/
structure LockSystem where
  store : RedisClient
  calls : List (Option Call)
deriving DecidableEq, Repr

/-- What happens next in the system: a call arrives, the call at position `i` makes its next
round trip, time passes, or the server goes down or comes back. -/
inductive LockStep where
  | arrive (op : Op)
  | advance (i : Nat)
  | wait (dt : Nat)
  | setOnline (b : Bool)
deriving DecidableEq, Repr

/-- The system after one step. -/
def LockSystem.step (s : LockSystem) : LockStep → LockSystem
  | .arrive op => { s with calls := s.calls ++ [some (Call.ofOp op)] }
  | .advance i =>
    match s.calls[i]? with
    | some (some call) =>
      { store := (call.step s.store).1, calls := s.calls.set i (call.step s.store).2 }
    | _ => s
  | .wait dt => { s with store := { s.store with data := expireAfter dt s.store.data } }
  | .setOnline b => { s with store := { s.store with online := b } }

/-- The system after a sequence of steps. -/
def LockSystem.run (s : LockSystem) (steps : List LockStep) : LockSystem :=
  steps.foldl LockSystem.step s

/-- The empty store with no call in flight. -/
def LockSystem.initial : LockSystem :=
  { store := { online := true, data := [] }, calls := [] }

/-- A release that straddles an expiry: `u2` locks `A1` of `S1`; 299 s later a release of `A1` by
`u2` reads the owner `u2`; within the next second the record expires and `u1` locks `A1`. The
`DEL` of the release by `u2` is still to come, one second after its `GET` and well within the
10 s deadline of the request. -/
def releaseAcrossExpiry : List LockStep :=
  [.arrive (.lockSeat "S1" "A1" "u2"), .advance 0,
   .wait 299,
   .arrive (.unlockSeat "S1" "A1" "u2"), .advance 1,
   .wait 1,
   .arrive (.lockSeat "S1" "A1" "u1"), .advance 2]

/-! ## Facts about the store -/

theorem LockDuration_eq : LockDuration = 300 := rfl

theorem getLockKey_eq (sessionID seatID : String) :
    getLockKey sessionID seatID = "seat_lock:" ++ sessionID ++ ":" ++ seatID := rfl

theorem lookup_cons_self (k : String) (r : LockRecord) (d : List (String × LockRecord)) :
    lookup k ((k, r) :: d) = some r := by
  simp [lookup]

theorem lookup_cons_ne {k k' : String} (h : k' ≠ k) (r : LockRecord)
    (d : List (String × LockRecord)) : lookup k ((k', r) :: d) = lookup k d := by
  simp [lookup, h]

theorem lookup_erase_self (k : String) (d : List (String × LockRecord)) :
    lookup k (erase k d) = none := by
  induction d with
  | nil => rfl
  | cons e rest ih =>
    obtain ⟨k', r⟩ := e
    by_cases h : k' = k <;> simp [erase, lookup, h, ih]

theorem lookup_erase_ne {k k' : String} (h : k' ≠ k) (d : List (String × LockRecord)) :
    lookup k (erase k' d) = lookup k d := by
  induction d with
  | nil => rfl
  | cons e rest ih =>
    obtain ⟨k2, r⟩ := e
    by_cases h1 : k2 = k'
    · subst h1
      simp [erase, lookup, h, ih]
    · by_cases h2 : k2 = k
      · subst h2
        simp [erase, lookup, h1]
      · simp [erase, lookup, h1, h2, ih]

theorem erase_of_lookup_none {k : String} {d : List (String × LockRecord)}
    (h : lookup k d = none) : erase k d = d := by
  induction d with
  | nil => rfl
  | cons e rest ih =>
    obtain ⟨k', r⟩ := e
    by_cases h1 : k' = k
    · simp [lookup, h1] at h
    · simp [lookup, h1] at h
      simp [erase, h1, ih h]

theorem lookup_setTTL_ne {k k' : String} (h : k' ≠ k) (ttl : Nat)
    (d : List (String × LockRecord)) : lookup k (setTTL k' ttl d) = lookup k d := by
  induction d with
  | nil => rfl
  | cons e rest ih =>
    obtain ⟨k2, r⟩ := e
    by_cases h1 : k2 = k'
    · subst h1
      simp [setTTL, lookup, h, ih]
    · by_cases h2 : k2 = k
      · subst h2
        simp [setTTL, lookup, h1]
      · simp [setTTL, lookup, h1, h2, ih]

/-! ## Single-seat operations, case by case -/

theorem UnlockSeat_offline (c : RedisClient) (sessionID seatID userID : String)
    (hoff : c.online = false) :
    UnlockSeat c sessionID seatID userID =
      (c, false, some ("failed to check lock owner: " ++ connRefused.text)) := by
  simp [UnlockSeat, RedisClient.Get, hoff, connRefused]

theorem UnlockSeat_absent (c : RedisClient) (sessionID seatID userID : String)
    (hon : c.online = true) (h : lookup (getLockKey sessionID seatID) c.data = none) :
    UnlockSeat c sessionID seatID userID = (c, true, none) := by
  simp [UnlockSeat, RedisClient.Get, hon, h]

theorem UnlockSeat_other (c : RedisClient) (sessionID seatID userID : String) (r : LockRecord)
    (hon : c.online = true) (h : lookup (getLockKey sessionID seatID) c.data = some r)
    (hne : r.owner ≠ userID) :
    UnlockSeat c sessionID seatID userID =
      (c, false, some "cannot unlock: seat is locked by another user") := by
  simp [UnlockSeat, RedisClient.Get, hon, h, hne]

theorem UnlockSeat_own (c : RedisClient) (sessionID seatID userID : String) (r : LockRecord)
    (hon : c.online = true) (h : lookup (getLockKey sessionID seatID) c.data = some r)
    (hown : r.owner = userID) :
    UnlockSeat c sessionID seatID userID =
      ({ c with data := erase (getLockKey sessionID seatID) c.data }, true, none) := by
  simp [UnlockSeat, RedisClient.Get, RedisClient.Del, hon, h, hown]

/-- The data after `UnlockSeat` either is unchanged or lost exactly the entries of the seat's
key, and the latter only when the first of them was owned by the caller. -/
theorem UnlockSeat_data (c : RedisClient) (sessionID seatID userID : String) :
    (UnlockSeat c sessionID seatID userID).1 = c ∨
    ((UnlockSeat c sessionID seatID userID).1 =
        { c with data := erase (getLockKey sessionID seatID) c.data } ∧
      ∃ r, lookup (getLockKey sessionID seatID) c.data = some r ∧ r.owner = userID) := by
  rcases Bool.eq_false_or_eq_true c.online with hon | hon
  · cases h : lookup (getLockKey sessionID seatID) c.data with
    | none => left; rw [UnlockSeat_absent c _ _ _ hon h]
    | some r =>
      by_cases hown : r.owner = userID
      · right; rw [UnlockSeat_own c _ _ _ r hon h hown]; exact ⟨rfl, r, rfl, hown⟩
      · left; rw [UnlockSeat_other c _ _ _ r hon h hown]
  · left; rw [UnlockSeat_offline c _ _ _ hon]

/-- C6. `LockSeat` on an initialised client whose server answers: it returns no error; it returns
`acquired = true` exactly when no record existed under `seat_lock:{session}:{seat}`; in that case
the record afterwards holds the user ID with a TTL of 300 s and no other key changed; when a
record existed, `acquired = false` and the store is unchanged. -/
theorem LockSeat_conditional_create (c : RedisClient) (sessionID seatID userID : String)
    (hon : c.online = true) :
    (LockSeat { client := some c } sessionID seatID userID).2.2 = none ∧
    ((LockSeat { client := some c } sessionID seatID userID).2.1 = true ↔
      lookup ("seat_lock:" ++ sessionID ++ ":" ++ seatID) c.data = none) ∧
    (lookup ("seat_lock:" ++ sessionID ++ ":" ++ seatID) c.data = none →
      ∃ c1, (LockSeat { client := some c } sessionID seatID userID).1.client = some c1 ∧
        lookup ("seat_lock:" ++ sessionID ++ ":" ++ seatID) c1.data =
          some { owner := userID, ttl := 300 } ∧
        ∀ k, k ≠ "seat_lock:" ++ sessionID ++ ":" ++ seatID → lookup k c1.data = lookup k c.data) ∧
    (∀ r, lookup ("seat_lock:" ++ sessionID ++ ":" ++ seatID) c.data = some r →
      (LockSeat { client := some c } sessionID seatID userID).2.1 = false ∧
      (LockSeat { client := some c } sessionID seatID userID).1 = { client := some c }) := by
  rw [← getLockKey_eq]
  cases h : lookup (getLockKey sessionID seatID) c.data with
  | none =>
    refine ⟨?_, ?_, ?_, ?_⟩
    · simp [LockSeat, RedisClient.SetNX, hon, h]
    · simp [LockSeat, RedisClient.SetNX, hon, h]
    · intro _
      refine ⟨{ c with data := (getLockKey sessionID seatID,
        { owner := userID, ttl := LockDuration }) :: c.data }, ?_, ?_, ?_⟩
      · simp [LockSeat, RedisClient.SetNX, hon, h]
      · simp [lookup, LockDuration_eq]
      · intro k hk
        exact lookup_cons_ne (Ne.symm hk) _ _
    · intro r hr; cases hr
  | some r0 =>
    refine ⟨?_, ?_, ?_, ?_⟩
    · simp [LockSeat, RedisClient.SetNX, hon, h]
    · simp [LockSeat, RedisClient.SetNX, hon, h]
    · intro hn; cases hn
    · intro r _
      simp [LockSeat, RedisClient.SetNX, hon, h]

theorem LockSeat_conditional_create_witness :
    u1HoldsA1.online = true ∧
    (LockSeat { client := some u1HoldsA1 } "S1" "A2" "u2").2.2 = none ∧
    ((LockSeat { client := some u1HoldsA1 } "S1" "A2" "u2").2.1 = true ↔
      lookup ("seat_lock:" ++ "S1" ++ ":" ++ "A2") u1HoldsA1.data = none) ∧
    (lookup ("seat_lock:" ++ "S1" ++ ":" ++ "A2") u1HoldsA1.data = none →
      ∃ c1, (LockSeat { client := some u1HoldsA1 } "S1" "A2" "u2").1.client = some c1 ∧
        lookup ("seat_lock:" ++ "S1" ++ ":" ++ "A2") c1.data =
          some { owner := "u2", ttl := 300 } ∧
        ∀ k, k ≠ "seat_lock:" ++ "S1" ++ ":" ++ "A2" →
          lookup k c1.data = lookup k u1HoldsA1.data) ∧
    (∀ r, lookup ("seat_lock:" ++ "S1" ++ ":" ++ "A2") u1HoldsA1.data = some r →
      (LockSeat { client := some u1HoldsA1 } "S1" "A2" "u2").2.1 = false ∧
      (LockSeat { client := some u1HoldsA1 } "S1" "A2" "u2").1 = { client := some u1HoldsA1 }) :=
  ⟨rfl, LockSeat_conditional_create u1HoldsA1 "S1" "A2" "u2" rfl⟩

/-- C8, as stated, fails: `u1` holds `A1` and asks for it again; `LockSeat` answers
`acquired = false` without error although the record's owner is the requester. -/
theorem LockSeat_refused_owner_is_requester :
    (LockSeat { client := some u1HoldsA1 } "S1" "A1" "u1").2 = (false, none) ∧
    lookup (getLockKey "S1" "A1") u1HoldsA1.data = some { owner := "u1", ttl := 120 } ∧
    ¬ (∃ r, lookup (getLockKey "S1" "A1") u1HoldsA1.data = some r ∧ r.owner ≠ "u1") := by
  decide

/-- C8, amended. Whenever `LockSeat` returns `acquired = false` with no error, the client is
initialised, a lock record for the seat already exists (its owner may be the requester or
someone else) and the call left the store unchanged. -/
theorem LockSeat_refused_record_exists (s : RedisLockService)
    (sessionID seatID userID : String)
    (h : (LockSeat s sessionID seatID userID).2 = (false, none)) :
    ∃ c r, s.client = some c ∧ lookup (getLockKey sessionID seatID) c.data = some r ∧
      (LockSeat s sessionID seatID userID).1 = s := by
  obtain ⟨client⟩ := s
  cases client with
  | none => simp [LockSeat] at h
  | some c =>
    cases hon : c.online with
    | false => simp [LockSeat, RedisClient.SetNX, hon] at h
    | true =>
      cases hl : lookup (getLockKey sessionID seatID) c.data with
      | none => simp [LockSeat, RedisClient.SetNX, hon, hl] at h
      | some r =>
        refine ⟨c, r, rfl, hl, ?_⟩
        simp [LockSeat, RedisClient.SetNX, hon, hl]

theorem LockSeat_refused_record_exists_witness :
    (LockSeat { client := some u1HoldsA1 } "S1" "A1" "u1").2 = (false, none) ∧
    ∃ c r, (some u1HoldsA1) = some c ∧ lookup (getLockKey "S1" "A1") c.data = some r ∧
      (LockSeat { client := some u1HoldsA1 } "S1" "A1" "u1").1 = { client := some u1HoldsA1 } :=
  ⟨by decide, LockSeat_refused_record_exists { client := some u1HoldsA1 } "S1" "A1" "u1" (by decide)⟩

/-- C9. When `u1` holds a seat and another user `u2` calls `UnlockSeat` for it, the call returns
`false` with an error and leaves the store unchanged; when the server answers, the error is
"cannot unlock: seat is locked by another user". -/
theorem UnlockSeat_by_other_user (c : RedisClient) (sessionID seatID u1 u2 : String) (ttl : Nat)
    (hne : u1 ≠ u2)
    (hheld : lookup (getLockKey sessionID seatID) c.data = some { owner := u1, ttl := ttl }) :
    (UnlockSeat c sessionID seatID u2).1 = c ∧
    (UnlockSeat c sessionID seatID u2).2.1 = false ∧
    (UnlockSeat c sessionID seatID u2).2.2 ≠ none ∧
    (c.online = true → (UnlockSeat c sessionID seatID u2).2.2 =
      some "cannot unlock: seat is locked by another user") ∧
    lookup (getLockKey sessionID seatID) (UnlockSeat c sessionID seatID u2).1.data =
      some { owner := u1, ttl := ttl } := by
  cases hon : c.online with
  | false =>
    rw [UnlockSeat_offline c _ _ _ hon]
    simp [hheld]
  | true =>
    rw [UnlockSeat_other c _ _ _ _ hon hheld hne]
    simp [hheld]

theorem UnlockSeat_by_other_user_witness :
    "u1" ≠ "u2" ∧
    lookup (getLockKey "S1" "A1") u1HoldsA1.data = some { owner := "u1", ttl := 120 } ∧
    (UnlockSeat u1HoldsA1 "S1" "A1" "u2").1 = u1HoldsA1 ∧
    (UnlockSeat u1HoldsA1 "S1" "A1" "u2").2.1 = false ∧
    (UnlockSeat u1HoldsA1 "S1" "A1" "u2").2.2 ≠ none ∧
    (u1HoldsA1.online = true → (UnlockSeat u1HoldsA1 "S1" "A1" "u2").2.2 =
      some "cannot unlock: seat is locked by another user") ∧
    lookup (getLockKey "S1" "A1") (UnlockSeat u1HoldsA1 "S1" "A1" "u2").1.data =
      some { owner := "u1", ttl := 120 } :=
  ⟨by decide, by decide,
    UnlockSeat_by_other_user u1HoldsA1 "S1" "A1" "u1" "u2" 120 (by decide) (by decide)⟩

theorem getLockKey_seat_inj {sessionID a b : String}
    (h : getLockKey sessionID a = getLockKey sessionID b) : a = b := by
  have h1 := congrArg String.data h
  simp [getLockKey, String.data_append] at h1
  exact String.ext h1

theorem client_ext {c c' : RedisClient} (h1 : c.online = c'.online) (h2 : c.data = c'.data) :
    c = c' := by
  cases c; cases c'; simp_all

/-! ## The `SETNX` pipeline -/

theorem SetNX_online (c : RedisClient) (key value : String) (ttl : Nat) :
    (c.SetNX key value ttl).1.online = c.online := by
  unfold RedisClient.SetNX
  split
  · split <;> rfl
  · rfl

theorem SetNX_absent (c : RedisClient) (key value : String) (ttl : Nat) (hon : c.online = true)
    (h : lookup key c.data = none) :
    c.SetNX key value ttl =
      ({ c with data := (key, { owner := value, ttl := ttl }) :: c.data }, .ok true) := by
  simp [RedisClient.SetNX, hon, h]

theorem SetNX_present (c : RedisClient) (key value : String) (ttl : Nat) (r : LockRecord)
    (hon : c.online = true) (h : lookup key c.data = some r) :
    c.SetNX key value ttl = (c, .ok false) := by
  simp [RedisClient.SetNX, hon, h]

theorem SetNX_offline (c : RedisClient) (key value : String) (ttl : Nat)
    (hoff : c.online = false) : c.SetNX key value ttl = (c, .error connRefused) := by
  simp [RedisClient.SetNX, hoff]

/-- A record that exists is never replaced by `SETNX`. -/
theorem SetNX_keeps (c : RedisClient) (key value : String) (ttl : Nat) (k : String)
    (r : LockRecord) (h : lookup k c.data = some r) :
    lookup k (c.SetNX key value ttl).1.data = some r := by
  rcases Bool.eq_false_or_eq_true c.online with hon | hon
  · cases hl : lookup key c.data with
    | none =>
      rw [SetNX_absent c _ _ _ hon hl]
      have hk : key ≠ k := by
        intro hk; rw [hk, h] at hl; cases hl
      simpa [lookup, hk] using h
    | some r0 => rw [SetNX_present c _ _ _ r0 hon hl]; exact h
  · rw [SetNX_offline c _ _ _ hon]; exact h

/-- The command `SETNX` changes no key but its own. -/
theorem SetNX_other_key (c : RedisClient) (key value : String) (ttl : Nat) (k : String)
    (hk : k ≠ key) : lookup k (c.SetNX key value ttl).1.data = lookup k c.data := by
  rcases Bool.eq_false_or_eq_true c.online with hon | hon
  · cases hl : lookup key c.data with
    | none => rw [SetNX_absent c _ _ _ hon hl]; exact lookup_cons_ne (Ne.symm hk) _ _
    | some r0 => rw [SetNX_present c _ _ _ r0 hon hl]
  · rw [SetNX_offline c _ _ _ hon]

theorem runSetNX_cons (c : RedisClient) (key value : String) (ttl : Nat)
    (rest : List (String × String × Nat)) :
    (c.runSetNX ((key, value, ttl) :: rest)).1 = ((c.SetNX key value ttl).1.runSetNX rest).1 := by
  rw [RedisClient.runSetNX]
  split <;> simp_all

theorem runSetNX_online (c : RedisClient) (queued : List (String × String × Nat)) :
    (c.runSetNX queued).1.online = c.online := by
  induction queued generalizing c with
  | nil => rfl
  | cons q rest ih =>
    obtain ⟨key, value, ttl⟩ := q
    rw [runSetNX_cons, ih, SetNX_online]

theorem runSetNX_keeps (c : RedisClient) (queued : List (String × String × Nat)) (k : String)
    (r : LockRecord) (h : lookup k c.data = some r) :
    lookup k (c.runSetNX queued).1.data = some r := by
  induction queued generalizing c with
  | nil => exact h
  | cons q rest ih =>
    obtain ⟨key, value, ttl⟩ := q
    rw [runSetNX_cons]
    exact ih _ (SetNX_keeps c key value ttl k r h)

theorem runSetNX_other_key (c : RedisClient) (queued : List (String × String × Nat)) (k : String)
    (hk : ∀ q ∈ queued, k ≠ q.1) : lookup k (c.runSetNX queued).1.data = lookup k c.data := by
  induction queued generalizing c with
  | nil => rfl
  | cons q rest ih =>
    obtain ⟨key, value, ttl⟩ := q
    rw [runSetNX_cons, ih _ (fun q hq => hk q (List.mem_cons_of_mem _ hq)),
      SetNX_other_key c key value ttl k (hk _ (List.mem_cons_self _ _))]

theorem runSetNX_results_absent (c : RedisClient) (key value : String) (ttl : Nat)
    (rest : List (String × String × Nat)) (hon : c.online = true)
    (h : lookup key c.data = none) :
    (c.runSetNX ((key, value, ttl) :: rest)).2 =
      { val := true, err := none } ::
        (({ c with data := (key, { owner := value, ttl := ttl }) :: c.data } :
          RedisClient).runSetNX rest).2 := by
  rw [RedisClient.runSetNX, SetNX_absent c _ _ _ hon h]

theorem runSetNX_results_present (c : RedisClient) (key value : String) (ttl : Nat)
    (rest : List (String × String × Nat)) (r : LockRecord) (hon : c.online = true)
    (h : lookup key c.data = some r) :
    (c.runSetNX ((key, value, ttl) :: rest)).2 =
      { val := false, err := none } :: (c.runSetNX rest).2 := by
  rw [RedisClient.runSetNX, SetNX_present c _ _ _ r hon h]

theorem runSetNX_no_error (c : RedisClient) (queued : List (String × String × Nat))
    (hon : c.online = true) : firstError (c.runSetNX queued).2 = none := by
  induction queued generalizing c with
  | nil => rfl
  | cons q rest ih =>
    obtain ⟨key, value, ttl⟩ := q
    cases hl : lookup key c.data with
    | none =>
      rw [runSetNX_results_absent c _ _ _ _ hon hl]
      exact ih _ hon
    | some r =>
      rw [runSetNX_results_present c _ _ _ _ r hon hl]
      exact ih _ hon

/-- The queued commands of `LockMultipleSeats`. -/
theorem lockPipeline_online (c : RedisClient) (sessionID : String) (seatIDs : List String)
    (userID : String) (hon : c.online = true) :
    lockPipeline c sessionID seatIDs userID =
      ((c.runSetNX (seatIDs.map fun seatID =>
          (getLockKey sessionID seatID, userID, LockDuration))).1,
        (c.runSetNX (seatIDs.map fun seatID =>
          (getLockKey sessionID seatID, userID, LockDuration))).2, none) := by
  cases seatIDs with
  | nil => rfl
  | cons a rest =>
    simp only [lockPipeline, RedisClient.Exec, List.map_cons]
    rw [runSetNX_no_error _ _ hon]

/-! ## Rollback -/

theorem erase_erase_comm (k k' : String) (d : List (String × LockRecord)) :
    erase k (erase k' d) = erase k' (erase k d) := by
  induction d with
  | nil => rfl
  | cons e rest ih =>
    obtain ⟨k2, r⟩ := e
    by_cases h1 : k2 = k'
    · subst h1
      by_cases h2 : k2 = k
      · subst h2
        simp [erase, ih]
      · simp [erase, h2, ih]
    · by_cases h2 : k2 = k
      · subst h2
        simp [erase, h1, ih]
      · simp [erase, h1, h2, ih]

theorem eraseSeats_erase (sessionID : String) (seats : List String) (k : String)
    (d : List (String × LockRecord)) :
    eraseSeats sessionID seats (erase k d) = erase k (eraseSeats sessionID seats d) := by
  induction seats generalizing d with
  | nil => rfl
  | cons a rest ih =>
    simp only [eraseSeats]
    rw [erase_erase_comm, ih]

/-- When every record found under a listed seat belongs to the caller, the rollback removes
exactly the entries of the listed seats. -/
theorem rollback_eq_eraseSeats (c : RedisClient) (sessionID : String) (seats : List String)
    (userID : String) (hon : c.online = true)
    (hown : ∀ a ∈ seats, ∀ r, lookup (getLockKey sessionID a) c.data = some r →
      r.owner = userID) :
    rollback c sessionID seats userID =
      { c with data := eraseSeats sessionID seats c.data } := by
  induction seats generalizing c with
  | nil => rfl
  | cons a rest ih =>
    have hstep : (UnlockSeat c sessionID a userID).1 =
        { c with data := erase (getLockKey sessionID a) c.data } := by
      cases hl : lookup (getLockKey sessionID a) c.data with
      | none =>
        rw [UnlockSeat_absent c _ _ _ hon hl, erase_of_lookup_none hl]
      | some r =>
        rw [UnlockSeat_own c _ _ _ r hon hl (hown a (List.mem_cons_self _ _) r hl)]
    rw [rollback, hstep]
    refine (ih { c with data := erase (getLockKey sessionID a) c.data } hon ?_).trans rfl
    intro b hb r hr
    by_cases hk : getLockKey sessionID a = getLockKey sessionID b
    · rw [← hk] at hr
      simp [lookup_erase_self] at hr
    · rw [show ({ c with data := erase (getLockKey sessionID a) c.data } : RedisClient).data =
        erase (getLockKey sessionID a) c.data from rfl, lookup_erase_ne hk] at hr
      exact hown b (List.mem_cons_of_mem _ hb) r hr

/-! ## What the pipeline created -/

/-- On a server that answers, every seat the pipeline reports as created carries the caller's
record with the full lock duration afterwards. -/
theorem pipeline_locked_owned (c : RedisClient) (sessionID : String) (seatIDs : List String)
    (userID : String) (hon : c.online = true) :
    ∀ a ∈ (partitionResults seatIDs (c.runSetNX (seatIDs.map fun seatID =>
        (getLockKey sessionID seatID, userID, LockDuration))).2).1,
      lookup (getLockKey sessionID a) (c.runSetNX (seatIDs.map fun seatID =>
        (getLockKey sessionID seatID, userID, LockDuration))).1.data =
        some { owner := userID, ttl := LockDuration } := by
  induction seatIDs generalizing c with
  | nil => intro a ha; simp [partitionResults, RedisClient.runSetNX] at ha
  | cons b rest ih =>
    intro a ha
    simp only [List.map_cons] at ha ⊢
    rw [runSetNX_cons]
    cases hl : lookup (getLockKey sessionID b) c.data with
    | none =>
      rw [runSetNX_results_absent c _ _ _ _ hon hl] at ha
      rw [SetNX_absent c _ _ _ hon hl]
      simp only [partitionResults, if_true] at ha
      rcases List.mem_cons.mp ha with hab | hrest
      · subst hab
        exact runSetNX_keeps _ _ _ _ (lookup_cons_self _ _ _)
      · exact ih { c with data := (getLockKey sessionID b,
          { owner := userID, ttl := LockDuration }) :: c.data } hon a hrest
    | some r =>
      rw [runSetNX_results_present c _ _ _ _ r hon hl] at ha
      rw [SetNX_present c _ _ _ r hon hl]
      simp only [partitionResults] at ha
      exact ih _ hon a ha

/-- On a server that answers, removing the seats the pipeline reports as created gives back the
data the pipeline started from. -/
theorem pipeline_eraseSeats (c : RedisClient) (sessionID : String) (seatIDs : List String)
    (userID : String) (hon : c.online = true) :
    eraseSeats sessionID
      (partitionResults seatIDs (c.runSetNX (seatIDs.map fun seatID =>
        (getLockKey sessionID seatID, userID, LockDuration))).2).1
      (c.runSetNX (seatIDs.map fun seatID =>
        (getLockKey sessionID seatID, userID, LockDuration))).1.data = c.data := by
  induction seatIDs generalizing c with
  | nil => rfl
  | cons b rest ih =>
    simp only [List.map_cons]
    rw [runSetNX_cons]
    cases hl : lookup (getLockKey sessionID b) c.data with
    | none =>
      rw [runSetNX_results_absent c _ _ _ _ hon hl, SetNX_absent c _ _ _ hon hl]
      simp only [partitionResults, if_true, eraseSeats]
      rw [eraseSeats_erase, ih { c with data := (getLockKey sessionID b,
          { owner := userID, ttl := LockDuration }) :: c.data } hon]
      simp [erase, erase_of_lookup_none hl]
    | some r =>
      rw [runSetNX_results_present c _ _ _ _ r hon hl, SetNX_present c _ _ _ r hon hl]
      simp only [partitionResults]
      exact ih _ hon

/-- A seat the pipeline reports as created had no record before the call. -/
theorem pipeline_locked_absent (c : RedisClient) (sessionID : String) (seatIDs : List String)
    (userID : String) (hon : c.online = true) :
    ∀ a ∈ (partitionResults seatIDs (c.runSetNX (seatIDs.map fun seatID =>
        (getLockKey sessionID seatID, userID, LockDuration))).2).1,
      lookup (getLockKey sessionID a) c.data = none := by
  induction seatIDs generalizing c with
  | nil => intro a ha; simp [partitionResults, RedisClient.runSetNX] at ha
  | cons b rest ih =>
    intro a ha
    simp only [List.map_cons] at ha
    cases hl : lookup (getLockKey sessionID b) c.data with
    | none =>
      rw [runSetNX_results_absent c _ _ _ _ hon hl] at ha
      simp only [partitionResults, if_true] at ha
      rcases List.mem_cons.mp ha with hab | hrest
      · subst hab; exact hl
      · have h1 := ih { c with data := (getLockKey sessionID b,
          { owner := userID, ttl := LockDuration }) :: c.data } hon a hrest
        by_cases hk : getLockKey sessionID b = getLockKey sessionID a
        · rw [← hk]; exact hl
        · simpa [lookup, hk] using h1
    | some r =>
      rw [runSetNX_results_present c _ _ _ _ r hon hl] at ha
      simp only [partitionResults] at ha
      exact ih c hon a ha

/-- Pairwise-distinct seats without a record are all created, in request order. -/
theorem pipeline_all_created (c : RedisClient) (sessionID : String) (seatIDs : List String)
    (userID : String) (hon : c.online = true) (hnodup : seatIDs.Nodup)
    (hfree : ∀ a ∈ seatIDs, lookup (getLockKey sessionID a) c.data = none) :
    partitionResults seatIDs (c.runSetNX (seatIDs.map fun seatID =>
      (getLockKey sessionID seatID, userID, LockDuration))).2 = (seatIDs, []) := by
  induction seatIDs generalizing c with
  | nil => rfl
  | cons b rest ih =>
    have hl := hfree b (List.mem_cons_self _ _)
    simp only [List.map_cons]
    rw [runSetNX_results_absent c _ _ _ _ hon hl]
    have hrest := ih { c with data := (getLockKey sessionID b,
        { owner := userID, ttl := LockDuration }) :: c.data } hon (List.nodup_cons.mp hnodup).2
      (by
        intro a ha
        have hab : getLockKey sessionID b ≠ getLockKey sessionID a := by
          intro hk
          have := getLockKey_seat_inj hk
          subst this
          exact (List.nodup_cons.mp hnodup).1 ha
        simpa [lookup, hab] using hfree a (List.mem_cons_of_mem _ ha))
    simp only [partitionResults, hrest, if_true]

/-- C3. On a server that answers, when the pipeline of a multi-acquire created some of the
requested seats and failed on others, `LockMultipleSeats` returns `(nil, seatIDs, conflict error)`
and the client at return equals the client before the call; in particular every seat it had
created has no record again. -/
theorem LockMultipleSeats_partial_rolls_back (c : RedisClient) (sessionID : String)
    (seatIDs : List String) (userID : String) (hon : c.online = true)
    (hcreated : (partitionResults seatIDs (lockPipeline c sessionID seatIDs userID).2.1).1 ≠ [])
    (hfailed : (partitionResults seatIDs (lockPipeline c sessionID seatIDs userID).2.1).2 ≠ []) :
    LockMultipleSeats c sessionID seatIDs userID =
      (c, [], seatIDs, some "could not lock all seats, some are already locked") ∧
    ∀ a ∈ (partitionResults seatIDs (lockPipeline c sessionID seatIDs userID).2.1).1,
      lookup (getLockKey sessionID a) c.data = none ∧
      lookup (getLockKey sessionID a) (LockMultipleSeats c sessionID seatIDs userID).1.data =
        none := by
  rw [lockPipeline_online c sessionID seatIDs userID hon] at hcreated hfailed ⊢
  have hroll : rollback (c.runSetNX (seatIDs.map fun seatID =>
        (getLockKey sessionID seatID, userID, LockDuration))).1 sessionID
      (partitionResults seatIDs (c.runSetNX (seatIDs.map fun seatID =>
        (getLockKey sessionID seatID, userID, LockDuration))).2).1 userID = c := by
    rw [rollback_eq_eraseSeats _ _ _ _ ((runSetNX_online c _).trans hon)]
    · exact client_ext (runSetNX_online c _) (pipeline_eraseSeats c sessionID seatIDs userID hon)
    · intro a ha r hr
      rw [pipeline_locked_owned c sessionID seatIDs userID hon a ha] at hr
      cases hr; rfl
  have hmain : LockMultipleSeats c sessionID seatIDs userID =
      (c, [], seatIDs, some "could not lock all seats, some are already locked") := by
    simp only [LockMultipleSeats, lockPipeline_online c sessionID seatIDs userID hon]
    have h1 := List.length_pos.mpr hcreated
    have h2 := List.length_pos.mpr hfailed
    simp [h1, h2, hroll]
  refine ⟨hmain, ?_⟩
  intro a ha
  have habs := pipeline_locked_absent c sessionID seatIDs userID hon a ha
  rw [hmain]
  exact ⟨habs, habs⟩

theorem LockMultipleSeats_partial_rolls_back_witness :
    u1HoldsA1.online = true ∧
    (partitionResults ["A1", "A2"] (lockPipeline u1HoldsA1 "S1" ["A1", "A2"] "u2").2.1).1 ≠ [] ∧
    (partitionResults ["A1", "A2"] (lockPipeline u1HoldsA1 "S1" ["A1", "A2"] "u2").2.1).2 ≠ [] ∧
    (LockMultipleSeats u1HoldsA1 "S1" ["A1", "A2"] "u2" =
      (u1HoldsA1, [], ["A1", "A2"], some "could not lock all seats, some are already locked") ∧
    ∀ a ∈ (partitionResults ["A1", "A2"] (lockPipeline u1HoldsA1 "S1" ["A1", "A2"] "u2").2.1).1,
      lookup (getLockKey "S1" a) u1HoldsA1.data = none ∧
      lookup (getLockKey "S1" a) (LockMultipleSeats u1HoldsA1 "S1" ["A1", "A2"] "u2").1.data =
        none) :=
  ⟨rfl, by decide, by decide,
    LockMultipleSeats_partial_rolls_back u1HoldsA1 "S1" ["A1", "A2"] "u2" rfl
      (by decide) (by decide)⟩

/-- C5. On a server that answers, for pairwise-distinct seats none of which has a lock record
(the empty list included), `LockMultipleSeats` returns the requested seats in request order as
the locked list, an empty failed list and no error; afterwards every requested seat is owned by
the caller with a TTL of 300 s and every other key is unchanged. -/
theorem LockMultipleSeats_all_free (c : RedisClient) (sessionID : String)
    (seatIDs : List String) (userID : String) (hon : c.online = true) (hnodup : seatIDs.Nodup)
    (hfree : ∀ a ∈ seatIDs, lookup (getLockKey sessionID a) c.data = none) :
    (LockMultipleSeats c sessionID seatIDs userID).2 = (seatIDs, [], none) ∧
    (∀ a ∈ seatIDs,
      lookup (getLockKey sessionID a) (LockMultipleSeats c sessionID seatIDs userID).1.data =
        some { owner := userID, ttl := 300 }) ∧
    (∀ k, (∀ a ∈ seatIDs, k ≠ getLockKey sessionID a) →
      lookup k (LockMultipleSeats c sessionID seatIDs userID).1.data = lookup k c.data) := by
  have hall := pipeline_all_created c sessionID seatIDs userID hon hnodup hfree
  have hmain : LockMultipleSeats c sessionID seatIDs userID =
      ((c.runSetNX (seatIDs.map fun seatID =>
        (getLockKey sessionID seatID, userID, LockDuration))).1, seatIDs, [], none) := by
    simp only [LockMultipleSeats, lockPipeline_online c sessionID seatIDs userID hon]
    simp [hall]
  rw [hmain]
  refine ⟨rfl, ?_, ?_⟩
  · intro a ha
    have := pipeline_locked_owned c sessionID seatIDs userID hon a (by rw [hall]; exact ha)
    rw [this, LockDuration_eq]
  · intro k hk
    apply runSetNX_other_key
    intro q hq
    obtain ⟨a, ha, rfl⟩ := List.mem_map.mp hq
    exact hk a ha

theorem LockMultipleSeats_all_free_witness :
    u1HoldsA1.online = true ∧ ["A2", "A3"].Nodup ∧
    (∀ a ∈ ["A2", "A3"], lookup (getLockKey "S1" a) u1HoldsA1.data = none) ∧
    ((LockMultipleSeats u1HoldsA1 "S1" ["A2", "A3"] "u2").2 = (["A2", "A3"], [], none) ∧
    (∀ a ∈ ["A2", "A3"],
      lookup (getLockKey "S1" a) (LockMultipleSeats u1HoldsA1 "S1" ["A2", "A3"] "u2").1.data =
        some { owner := "u2", ttl := 300 }) ∧
    (∀ k, (∀ a ∈ ["A2", "A3"], k ≠ getLockKey "S1" a) →
      lookup k (LockMultipleSeats u1HoldsA1 "S1" ["A2", "A3"] "u2").1.data =
        lookup k u1HoldsA1.data)) :=
  ⟨rfl, by decide, by decide,
    LockMultipleSeats_all_free u1HoldsA1 "S1" ["A2", "A3"] "u2" rfl (by decide) (by decide)⟩

/-! ## The conflict error is missing when every seat fails -/

/-- C2 on the code: `u1` holds `A1` and `u2` asks for `["A1"]`; the only conditional create fails
and `LockMultipleSeats` returns a nil locked list and the failed seats with a nil error. -/
theorem LockMultipleSeats_all_failed_nil_error :
    lookup (getLockKey "S1" "A1") u1HoldsA1.data = some { owner := "u1", ttl := 120 } ∧
    LockMultipleSeats u1HoldsA1 "S1" ["A1"] "u2" = (u1HoldsA1, [], ["A1"], none) := by
  decide

/-- C4 on the code: `LockMultipleSeats` for `u2` on `["A1"]` returns a nil error although the
record of `A1` at return is owned by `u1`, not by the caller. -/
theorem LockMultipleSeats_success_without_lock :
    (LockMultipleSeats u1HoldsA1 "S1" ["A1"] "u2").2.2.2 = none ∧
    lookup (getLockKey "S1" "A1") (LockMultipleSeats u1HoldsA1 "S1" ["A1"] "u2").1.data =
      some { owner := "u1", ttl := 120 } ∧
    lookup (getLockKey "S1" "A1") (LockMultipleSeats u1HoldsA1 "S1" ["A1"] "u2").1.data ≠
      some { owner := "u2", ttl := 300 } := by
  decide

/-- C1 on the code: `u1` holds `A1` and `u2` posts a lock request for `["A1"]`; the handler
answers 200 with `success = true` and an empty locked list, broadcasts an empty `SEATS_UPDATE`
and hands a `SEAT_LOCKED` event for `u2` to the audit producer. -/
theorem LockSeats_held_seat_answers_200 :
    Handler.LockSeats { lockService := u1HoldsA1, emitted := [] }
        (.ok { SessionID := "S1", SeatIDs := ["A1"], UserID := "u2" }) =
      ({ lockService := u1HoldsA1,
         emitted := [.broadcast "S1" "SEATS_UPDATE" [],
           .auditLog { EventType := "SEAT_LOCKED", SessionID := "S1", UserID := "u2",
                       SeatIDs := [], Description := "User u2 locked seats: []" }] },
        200,
        { Success := true, Message := "Seats locked successfully",
          Data := .lockedSeats [] 300, Error := "" }) := by
  decide

/-! ## Unlocking on behalf of another user -/

theorem UnlockMultipleSeats_error (c : RedisClient) (sessionID : String)
    (seatIDs : List String) (userID : String) :
    (UnlockMultipleSeats c sessionID seatIDs userID).2 = none := by
  induction seatIDs generalizing c with
  | nil => rfl
  | cons a rest ih => rw [UnlockMultipleSeats]; exact ih _

/-- The method `UnlockSeat` keeps every record whose owner is not the caller. -/
theorem UnlockSeat_keeps_others (c : RedisClient) (sessionID seatID userID : String)
    (k : String) (r : LockRecord) (h : lookup k c.data = some r) (hne : r.owner ≠ userID) :
    lookup k (UnlockSeat c sessionID seatID userID).1.data = some r := by
  rcases UnlockSeat_data c sessionID seatID userID with h1 | ⟨h1, r', hr', hown⟩
  · rw [h1]; exact h
  · rw [h1]
    have hk : getLockKey sessionID seatID ≠ k := by
      intro hk
      rw [hk, h] at hr'
      cases hr'
      exact hne hown
    simpa [lookup_erase_ne hk] using h

/-- A call of `UnlockSeat` by a user who is not the owner of the record changes nothing. -/
theorem UnlockSeat_not_owner_unchanged (c : RedisClient) (sessionID seatID userID : String)
    (r : LockRecord) (h : lookup (getLockKey sessionID seatID) c.data = some r)
    (hne : r.owner ≠ userID) : (UnlockSeat c sessionID seatID userID).1 = c := by
  rcases UnlockSeat_data c sessionID seatID userID with h1 | ⟨_, r', hr', hown⟩
  · exact h1
  · rw [h] at hr'
    cases hr'
    exact absurd hown hne

theorem UnlockMultipleSeats_keeps_others (c : RedisClient) (sessionID : String)
    (seatIDs : List String) (userID : String) (k : String) (r : LockRecord)
    (h : lookup k c.data = some r) (hne : r.owner ≠ userID) :
    lookup k (UnlockMultipleSeats c sessionID seatIDs userID).1.data = some r := by
  induction seatIDs generalizing c with
  | nil => exact h
  | cons a rest ih =>
    rw [UnlockMultipleSeats]
    exact ih _ (UnlockSeat_keeps_others c sessionID a userID k r h hne)

/-- C10, as stated, fails: `u1` holds `A1` and `u2` posts an unlock request for `A1`; the
handler answers 200 with `success = true`, broadcasts `A1` as AVAILABLE and hands a
`SEAT_UNLOCKED` event to the audit producer, while the record of `A1` stays with `u1`. -/
theorem UnlockSeats_by_other_user_answers_200 :
    Handler.UnlockSeats { lockService := u1HoldsA1, emitted := [] }
        (.ok { SessionID := "S1", SeatIDs := ["A1"], UserID := "u2" }) =
      ({ lockService := u1HoldsA1,
         emitted := [.broadcast "S1" "SEATS_UPDATE" [{ SeatID := "A1", Status := .AVAILABLE }],
           .auditLog { EventType := "SEAT_UNLOCKED", SessionID := "S1", UserID := "u2",
                       SeatIDs := ["A1"], Description := "Seats unlocked (manual): [A1]" }] },
        200,
        { Success := true, Message := "Seats unlocked successfully" }) := by
  decide

/-- C10, amended. When `u1` holds a seat and another user posts an unlock request that lists
it (or any other list of seats), the record of the seat is unchanged at return (still owned by
`u1`, same TTL) and the handler answers 200 with `success = true`, since `UnlockMultipleSeats`
returns nil whatever the single releases did; for a request that lists only that seat the whole
store is unchanged. -/
theorem UnlockSeats_handler_other_user (h : Handler) (req : UnlockSeatRequest) (seatID u1 : String)
    (ttl : Nat) (hne : u1 ≠ req.UserID)
    (hheld : lookup (getLockKey req.SessionID seatID) h.lockService.data =
      some { owner := u1, ttl := ttl }) :
    lookup (getLockKey req.SessionID seatID) (h.UnlockSeats (.ok req)).1.lockService.data =
      some { owner := u1, ttl := ttl } ∧
    (h.UnlockSeats (.ok req)).2.1 = 200 ∧
    (h.UnlockSeats (.ok req)).2.2.Success = true ∧
    (req.SeatIDs = [seatID] → (h.UnlockSeats (.ok req)).1.lockService = h.lockService) := by
  have herr := UnlockMultipleSeats_error h.lockService req.SessionID req.SeatIDs req.UserID
  have hkeep := UnlockMultipleSeats_keeps_others h.lockService req.SessionID req.SeatIDs
    req.UserID _ _ hheld hne
  have hshape : UnlockMultipleSeats h.lockService req.SessionID req.SeatIDs req.UserID =
      ((UnlockMultipleSeats h.lockService req.SessionID req.SeatIDs req.UserID).1, none) := by
    rw [← herr]
  refine ⟨?_, ?_, ?_, ?_⟩
  · simp only [Handler.UnlockSeats]
    rw [hshape]
    exact hkeep
  · simp only [Handler.UnlockSeats]
    rw [hshape]
    rfl
  · simp only [Handler.UnlockSeats]
    rw [hshape]
  · intro hsingle
    simp only [Handler.UnlockSeats]
    rw [hshape]
    simp only [hsingle, UnlockMultipleSeats]
    exact UnlockSeat_not_owner_unchanged h.lockService req.SessionID seatID req.UserID _
      hheld hne

theorem UnlockSeats_handler_other_user_witness :
    "u1" ≠ "u2" ∧
    lookup (getLockKey "S1" "A1") u1HoldsA1.data = some { owner := "u1", ttl := 120 } ∧
    (lookup (getLockKey "S1" "A1")
        (Handler.UnlockSeats { lockService := u1HoldsA1, emitted := [] }
          (.ok { SessionID := "S1", SeatIDs := ["A1"], UserID := "u2" })).1.lockService.data =
      some { owner := "u1", ttl := 120 } ∧
    (Handler.UnlockSeats { lockService := u1HoldsA1, emitted := [] }
      (.ok { SessionID := "S1", SeatIDs := ["A1"], UserID := "u2" })).2.1 = 200 ∧
    (Handler.UnlockSeats { lockService := u1HoldsA1, emitted := [] }
      (.ok { SessionID := "S1", SeatIDs := ["A1"], UserID := "u2" })).2.2.Success = true ∧
    (["A1"] = ["A1"] →
      (Handler.UnlockSeats { lockService := u1HoldsA1, emitted := [] }
        (.ok { SessionID := "S1", SeatIDs := ["A1"], UserID := "u2" })).1.lockService =
        u1HoldsA1)) :=
  ⟨by decide, by decide,
    UnlockSeats_handler_other_user { lockService := u1HoldsA1, emitted := [] }
      { SessionID := "S1", SeatIDs := ["A1"], UserID := "u2" } "A1" "u1" 120
      (by decide) (by decide)⟩

/-! ## At most one record per key -/

theorem countKey_of_lookup_none {k : String} {d : List (String × LockRecord)}
    (h : lookup k d = none) : countKey k d = 0 := by
  induction d with
  | nil => rfl
  | cons e rest ih =>
    obtain ⟨k', r⟩ := e
    by_cases h1 : k' = k
    · simp [lookup, h1] at h
    · simp [lookup, h1] at h
      simp [countKey, h1, ih h]

theorem countKey_erase_le (k k' : String) (d : List (String × LockRecord)) :
    countKey k (erase k' d) ≤ countKey k d := by
  induction d with
  | nil => exact Nat.le_refl _
  | cons e rest ih =>
    obtain ⟨k2, r⟩ := e
    by_cases h1 : k2 = k'
    · subst h1
      by_cases h2 : k2 = k
      · subst h2
        simp only [erase, countKey, if_true]
        omega
      · simp only [erase, countKey, if_true, if_neg h2]
        exact ih
    · by_cases h2 : k2 = k
      · subst h2
        simp only [erase, countKey, if_true, if_neg h1]
        omega
      · simp only [erase, countKey, if_neg h1, if_neg h2]
        exact ih

theorem countKey_setTTL (k k' : String) (ttl : Nat) (d : List (String × LockRecord)) :
    countKey k (setTTL k' ttl d) = countKey k d := by
  induction d with
  | nil => rfl
  | cons e rest ih =>
    obtain ⟨k2, r⟩ := e
    by_cases h1 : k2 = k'
    · subst h1
      by_cases h2 : k2 = k
      · subst h2
        simp only [setTTL, countKey, if_true, ih]
      · simp only [setTTL, countKey, if_true, if_neg h2, ih]
    · by_cases h2 : k2 = k
      · subst h2
        simp only [setTTL, countKey, if_true, if_neg h1, ih]
      · simp only [setTTL, countKey, if_neg h1, if_neg h2, ih]

theorem countKey_expireAfter_le (k : String) (dt : Nat) (d : List (String × LockRecord)) :
    countKey k (expireAfter dt d) ≤ countKey k d := by
  induction d with
  | nil => exact Nat.le_refl _
  | cons e rest ih =>
    obtain ⟨k', r⟩ := e
    by_cases h1 : r.ttl ≤ dt
    · by_cases h2 : k' = k
      · subst h2
        simp only [expireAfter, countKey, if_true, if_pos h1]
        omega
      · simp only [expireAfter, countKey, if_pos h1, if_neg h2]
        exact ih
    · by_cases h2 : k' = k
      · subst h2
        simp only [expireAfter, countKey, if_true, if_neg h1]
        omega
      · simp only [expireAfter, countKey, if_neg h1, if_neg h2]
        exact ih

theorem owners_length (c : RedisClient) (sessionID seatID : String) :
    (owners c sessionID seatID).length = countKey (getLockKey sessionID seatID) c.data := by
  unfold owners
  generalize c.data = d
  induction d with
  | nil => rfl
  | cons e rest ih =>
    obtain ⟨k', r⟩ := e
    by_cases h1 : k' = getLockKey sessionID seatID
    · simp [countKey, List.filter_cons, h1] at ih ⊢
      exact ih
    · simp [countKey, List.filter_cons, h1] at ih ⊢
      exact ih

theorem owners_head (c : RedisClient) (sessionID seatID : String) :
    (owners c sessionID seatID).head? =
      (lookup (getLockKey sessionID seatID) c.data).map fun r => r.owner := by
  unfold owners
  generalize c.data = d
  induction d with
  | nil => rfl
  | cons e rest ih =>
    obtain ⟨k', r⟩ := e
    by_cases h1 : k' = getLockKey sessionID seatID
    · simp [lookup, List.filter_cons, h1]
    · simp [lookup, List.filter_cons, h1] at ih ⊢
      exact ih

theorem SetNX_countKey (c : RedisClient) (key value : String) (ttl : Nat)
    (hinv : ∀ k, countKey k c.data ≤ 1) : ∀ k, countKey k (c.SetNX key value ttl).1.data ≤ 1 := by
  intro k
  rcases Bool.eq_false_or_eq_true c.online with hon | hon
  · cases hl : lookup key c.data with
    | none =>
      rw [SetNX_absent c _ _ _ hon hl]
      by_cases hk : key = k
      · subst hk
        simp [countKey, countKey_of_lookup_none hl]
      · simpa [countKey, hk] using hinv k
    | some r0 => rw [SetNX_present c _ _ _ r0 hon hl]; exact hinv k
  · rw [SetNX_offline c _ _ _ hon]; exact hinv k

theorem runSetNX_countKey (c : RedisClient) (queued : List (String × String × Nat))
    (hinv : ∀ k, countKey k c.data ≤ 1) : ∀ k, countKey k (c.runSetNX queued).1.data ≤ 1 := by
  induction queued generalizing c with
  | nil => exact hinv
  | cons q rest ih =>
    obtain ⟨key, value, ttl⟩ := q
    rw [runSetNX_cons]
    exact ih _ (SetNX_countKey c key value ttl hinv)

theorem UnlockSeat_countKey (c : RedisClient) (sessionID seatID userID : String)
    (hinv : ∀ k, countKey k c.data ≤ 1) :
    ∀ k, countKey k (UnlockSeat c sessionID seatID userID).1.data ≤ 1 := by
  intro k
  rcases UnlockSeat_data c sessionID seatID userID with h1 | ⟨h1, _⟩
  · rw [h1]; exact hinv k
  · rw [h1]; exact Nat.le_trans (countKey_erase_le _ _ _) (hinv k)

theorem rollback_countKey (c : RedisClient) (sessionID : String) (seats : List String)
    (userID : String) (hinv : ∀ k, countKey k c.data ≤ 1) :
    ∀ k, countKey k (rollback c sessionID seats userID).data ≤ 1 := by
  induction seats generalizing c with
  | nil => exact hinv
  | cons a rest ih =>
    rw [rollback]
    exact ih _ (UnlockSeat_countKey c sessionID a userID hinv)

theorem rollback_keeps_others (c : RedisClient) (sessionID : String) (seats : List String)
    (userID : String) (k : String) (r : LockRecord) (h : lookup k c.data = some r)
    (hne : r.owner ≠ userID) : lookup k (rollback c sessionID seats userID).data = some r := by
  induction seats generalizing c with
  | nil => exact h
  | cons a rest ih =>
    rw [rollback]
    exact ih _ (UnlockSeat_keeps_others c sessionID a userID k r h hne)

theorem UnlockMultipleSeats_countKey (c : RedisClient) (sessionID : String)
    (seatIDs : List String) (userID : String) (hinv : ∀ k, countKey k c.data ≤ 1) :
    ∀ k, countKey k (UnlockMultipleSeats c sessionID seatIDs userID).1.data ≤ 1 := by
  induction seatIDs generalizing c with
  | nil => exact hinv
  | cons a rest ih =>
    rw [UnlockMultipleSeats]
    exact ih _ (UnlockSeat_countKey c sessionID a userID hinv)

/-- The data after `ExtendLock` either is unchanged or had the TTL of the seat's key refreshed,
the latter only when the record was owned by the caller. -/
theorem ExtendLock_data (c : RedisClient) (sessionID seatID userID : String) :
    (ExtendLock c sessionID seatID userID).1 = c ∨
    ((ExtendLock c sessionID seatID userID).1 =
        { c with data := setTTL (getLockKey sessionID seatID) LockDuration c.data } ∧
      ∃ r, lookup (getLockKey sessionID seatID) c.data = some r ∧ r.owner = userID) := by
  rcases Bool.eq_false_or_eq_true c.online with hon | hon
  · cases h : lookup (getLockKey sessionID seatID) c.data with
    | none => left; simp [ExtendLock, RedisClient.Get, hon, h]
    | some r =>
      by_cases hown : r.owner = userID
      · right
        refine ⟨?_, r, rfl, hown⟩
        simp [ExtendLock, RedisClient.Get, RedisClient.Expire, hon, h, hown]
      · left; simp [ExtendLock, RedisClient.Get, hon, h, hown]
  · left; simp [ExtendLock, RedisClient.Get, hon, connRefused]

/-- The client after `LockMultipleSeats` is the client after the pipeline, or its rollback. -/
theorem LockMultipleSeats_client (c : RedisClient) (sessionID : String) (seatIDs : List String)
    (userID : String) :
    (LockMultipleSeats c sessionID seatIDs userID).1 =
        (c.runSetNX (seatIDs.map fun seatID =>
          (getLockKey sessionID seatID, userID, LockDuration))).1 ∨
    ∃ seats, (LockMultipleSeats c sessionID seatIDs userID).1 =
      rollback (c.runSetNX (seatIDs.map fun seatID =>
        (getLockKey sessionID seatID, userID, LockDuration))).1 sessionID seats userID := by
  have hp : (lockPipeline c sessionID seatIDs userID).1 =
      (c.runSetNX (seatIDs.map fun seatID =>
        (getLockKey sessionID seatID, userID, LockDuration))).1 := by
    cases seatIDs with
    | nil => rfl
    | cons a rest => rfl
  rw [← hp]
  unfold LockMultipleSeats
  split
  next c1 results err heq =>
    rw [heq]
    split
    · left; rfl
    · split
      next lockedSeats failedSeats _ =>
        split
        · right; exact ⟨lockedSeats, rfl⟩
        · left; rfl

theorem LockSeat_client (c : RedisClient) (sessionID seatID userID : String) :
    (LockSeat { client := some c } sessionID seatID userID).1.client =
      some (c.SetNX (getLockKey sessionID seatID) userID LockDuration).1 := by
  simp only [LockSeat]
  split <;> simp_all

theorem Op_run_countKey (c : RedisClient) (op : Op) (hinv : ∀ k, countKey k c.data ≤ 1) :
    ∀ k, countKey k (op.run c).data ≤ 1 := by
  cases op with
  | lockSeat sessionID seatID userID =>
    simp only [Op.run, LockSeat_client, Option.getD_some]
    exact SetNX_countKey c _ _ _ hinv
  | unlockSeat sessionID seatID userID => exact UnlockSeat_countKey c _ _ _ hinv
  | extendLock sessionID seatID userID =>
    intro k
    simp only [Op.run]
    rcases ExtendLock_data c sessionID seatID userID with h1 | ⟨h1, _⟩
    · rw [h1]; exact hinv k
    · rw [h1]; exact (countKey_setTTL _ _ _ _).trans_le (hinv k)
  | lockMultipleSeats sessionID seatIDs userID =>
    simp only [Op.run]
    rcases LockMultipleSeats_client c sessionID seatIDs userID with h1 | ⟨seats, h1⟩
    · rw [h1]; exact runSetNX_countKey c _ hinv
    · rw [h1]; exact rollback_countKey _ _ _ _ (runSetNX_countKey c _ hinv)
  | unlockMultipleSeats sessionID seatIDs userID =>
    exact UnlockMultipleSeats_countKey c _ _ _ hinv

theorem Event_apply_countKey (c : RedisClient) (e : Event)
    (hinv : ∀ k, countKey k c.data ≤ 1) : ∀ k, countKey k (e.apply c).data ≤ 1 := by
  cases e with
  | call op => exact Op_run_countKey c op hinv
  | wait dt => intro k; exact Nat.le_trans (countKey_expireAfter_le k dt c.data) (hinv k)
  | setOnline b => exact hinv

theorem runFrom_countKey (c : RedisClient) (events : List Event)
    (hinv : ∀ k, countKey k c.data ≤ 1) : ∀ k, countKey k (runFrom c events).data ≤ 1 := by
  induction events generalizing c with
  | nil => exact hinv
  | cons e rest ih => exact ih _ (Event_apply_countKey c e hinv)

/-- No call of the lock service touches a record whose owner is not the caller. -/
theorem Op_run_keeps_others (c : RedisClient) (op : Op) (k : String) (r : LockRecord)
    (h : lookup k c.data = some r) (hne : r.owner ≠ op.user) :
    lookup k (op.run c).data = some r := by
  cases op with
  | lockSeat sessionID seatID userID =>
    simp only [Op.run, LockSeat_client, Option.getD_some]
    exact SetNX_keeps c _ _ _ k r h
  | unlockSeat sessionID seatID userID => exact UnlockSeat_keeps_others c _ _ _ k r h hne
  | extendLock sessionID seatID userID =>
    simp only [Op.run]
    rcases ExtendLock_data c sessionID seatID userID with h1 | ⟨h1, r', hr', hown⟩
    · rw [h1]; exact h
    · rw [h1]
      have hk : getLockKey sessionID seatID ≠ k := by
        intro hk
        rw [hk, h] at hr'
        cases hr'
        exact hne hown
      simpa [lookup_setTTL_ne hk] using h
  | lockMultipleSeats sessionID seatIDs userID =>
    simp only [Op.run]
    rcases LockMultipleSeats_client c sessionID seatIDs userID with h1 | ⟨seats, h1⟩
    · rw [h1]; exact runSetNX_keeps c _ k r h
    · rw [h1]; exact rollback_keeps_others _ _ _ _ k r (runSetNX_keeps c _ k r h) hne
  | unlockMultipleSeats sessionID seatIDs userID =>
    exact UnlockMultipleSeats_keeps_others c _ _ _ k r h hne

/-! ## Release, extension and batch release -/

theorem lookup_setTTL_self {k : String} {r : LockRecord} (ttl : Nat)
    {d : List (String × LockRecord)} (h : lookup k d = some r) :
    lookup k (setTTL k ttl d) = some { r with ttl := ttl } := by
  induction d with
  | nil => simp [lookup] at h
  | cons e rest ih =>
    obtain ⟨k', r'⟩ := e
    by_cases h1 : k' = k
    · subst h1
      simp only [lookup, if_true, Option.some.injEq] at h
      subst h
      simp [setTTL, lookup]
    · simp only [lookup, if_neg h1] at h
      simp [setTTL, lookup, h1, ih h]

theorem UnlockSeat_online (c : RedisClient) (sessionID seatID userID : String) :
    (UnlockSeat c sessionID seatID userID).1.online = c.online := by
  rcases UnlockSeat_data c sessionID seatID userID with h | ⟨h, _⟩ <;> rw [h]

/-- The method `UnlockSeat` changes no key but the seat's own. -/
theorem UnlockSeat_other_key (c : RedisClient) (sessionID seatID userID : String) (k : String)
    (hk : k ≠ getLockKey sessionID seatID) :
    lookup k (UnlockSeat c sessionID seatID userID).1.data = lookup k c.data := by
  rcases UnlockSeat_data c sessionID seatID userID with h | ⟨h, _⟩
  · rw [h]
  · rw [h]; exact lookup_erase_ne (Ne.symm hk) _

/-- A key without a record has none after `UnlockSeat`. -/
theorem UnlockSeat_keeps_absent (c : RedisClient) (sessionID seatID userID : String)
    (k : String) (h : lookup k c.data = none) :
    lookup k (UnlockSeat c sessionID seatID userID).1.data = none := by
  by_cases hk : k = getLockKey sessionID seatID
  · rcases UnlockSeat_data c sessionID seatID userID with h1 | ⟨h1, _⟩
    · rw [h1]; exact h
    · rw [h1, hk]; exact lookup_erase_self _ _
  · rw [UnlockSeat_other_key c _ _ _ k hk]; exact h

theorem UnlockMultipleSeats_online (c : RedisClient) (sessionID : String)
    (seatIDs : List String) (userID : String) :
    (UnlockMultipleSeats c sessionID seatIDs userID).1.online = c.online := by
  induction seatIDs generalizing c with
  | nil => rfl
  | cons a rest ih => rw [UnlockMultipleSeats, ih, UnlockSeat_online]

theorem UnlockMultipleSeats_keeps_absent (c : RedisClient) (sessionID : String)
    (seatIDs : List String) (userID : String) (k : String) (h : lookup k c.data = none) :
    lookup k (UnlockMultipleSeats c sessionID seatIDs userID).1.data = none := by
  induction seatIDs generalizing c with
  | nil => exact h
  | cons a rest ih =>
    rw [UnlockMultipleSeats]
    exact ih _ (UnlockSeat_keeps_absent c sessionID a userID k h)

theorem UnlockMultipleSeats_other_key (c : RedisClient) (sessionID : String)
    (seatIDs : List String) (userID : String) (k : String)
    (hk : ∀ a ∈ seatIDs, k ≠ getLockKey sessionID a) :
    lookup k (UnlockMultipleSeats c sessionID seatIDs userID).1.data = lookup k c.data := by
  induction seatIDs generalizing c with
  | nil => rfl
  | cons a rest ih =>
    rw [UnlockMultipleSeats, ih _ (fun b hb => hk b (List.mem_cons_of_mem _ hb)),
      UnlockSeat_other_key c _ _ _ k (hk a (List.mem_cons_self _ _))]

/-- On a server that answers, a listed seat owned by the caller has no record after the batch. -/
theorem UnlockMultipleSeats_releases_own (c : RedisClient) (sessionID : String)
    (seatIDs : List String) (userID : String) (hon : c.online = true) (a : String)
    (ha : a ∈ seatIDs) (r : LockRecord) (h : lookup (getLockKey sessionID a) c.data = some r)
    (hown : r.owner = userID) :
    lookup (getLockKey sessionID a) (UnlockMultipleSeats c sessionID seatIDs userID).1.data =
      none := by
  induction seatIDs generalizing c with
  | nil => cases ha
  | cons b rest ih =>
    rw [UnlockMultipleSeats]
    by_cases hk : getLockKey sessionID a = getLockKey sessionID b
    · apply UnlockMultipleSeats_keeps_absent
      rw [hk] at h ⊢
      rw [UnlockSeat_own c _ _ _ r hon h hown]
      exact lookup_erase_self _ _
    · have hab : a ≠ b := fun hab => hk (by rw [hab])
      have hrest : a ∈ rest := by
        rcases List.mem_cons.mp ha with h1 | h1
        · exact absurd h1 hab
        · exact h1
      refine ih (UnlockSeat c sessionID b userID).1 ((UnlockSeat_online c _ _ _).trans hon)
        hrest ?_
      rw [UnlockSeat_other_key c _ _ _ _ hk]
      exact h

/-- C11. Release is idempotent on absent locks. On a server that answers, `UnlockSeat` for a seat
without a lock record returns `true` with no error, whoever calls, and leaves the store
unchanged; and when the owner releases a held seat twice, both calls return `true` with no error
and the second leaves the store as the first left it, without a record for the seat. -/
theorem UnlockSeat_idempotent (c : RedisClient) (sessionID seatID : String)
    (hon : c.online = true) :
    (∀ userID, lookup (getLockKey sessionID seatID) c.data = none →
      UnlockSeat c sessionID seatID userID = (c, true, none)) ∧
    (∀ userID ttl,
      lookup (getLockKey sessionID seatID) c.data = some { owner := userID, ttl := ttl } →
      (UnlockSeat c sessionID seatID userID).2 = (true, none) ∧
      lookup (getLockKey sessionID seatID) (UnlockSeat c sessionID seatID userID).1.data = none ∧
      UnlockSeat (UnlockSeat c sessionID seatID userID).1 sessionID seatID userID =
        ((UnlockSeat c sessionID seatID userID).1, true, none)) := by
  refine ⟨fun userID h => UnlockSeat_absent c _ _ _ hon h, ?_⟩
  intro userID ttl h
  have h1 := UnlockSeat_own c sessionID seatID userID _ hon h rfl
  have hgone : lookup (getLockKey sessionID seatID)
      (UnlockSeat c sessionID seatID userID).1.data = none := by
    rw [h1]; exact lookup_erase_self _ _
  refine ⟨by rw [h1], hgone, ?_⟩
  exact UnlockSeat_absent _ _ _ _ ((UnlockSeat_online c _ _ _).trans hon) hgone

theorem UnlockSeat_idempotent_witness :
    u1HoldsA1.online = true ∧
    UnlockSeat u1HoldsA1 "S1" "A2" "u2" = (u1HoldsA1, true, none) ∧
    (UnlockSeat u1HoldsA1 "S1" "A1" "u1").2 = (true, none) ∧
    UnlockSeat (UnlockSeat u1HoldsA1 "S1" "A1" "u1").1 "S1" "A1" "u1" =
      ((UnlockSeat u1HoldsA1 "S1" "A1" "u1").1, true, none) :=
  ⟨rfl, (UnlockSeat_idempotent u1HoldsA1 "S1" "A2" rfl).1 "u2" (by decide),
    ((UnlockSeat_idempotent u1HoldsA1 "S1" "A1" rfl).2 "u1" 120 (by decide)).1,
    ((UnlockSeat_idempotent u1HoldsA1 "S1" "A1" rfl).2 "u1" 120 (by decide)).2.2⟩

/-- C12. The method `ExtendLock` returns `false` with an error and leaves the store unchanged
when the record is absent or owned by someone else (on a server that answers the errors are
"lock does not exist" and "cannot extend: seat is locked by another user"); when the caller owns
the record and the server answers, it returns `true` without error, the record's TTL is 300 s
again, its owner is unchanged and so is every other key. -/
theorem ExtendLock_owner_only (c : RedisClient) (sessionID seatID userID : String) :
    (lookup (getLockKey sessionID seatID) c.data = none →
      (ExtendLock c sessionID seatID userID).1 = c ∧
      (ExtendLock c sessionID seatID userID).2.1 = false ∧
      (ExtendLock c sessionID seatID userID).2.2 ≠ none ∧
      (c.online = true →
        (ExtendLock c sessionID seatID userID).2.2 = some "lock does not exist")) ∧
    (∀ r, lookup (getLockKey sessionID seatID) c.data = some r → r.owner ≠ userID →
      (ExtendLock c sessionID seatID userID).1 = c ∧
      (ExtendLock c sessionID seatID userID).2.1 = false ∧
      (ExtendLock c sessionID seatID userID).2.2 ≠ none ∧
      (c.online = true → (ExtendLock c sessionID seatID userID).2.2 =
        some "cannot extend: seat is locked by another user")) ∧
    (∀ r, c.online = true → lookup (getLockKey sessionID seatID) c.data = some r →
      r.owner = userID →
      (ExtendLock c sessionID seatID userID).2 = (true, none) ∧
      lookup (getLockKey sessionID seatID) (ExtendLock c sessionID seatID userID).1.data =
        some { owner := userID, ttl := 300 } ∧
      ∀ k, k ≠ getLockKey sessionID seatID →
        lookup k (ExtendLock c sessionID seatID userID).1.data = lookup k c.data) := by
  refine ⟨?_, ?_, ?_⟩
  · intro h
    rcases Bool.eq_false_or_eq_true c.online with hon | hon
    · simp [ExtendLock, RedisClient.Get, hon, h]
    · simp [ExtendLock, RedisClient.Get, hon, connRefused]
  · intro r h hne
    rcases Bool.eq_false_or_eq_true c.online with hon | hon
    · simp [ExtendLock, RedisClient.Get, hon, h, hne]
    · simp [ExtendLock, RedisClient.Get, hon, connRefused]
  · intro r hon h hown
    have h1 : ExtendLock c sessionID seatID userID =
        ({ c with data := setTTL (getLockKey sessionID seatID) LockDuration c.data },
          true, none) := by
      simp [ExtendLock, RedisClient.Get, RedisClient.Expire, hon, h, hown]
    rw [h1]
    refine ⟨rfl, ?_, ?_⟩
    · show lookup _ (setTTL _ _ _) = _
      rw [lookup_setTTL_self _ h, LockDuration_eq, hown]
    · intro k hk
      exact lookup_setTTL_ne (Ne.symm hk) _ _

theorem ExtendLock_owner_only_witness :
    ((ExtendLock u1HoldsA1 "S1" "A1" "u2").1 = u1HoldsA1 ∧
      (ExtendLock u1HoldsA1 "S1" "A1" "u2").2.1 = false ∧
      (ExtendLock u1HoldsA1 "S1" "A1" "u2").2.2 ≠ none ∧
      (u1HoldsA1.online = true → (ExtendLock u1HoldsA1 "S1" "A1" "u2").2.2 =
        some "cannot extend: seat is locked by another user")) ∧
    ((ExtendLock u1HoldsA1 "S1" "A1" "u1").2 = (true, none) ∧
      lookup (getLockKey "S1" "A1") (ExtendLock u1HoldsA1 "S1" "A1" "u1").1.data =
        some { owner := "u1", ttl := 300 } ∧
      ∀ k, k ≠ getLockKey "S1" "A1" →
        lookup k (ExtendLock u1HoldsA1 "S1" "A1" "u1").1.data = lookup k u1HoldsA1.data) :=
  ⟨(ExtendLock_owner_only u1HoldsA1 "S1" "A1" "u2").2.1 { owner := "u1", ttl := 120 }
      (by decide) (by decide),
    (ExtendLock_owner_only u1HoldsA1 "S1" "A1" "u1").2.2 { owner := "u1", ttl := 120 }
      rfl (by decide) rfl⟩

/-- C13. The method `UnlockMultipleSeats` always returns nil; on a server that answers, every
listed seat that was owned by the caller has no record afterwards, wherever it stands in the
list and whatever happened to the seats before it; every listed seat owned by another user keeps
its record, and every key that belongs to no listed seat is unchanged. -/
theorem UnlockMultipleSeats_best_effort (c : RedisClient) (sessionID : String)
    (seatIDs : List String) (userID : String) (hon : c.online = true) :
    (UnlockMultipleSeats c sessionID seatIDs userID).2 = none ∧
    (∀ a ∈ seatIDs, ∀ r, lookup (getLockKey sessionID a) c.data = some r → r.owner = userID →
      lookup (getLockKey sessionID a) (UnlockMultipleSeats c sessionID seatIDs userID).1.data =
        none) ∧
    (∀ a ∈ seatIDs, ∀ r, lookup (getLockKey sessionID a) c.data = some r → r.owner ≠ userID →
      lookup (getLockKey sessionID a) (UnlockMultipleSeats c sessionID seatIDs userID).1.data =
        some r) ∧
    (∀ k, (∀ a ∈ seatIDs, k ≠ getLockKey sessionID a) →
      lookup k (UnlockMultipleSeats c sessionID seatIDs userID).1.data = lookup k c.data) :=
  ⟨UnlockMultipleSeats_error c _ _ _,
    fun a ha r h hown => UnlockMultipleSeats_releases_own c _ _ _ hon a ha r h hown,
    fun _ _ r h hne => UnlockMultipleSeats_keeps_others c _ _ _ _ r h hne,
    fun k hk => UnlockMultipleSeats_other_key c _ _ _ k hk⟩

theorem UnlockMultipleSeats_best_effort_witness :
    u1HoldsA1u2HoldsA2.online = true ∧
    (UnlockMultipleSeats u1HoldsA1u2HoldsA2 "S1" ["A1", "A2"] "u2").1 = u1HoldsA1 ∧
    lookup (getLockKey "S1" "A2")
      (UnlockMultipleSeats u1HoldsA1u2HoldsA2 "S1" ["A1", "A2"] "u2").1.data = none :=
  ⟨rfl, by decide,
    (UnlockMultipleSeats_best_effort u1HoldsA1u2HoldsA2 "S1" ["A1", "A2"] "u2" rfl).2.1
      "A2" (by decide) { owner := "u2", ttl := 200 } (by decide) rfl⟩

/-! ## Bounded lifetime -/

theorem lookup_none_of_countKey {k : String} {d : List (String × LockRecord)}
    (h : countKey k d = 0) : lookup k d = none := by
  induction d with
  | nil => rfl
  | cons e rest ih =>
    obtain ⟨k', r⟩ := e
    by_cases h1 : k' = k
    · subst h1
      simp [countKey] at h
    · simp only [countKey, if_neg h1] at h
      simp [lookup, h1, ih h]

theorem lookup_mem {k : String} {r : LockRecord} {d : List (String × LockRecord)}
    (h : lookup k d = some r) : (k, r) ∈ d := by
  induction d with
  | nil => simp [lookup] at h
  | cons e rest ih =>
    obtain ⟨k', r'⟩ := e
    by_cases h1 : k' = k
    · subst h1
      simp only [lookup, if_true, Option.some.injEq] at h
      subst h
      exact List.mem_cons_self _ _
    · simp only [lookup, if_neg h1] at h
      exact List.mem_cons_of_mem _ (ih h)

/-- With at most one entry under `k`, `dt` seconds remove the record of `k` when its TTL is used
up and lower its TTL by `dt` otherwise. -/
theorem lookup_expireAfter {k : String} {r : LockRecord} (dt : Nat)
    {d : List (String × LockRecord)} (h : lookup k d = some r) (hone : countKey k d ≤ 1) :
    lookup k (expireAfter dt d) =
      if r.ttl ≤ dt then none else some { r with ttl := r.ttl - dt } := by
  induction d with
  | nil => simp [lookup] at h
  | cons e rest ih =>
    obtain ⟨k', r'⟩ := e
    by_cases h1 : k' = k
    · subst h1
      simp only [lookup, if_true, Option.some.injEq] at h
      subst h
      simp only [countKey, if_true] at hone
      have hrest : countKey k' rest = 0 := by omega
      by_cases h2 : r'.ttl ≤ dt
      · simp only [expireAfter, if_pos h2]
        apply lookup_none_of_countKey
        have := countKey_expireAfter_le k' dt rest
        omega
      · simp [expireAfter, h2, lookup]
    · simp only [lookup, if_neg h1] at h
      simp only [countKey, if_neg h1] at hone
      by_cases h2 : r'.ttl ≤ dt
      · simp only [expireAfter, if_pos h2]
        exact ih h hone
      · simp only [expireAfter, if_neg h2, lookup, if_neg h1]
        exact ih h hone

/-- A record under `k` is either kept as it is or removed by `UnlockSeat`. -/
theorem UnlockSeat_record (c : RedisClient) (sessionID seatID userID : String) (k : String)
    (r : LockRecord) (h : lookup k c.data = some r) :
    lookup k (UnlockSeat c sessionID seatID userID).1.data = some r ∨
    lookup k (UnlockSeat c sessionID seatID userID).1.data = none := by
  by_cases hk : k = getLockKey sessionID seatID
  · rcases UnlockSeat_data c sessionID seatID userID with h1 | ⟨h1, _⟩
    · left; rw [h1]; exact h
    · right; rw [h1, hk]; exact lookup_erase_self _ _
  · left; rw [UnlockSeat_other_key c _ _ _ k hk]; exact h

theorem rollback_keeps_absent (c : RedisClient) (sessionID : String) (seats : List String)
    (userID : String) (k : String) (h : lookup k c.data = none) :
    lookup k (rollback c sessionID seats userID).data = none := by
  induction seats generalizing c with
  | nil => exact h
  | cons a rest ih =>
    rw [rollback]
    exact ih _ (UnlockSeat_keeps_absent c sessionID a userID k h)

theorem rollback_record (c : RedisClient) (sessionID : String) (seats : List String)
    (userID : String) (k : String) (r : LockRecord) (h : lookup k c.data = some r) :
    lookup k (rollback c sessionID seats userID).data = some r ∨
    lookup k (rollback c sessionID seats userID).data = none := by
  induction seats generalizing c with
  | nil => exact Or.inl h
  | cons a rest ih =>
    rw [rollback]
    rcases UnlockSeat_record c sessionID a userID k r h with h1 | h1
    · exact ih _ h1
    · exact Or.inr (rollback_keeps_absent _ _ _ _ k h1)

theorem UnlockMultipleSeats_record (c : RedisClient) (sessionID : String)
    (seatIDs : List String) (userID : String) (k : String) (r : LockRecord)
    (h : lookup k c.data = some r) :
    lookup k (UnlockMultipleSeats c sessionID seatIDs userID).1.data = some r ∨
    lookup k (UnlockMultipleSeats c sessionID seatIDs userID).1.data = none := by
  induction seatIDs generalizing c with
  | nil => exact Or.inl h
  | cons a rest ih =>
    rw [UnlockMultipleSeats]
    rcases UnlockSeat_record c sessionID a userID k r h with h1 | h1
    · exact ih _ h1
    · exact Or.inr (UnlockMultipleSeats_keeps_absent _ _ _ _ k h1)

/-- A call that is not an `ExtendLock` of the owner for key `k` keeps the record of `k` as it is
or removes it. -/
theorem Op_run_record (c : RedisClient) (op : Op) (k : String) (r : LockRecord)
    (h : lookup k c.data = some r) (hno : Event.refreshes k r.owner (.call op) = false) :
    lookup k (op.run c).data = some r ∨ lookup k (op.run c).data = none := by
  cases op with
  | lockSeat sessionID seatID userID =>
    left
    simp only [Op.run, LockSeat_client, Option.getD_some]
    exact SetNX_keeps c _ _ _ k r h
  | unlockSeat sessionID seatID userID => exact UnlockSeat_record c _ _ _ k r h
  | extendLock sessionID seatID userID =>
    left
    simp only [Op.run]
    rcases ExtendLock_data c sessionID seatID userID with h1 | ⟨h1, r', hr', hown⟩
    · rw [h1]; exact h
    · rw [h1]
      have hk : getLockKey sessionID seatID ≠ k := by
        intro hk
        rw [hk, h] at hr'
        cases hr'
        simp [Event.refreshes, hk, hown] at hno
      simpa [lookup_setTTL_ne hk] using h
  | lockMultipleSeats sessionID seatIDs userID =>
    simp only [Op.run]
    rcases LockMultipleSeats_client c sessionID seatIDs userID with h1 | ⟨seats, h1⟩
    · left; rw [h1]; exact runSetNX_keeps c _ k r h
    · rw [h1]; exact rollback_record _ _ _ _ k r (runSetNX_keeps c _ k r h)
  | unlockMultipleSeats sessionID seatIDs userID =>
    exact UnlockMultipleSeats_record c _ _ _ k r h

/-- Along a run without an `ExtendLock` of the owner for key `k`, a record that is present at
every moment of the run is the initial record with its TTL lowered by the time that passed, and
less time passed than the TTL it started with. -/
theorem run_record_ages (k : String) (events : List Event) :
    ∀ (c : RedisClient) (r : LockRecord), (∀ k', countKey k' c.data ≤ 1) →
      lookup k c.data = some r → 0 < r.ttl →
      (∀ e ∈ events, Event.refreshes k r.owner e = false) →
      heldThroughout k c events = true →
      lookup k (runFrom c events).data = some { r with ttl := r.ttl - elapsed events } ∧
      elapsed events < r.ttl := by
  induction events with
  | nil =>
    intro c r _ h hpos _ _
    exact ⟨by simpa [runFrom, elapsed] using h, by simpa [elapsed] using hpos⟩
  | cons e rest ih =>
    intro c r hinv h hpos hno hheld
    simp only [heldThroughout, Bool.and_eq_true] at hheld
    have hrest : ∀ e' ∈ rest, Event.refreshes k r.owner e' = false :=
      fun e' he' => hno e' (List.mem_cons_of_mem _ he')
    have hinv' := Event_apply_countKey c e hinv
    have hheld' : (lookup k (e.apply c).data).isSome = true := by
      cases rest with
      | nil => simpa [heldThroughout] using hheld.2
      | cons e2 rest2 =>
        have := hheld.2
        simp only [heldThroughout, Bool.and_eq_true] at this
        exact this.1
    cases e with
    | call op =>
      have hstep : lookup k (op.run c).data = some r := by
        rcases Op_run_record c op k r h (hno _ (List.mem_cons_self _ _)) with h1 | h1
        · exact h1
        · simp [Event.apply, h1] at hheld'
      obtain ⟨h1, h2⟩ := ih (op.run c) r hinv' hstep hpos hrest hheld.2
      exact ⟨by simpa [runFrom, elapsed] using h1, by simpa [elapsed] using h2⟩
    | wait dt =>
      have hexp := lookup_expireAfter dt h (hinv k)
      have hlt : ¬ r.ttl ≤ dt := by
        intro hle
        rw [if_pos hle] at hexp
        simp [Event.apply, hexp] at hheld'
      rw [if_neg hlt] at hexp
      obtain ⟨h1, h2⟩ := ih (Event.apply c (.wait dt)) { r with ttl := r.ttl - dt } hinv' hexp
        (by show 0 < r.ttl - dt; omega) hrest hheld.2
      refine ⟨?_, ?_⟩
      · have : runFrom c (Event.wait dt :: rest) = runFrom (Event.apply c (.wait dt)) rest := rfl
        rw [this, h1]
        have harith : r.ttl - dt - elapsed rest = r.ttl - (dt + elapsed rest) := by omega
        simp only [elapsed]
        rw [← harith]
      · simp only [elapsed]
        have : elapsed rest < r.ttl - dt := h2
        omega
    | setOnline b =>
      obtain ⟨h1, h2⟩ := ih (Event.apply c (.setOnline b)) r hinv' h hpos hrest hheld.2
      exact ⟨by simpa [runFrom, elapsed] using h1, by simpa [elapsed] using h2⟩

/-! ## Every TTL in a reachable store is between 1 s and 300 s -/

theorem mem_erase {k : String} {e : String × LockRecord} {d : List (String × LockRecord)}
    (h : e ∈ erase k d) : e ∈ d := by
  induction d with
  | nil => simp [erase] at h
  | cons e' rest ih =>
    obtain ⟨k', r'⟩ := e'
    by_cases h1 : k' = k
    · simp only [erase, if_pos h1] at h
      exact List.mem_cons_of_mem _ (ih h)
    · simp only [erase, if_neg h1] at h
      rcases List.mem_cons.mp h with h2 | h2
      · rw [h2]; exact List.mem_cons_self _ _
      · exact List.mem_cons_of_mem _ (ih h2)

theorem ttl_setTTL (k : String) (d : List (String × LockRecord))
    (hinv : ∀ e ∈ d, 0 < e.2.ttl ∧ e.2.ttl ≤ LockDuration) :
    ∀ e ∈ setTTL k LockDuration d, 0 < e.2.ttl ∧ e.2.ttl ≤ LockDuration := by
  induction d with
  | nil => intro e he; simp [setTTL] at he
  | cons e' rest ih =>
    obtain ⟨k', r'⟩ := e'
    have hrest := ih (fun e he => hinv e (List.mem_cons_of_mem _ he))
    intro e he
    by_cases h1 : k' = k
    · simp only [setTTL, if_pos h1] at he
      rcases List.mem_cons.mp he with h2 | h2
      · rw [h2]; exact ⟨show 0 < LockDuration by decide, Nat.le_refl _⟩
      · exact hrest e h2
    · simp only [setTTL, if_neg h1] at he
      rcases List.mem_cons.mp he with h2 | h2
      · rw [h2]; exact hinv _ (List.mem_cons_self _ _)
      · exact hrest e h2

theorem ttl_expireAfter (dt : Nat) (d : List (String × LockRecord))
    (hinv : ∀ e ∈ d, 0 < e.2.ttl ∧ e.2.ttl ≤ LockDuration) :
    ∀ e ∈ expireAfter dt d, 0 < e.2.ttl ∧ e.2.ttl ≤ LockDuration := by
  induction d with
  | nil => intro e he; simp [expireAfter] at he
  | cons e' rest ih =>
    obtain ⟨k', r'⟩ := e'
    have hrest := ih (fun e he => hinv e (List.mem_cons_of_mem _ he))
    intro e he
    by_cases h1 : r'.ttl ≤ dt
    · simp only [expireAfter, if_pos h1] at he
      exact hrest e he
    · simp only [expireAfter, if_neg h1] at he
      rcases List.mem_cons.mp he with h2 | h2
      · rw [h2]
        have := (hinv _ (List.mem_cons_self _ _)).2
        show 0 < r'.ttl - dt ∧ r'.ttl - dt ≤ LockDuration
        have h3 : r'.ttl ≤ LockDuration := this
        omega
      · exact hrest e h2

theorem ttl_SetNX (c : RedisClient) (key value : String)
    (hinv : ∀ e ∈ c.data, 0 < e.2.ttl ∧ e.2.ttl ≤ LockDuration) :
    ∀ e ∈ (c.SetNX key value LockDuration).1.data, 0 < e.2.ttl ∧ e.2.ttl ≤ LockDuration := by
  rcases Bool.eq_false_or_eq_true c.online with hon | hon
  · cases hl : lookup key c.data with
    | none =>
      rw [SetNX_absent c _ _ _ hon hl]
      intro e he
      rcases List.mem_cons.mp he with h2 | h2
      · rw [h2]; exact ⟨show 0 < LockDuration by decide, Nat.le_refl _⟩
      · exact hinv e h2
    | some r0 => rw [SetNX_present c _ _ _ r0 hon hl]; exact hinv
  · rw [SetNX_offline c _ _ _ hon]; exact hinv

theorem ttl_runSetNX (c : RedisClient) (sessionID : String) (seatIDs : List String)
    (userID : String) (hinv : ∀ e ∈ c.data, 0 < e.2.ttl ∧ e.2.ttl ≤ LockDuration) :
    ∀ e ∈ (c.runSetNX (seatIDs.map fun seatID =>
        (getLockKey sessionID seatID, userID, LockDuration))).1.data,
      0 < e.2.ttl ∧ e.2.ttl ≤ LockDuration := by
  induction seatIDs generalizing c with
  | nil => exact hinv
  | cons a rest ih =>
    simp only [List.map_cons]
    rw [runSetNX_cons]
    exact ih _ (ttl_SetNX c _ _ hinv)

theorem ttl_UnlockSeat (c : RedisClient) (sessionID seatID userID : String)
    (hinv : ∀ e ∈ c.data, 0 < e.2.ttl ∧ e.2.ttl ≤ LockDuration) :
    ∀ e ∈ (UnlockSeat c sessionID seatID userID).1.data,
      0 < e.2.ttl ∧ e.2.ttl ≤ LockDuration := by
  rcases UnlockSeat_data c sessionID seatID userID with h1 | ⟨h1, _⟩
  · rw [h1]; exact hinv
  · rw [h1]; exact fun e he => hinv e (mem_erase he)

theorem ttl_rollback (c : RedisClient) (sessionID : String) (seats : List String)
    (userID : String) (hinv : ∀ e ∈ c.data, 0 < e.2.ttl ∧ e.2.ttl ≤ LockDuration) :
    ∀ e ∈ (rollback c sessionID seats userID).data, 0 < e.2.ttl ∧ e.2.ttl ≤ LockDuration := by
  induction seats generalizing c with
  | nil => exact hinv
  | cons a rest ih =>
    rw [rollback]
    exact ih _ (ttl_UnlockSeat c sessionID a userID hinv)

theorem ttl_UnlockMultipleSeats (c : RedisClient) (sessionID : String) (seatIDs : List String)
    (userID : String) (hinv : ∀ e ∈ c.data, 0 < e.2.ttl ∧ e.2.ttl ≤ LockDuration) :
    ∀ e ∈ (UnlockMultipleSeats c sessionID seatIDs userID).1.data,
      0 < e.2.ttl ∧ e.2.ttl ≤ LockDuration := by
  induction seatIDs generalizing c with
  | nil => exact hinv
  | cons a rest ih =>
    rw [UnlockMultipleSeats]
    exact ih _ (ttl_UnlockSeat c sessionID a userID hinv)

theorem ttl_Op_run (c : RedisClient) (op : Op)
    (hinv : ∀ e ∈ c.data, 0 < e.2.ttl ∧ e.2.ttl ≤ LockDuration) :
    ∀ e ∈ (op.run c).data, 0 < e.2.ttl ∧ e.2.ttl ≤ LockDuration := by
  cases op with
  | lockSeat sessionID seatID userID =>
    simp only [Op.run, LockSeat_client, Option.getD_some]
    exact ttl_SetNX c _ _ hinv
  | unlockSeat sessionID seatID userID => exact ttl_UnlockSeat c _ _ _ hinv
  | extendLock sessionID seatID userID =>
    simp only [Op.run]
    rcases ExtendLock_data c sessionID seatID userID with h1 | ⟨h1, _⟩
    · rw [h1]; exact hinv
    · rw [h1]; exact ttl_setTTL _ _ hinv
  | lockMultipleSeats sessionID seatIDs userID =>
    simp only [Op.run]
    rcases LockMultipleSeats_client c sessionID seatIDs userID with h1 | ⟨seats, h1⟩
    · rw [h1]; exact ttl_runSetNX c _ _ _ hinv
    · rw [h1]; exact ttl_rollback _ _ _ _ (ttl_runSetNX c _ _ _ hinv)
  | unlockMultipleSeats sessionID seatIDs userID =>
    exact ttl_UnlockMultipleSeats c _ _ _ hinv

theorem ttl_runFrom (c : RedisClient) (events : List Event)
    (hinv : ∀ e ∈ c.data, 0 < e.2.ttl ∧ e.2.ttl ≤ LockDuration) :
    ∀ e ∈ (runFrom c events).data, 0 < e.2.ttl ∧ e.2.ttl ≤ LockDuration := by
  induction events generalizing c with
  | nil => exact hinv
  | cons ev rest ih =>
    apply ih
    cases ev with
    | call op => exact ttl_Op_run c op hinv
    | wait dt => exact ttl_expireAfter dt c.data hinv
    | setOnline b => exact hinv

/-- C14, as stated, fails: `u1` acquires `A1` at time 0, waits 200 s, extends the lock and waits
another 200 s; 400 s after the acquire the record was present at every moment of the run and is
still there with 100 s left. -/
theorem lock_outlives_300s_after_extend :
    (LockSeat { client := some { online := true, data := [] } } "S1" "A1" "u1").1.client =
      some { online := true, data := [("seat_lock:S1:A1", { owner := "u1", ttl := 300 })] } ∧
    elapsed [.wait 200, .call (.extendLock "S1" "A1" "u1"), .wait 200] = 400 ∧
    heldThroughout "seat_lock:S1:A1"
      { online := true, data := [("seat_lock:S1:A1", { owner := "u1", ttl := 300 })] }
      [.wait 200, .call (.extendLock "S1" "A1" "u1"), .wait 200] = true ∧
    lookup "seat_lock:S1:A1"
      (runFrom { online := true, data := [("seat_lock:S1:A1", { owner := "u1", ttl := 300 })] }
        [.wait 200, .call (.extendLock "S1" "A1" "u1"), .wait 200]).data =
      some { owner := "u1", ttl := 100 } := by
  decide

/-- C14, amended. Bounded lock lifetime without extension. In a reachable store every record has
a TTL between 1 s and 300 s. Along any later run of service calls, waits and outages in which the
owner does not call `ExtendLock` for the seat, a record that is present at every moment of the
run is the same record with its TTL lowered by the time that passed, and less time passed than
its TTL: the record is released or expired within 300 s of its acquisition. -/
theorem lock_lifetime_without_extend (c : RedisClient) (hreach : Reachable c) (k : String)
    (r : LockRecord) (h : lookup k c.data = some r) (events : List Event)
    (hno : ∀ e ∈ events, Event.refreshes k r.owner e = false)
    (hheld : heldThroughout k c events = true) :
    0 < r.ttl ∧ r.ttl ≤ 300 ∧ elapsed events < r.ttl ∧
    lookup k (runFrom c events).data = some { r with ttl := r.ttl - elapsed events } := by
  obtain ⟨evs, rfl⟩ := hreach
  have hcount := runFrom_countKey { online := true, data := [] } evs (fun k => Nat.zero_le 1)
  have httl := ttl_runFrom { online := true, data := [] } evs
    (fun e he => by simp at he) (k, r) (lookup_mem h)
  obtain ⟨h1, h2⟩ := run_record_ages k events _ r hcount h httl.1 hno hheld
  exact ⟨httl.1, httl.2, h2, h1⟩

theorem lock_lifetime_without_extend_witness :
    Reachable { online := true,
                data := [("seat_lock:S1:A1", { owner := "u1", ttl := 300 })] } ∧
    heldThroughout "seat_lock:S1:A1"
      { online := true, data := [("seat_lock:S1:A1", { owner := "u1", ttl := 300 })] }
      [.wait 100, .call (.unlockSeat "S1" "A1" "u2"), .wait 150] = true ∧
    (0 < 300 ∧ 300 ≤ 300 ∧
      elapsed [.wait 100, .call (.unlockSeat "S1" "A1" "u2"), .wait 150] < 300 ∧
      lookup "seat_lock:S1:A1"
        (runFrom
          { online := true, data := [("seat_lock:S1:A1", { owner := "u1", ttl := 300 })] }
          [.wait 100, .call (.unlockSeat "S1" "A1" "u2"), .wait 150]).data =
        some { owner := "u1",
               ttl := 300 - elapsed [.wait 100, .call (.unlockSeat "S1" "A1" "u2"),
                 .wait 150] }) :=
  ⟨⟨[.call (.lockSeat "S1" "A1" "u1")], by decide⟩, by decide,
    lock_lifetime_without_extend
      { online := true, data := [("seat_lock:S1:A1", { owner := "u1", ttl := 300 })] }
      ⟨[.call (.lockSeat "S1" "A1" "u1")], by decide⟩ "seat_lock:S1:A1"
      { owner := "u1", ttl := 300 } (by decide)
      [.wait 100, .call (.unlockSeat "S1" "A1" "u2"), .wait 150] (by decide) (by decide)⟩

/-! ## The booking handler -/

theorem IsLocked_owned (c : RedisClient) (sessionID seatID : String) (r : LockRecord)
    (hon : c.online = true) (h : lookup (getLockKey sessionID seatID) c.data = some r) :
    IsLocked c sessionID seatID = (true, r.owner, none) := by
  simp [IsLocked, RedisClient.Get, hon, h]

theorem IsLocked_absent (c : RedisClient) (sessionID seatID : String)
    (hon : c.online = true) (h : lookup (getLockKey sessionID seatID) c.data = none) :
    IsLocked c sessionID seatID = (false, "", none) := by
  simp [IsLocked, RedisClient.Get, hon, h]

theorem IsLocked_offline (c : RedisClient) (sessionID seatID : String)
    (hoff : c.online = false) :
    IsLocked c sessionID seatID =
      (false, "", some ("failed to check lock status: " ++ connRefused.text)) := by
  simp [IsLocked, RedisClient.Get, hoff, connRefused]

/-- The ownership loop passes a seat exactly when the server answers and the seat's record is
owned by the user. -/
theorem firstNotOwned_cons (c : RedisClient) (sessionID userID seatID : String)
    (rest : List String) :
    firstNotOwned c sessionID userID (seatID :: rest) =
      if c.online = true ∧
          ∃ r, lookup (getLockKey sessionID seatID) c.data = some r ∧ r.owner = userID then
        firstNotOwned c sessionID userID rest
      else some seatID := by
  rcases Bool.eq_false_or_eq_true c.online with hon | hon
  · cases hl : lookup (getLockKey sessionID seatID) c.data with
    | none =>
      simp [firstNotOwned, IsLocked_absent c _ _ hon hl, hon]
    | some r =>
      by_cases hown : r.owner = userID
      · simp [firstNotOwned, IsLocked_owned c _ _ r hon hl, hon, hown]
      · simp [firstNotOwned, IsLocked_owned c _ _ r hon hl, hon, hown]
  · simp [firstNotOwned, IsLocked_offline c _ _ hon, hon]

theorem firstNotOwned_none (c : RedisClient) (sessionID userID : String)
    (seatIDs : List String) :
    firstNotOwned c sessionID userID seatIDs = none ↔
      ∀ a ∈ seatIDs, c.online = true ∧
        ∃ r, lookup (getLockKey sessionID a) c.data = some r ∧ r.owner = userID := by
  induction seatIDs with
  | nil => simp [firstNotOwned]
  | cons b rest ih =>
    rw [firstNotOwned_cons]
    by_cases hb : c.online = true ∧
        ∃ r, lookup (getLockKey sessionID b) c.data = some r ∧ r.owner = userID
    · rw [if_pos hb, ih]
      constructor
      · intro h a ha
        rcases List.mem_cons.mp ha with h1 | h1
        · rw [h1]; exact hb
        · exact h a h1
      · intro h a ha
        exact h a (List.mem_cons_of_mem _ ha)
    · rw [if_neg hb]
      constructor
      · intro h; cases h
      · intro h; exact absurd (h b (List.mem_cons_self _ _)) hb

theorem firstNotOwned_mem (c : RedisClient) (sessionID userID : String)
    (seatIDs : List String) (seatID : String)
    (h : firstNotOwned c sessionID userID seatIDs = some seatID) : seatID ∈ seatIDs := by
  induction seatIDs with
  | nil => simp [firstNotOwned] at h
  | cons b rest ih =>
    rw [firstNotOwned_cons] at h
    split at h
    · exact List.mem_cons_of_mem _ (ih h)
    · cases h; exact List.mem_cons_self _ _

/-- C15. When some requested seat is not locked, is locked by another user, or the server of the
lock store does not answer the probe, `CreateBooking` answers 409 with `success = false` and the
message "Seat … is not locked by you" for a requested seat and does nothing else: the lock
store, the emitted broadcasts and audit events and the database are as before, and no step
after the ownership loop is taken. -/
theorem CreateBooking_rejects_unowned (h : Handler) (db : MongoDB) (req : BookingRequest)
    (now : Nat) (newID : ObjectID)
    (hbad : ∃ seatID ∈ req.SeatIDs,
      h.lockService.online = false ∨
      lookup (getLockKey req.SessionID seatID) h.lockService.data = none ∨
      ∃ r, lookup (getLockKey req.SessionID seatID) h.lockService.data = some r ∧
        r.owner ≠ req.UserID) :
    (h.CreateBooking db (.ok req) now newID).response.code = 409 ∧
    (h.CreateBooking db (.ok req) now newID).response.body.Success = false ∧
    (∃ seatID ∈ req.SeatIDs, (h.CreateBooking db (.ok req) now newID).response.body.Error =
      "Seat " ++ seatID ++ " is not locked by you") ∧
    (h.CreateBooking db (.ok req) now newID).handler = h ∧
    (h.CreateBooking db (.ok req) now newID).db = db ∧
    (h.CreateBooking db (.ok req) now newID).steps = [] := by
  cases hf : firstNotOwned h.lockService req.SessionID req.UserID req.SeatIDs with
  | none =>
    exfalso
    obtain ⟨seatID, hmem, hcase⟩ := hbad
    obtain ⟨hon, r, hr, hown⟩ := (firstNotOwned_none _ _ _ _).mp hf seatID hmem
    rcases hcase with h1 | h1 | ⟨r', hr', hne⟩
    · rw [hon] at h1; cases h1
    · rw [hr] at h1; cases h1
    · rw [hr] at hr'; cases hr'; exact hne hown
  | some seatID =>
    have hmem := firstNotOwned_mem _ _ _ _ _ hf
    have hout : h.CreateBooking db (.ok req) now newID =
        { handler := h, db := db, steps := [],
          response := { code := StatusConflict,
                        body := { Success := false,
                                  Error := "Seat " ++ seatID ++ " is not locked by you" } } } := by
      simp only [Handler.CreateBooking, hf]
    rw [hout]
    exact ⟨rfl, rfl, ⟨seatID, hmem, rfl⟩, rfl, rfl, rfl⟩

theorem CreateBooking_rejects_unowned_witness :
    (∃ seatID ∈ ["A1"],
      u1HoldsA1.online = false ∨
      lookup (getLockKey "S1" seatID) u1HoldsA1.data = none ∨
      ∃ r, lookup (getLockKey "S1" seatID) u1HoldsA1.data = some r ∧ r.owner ≠ "u2") ∧
    (Handler.CreateBooking { lockService := u1HoldsA1, emitted := [] }
        { up := true, sessions := [], bookings := [] }
        (.ok { SessionID := "S1", SeatIDs := ["A1"], UserID := "u2", UserEmail := "u2@x.org" })
        1000 77).response.code = 409 ∧
    (Handler.CreateBooking { lockService := u1HoldsA1, emitted := [] }
        { up := true, sessions := [], bookings := [] }
        (.ok { SessionID := "S1", SeatIDs := ["A1"], UserID := "u2", UserEmail := "u2@x.org" })
        1000 77).db = { up := true, sessions := [], bookings := [] } :=
  ⟨⟨"A1", by decide, Or.inr (Or.inr ⟨{ owner := "u1", ttl := 120 }, by decide, by decide⟩)⟩,
    (CreateBooking_rejects_unowned { lockService := u1HoldsA1, emitted := [] }
      { up := true, sessions := [], bookings := [] }
      { SessionID := "S1", SeatIDs := ["A1"], UserID := "u2", UserEmail := "u2@x.org" } 1000 77
      ⟨"A1", by decide,
        Or.inr (Or.inr ⟨{ owner := "u1", ttl := 120 }, by decide, by decide⟩)⟩).1,
    (CreateBooking_rejects_unowned { lockService := u1HoldsA1, emitted := [] }
      { up := true, sessions := [], bookings := [] }
      { SessionID := "S1", SeatIDs := ["A1"], UserID := "u2", UserEmail := "u2@x.org" } 1000 77
      ⟨"A1", by decide,
        Or.inr (Or.inr ⟨{ owner := "u1", ttl := 120 }, by decide, by decide⟩)⟩).2.2.2.2.1⟩

theorem markSeatsBooked_bookings (db : MongoDB) (id : ObjectID) (seatIDs : List String) :
    (markSeatsBooked db id seatIDs).bookings = db.bookings := by
  induction seatIDs generalizing db with
  | nil => rfl
  | cons a rest ih =>
    rw [markSeatsBooked, ih]
    unfold MongoDB.UpdateSeatStatus
    split <;> rfl

/-- The answer is 201 only when every requested seat passed the ownership loop and the database
accepted the insert; the outcome is then the one `finishBooking` describes. -/
theorem CreateBooking_created (h : Handler) (db : MongoDB) (req : BookingRequest) (now : Nat)
    (newID : ObjectID) (hcode : (h.CreateBooking db (.ok req) now newID).response.code = 201) :
    firstNotOwned h.lockService req.SessionID req.UserID req.SeatIDs = none ∧ db.up = true ∧
    h.CreateBooking db (.ok req) now newID =
      finishBooking h { db with bookings := db.bookings ++ [{ newBooking req now with ID := newID }] }
        req (sessionOrPlaceholder db (bookingSessionID req) now) now newID := by
  cases hf : firstNotOwned h.lockService req.SessionID req.UserID req.SeatIDs with
  | some seatID =>
    simp [Handler.CreateBooking, hf, StatusConflict] at hcode
  | none =>
    rcases Bool.eq_false_or_eq_true db.up with hup | hup
    · refine ⟨rfl, hup, ?_⟩
      simp only [Handler.CreateBooking, hf, MongoDB.InsertBooking, hup, if_true]
    · simp [Handler.CreateBooking, hf, MongoDB.InsertBooking, hup,
        StatusInternalServerError] at hcode

/-- C17. For every booking that `CreateBooking` answers with 201, the record appended to the
`bookings` collection has status CONFIRMED, lists the `n` requested seats and has total amount
`n × 150`; the answer carries the same amount as `totalAmount`. -/
theorem CreateBooking_amount (h : Handler) (db : MongoDB) (req : BookingRequest) (now : Nat)
    (newID : ObjectID) (hcode : (h.CreateBooking db (.ok req) now newID).response.code = 201) :
    ∃ booking : Booking,
      (h.CreateBooking db (.ok req) now newID).db.bookings = db.bookings ++ [booking] ∧
      booking.Status = "CONFIRMED" ∧ booking.Seats = req.SeatIDs ∧
      booking.TotalAmount = req.SeatIDs.length * 150 ∧
      ((h.CreateBooking db (.ok req) now newID).response.data.map fun d => d.totalAmount) =
        some (req.SeatIDs.length * 150) := by
  obtain ⟨_, _, hout⟩ := CreateBooking_created h db req now newID hcode
  refine ⟨{ newBooking req now with ID := newID }, ?_, rfl, rfl, rfl, ?_⟩
  · rw [hout]
    simp only [finishBooking, markSeatsBooked_bookings]
  · rw [hout]
    rfl

theorem CreateBooking_amount_witness :
    (Handler.CreateBooking { lockService := u1HoldsA1A2, emitted := [] } demoDB
      (.ok { SessionID := "64b7f3a2c1d4e5f601234567", SeatIDs := ["A1", "A2"], UserID := "u1",
             UserEmail := "u1@x.org" }) 1000 77).response.code = 201 ∧
    ∃ booking : Booking,
      (Handler.CreateBooking { lockService := u1HoldsA1A2, emitted := [] } demoDB
        (.ok { SessionID := "64b7f3a2c1d4e5f601234567", SeatIDs := ["A1", "A2"], UserID := "u1",
               UserEmail := "u1@x.org" }) 1000 77).db.bookings = demoDB.bookings ++ [booking] ∧
      booking.Status = "CONFIRMED" ∧ booking.Seats = ["A1", "A2"] ∧
      booking.TotalAmount = ["A1", "A2"].length * 150 ∧
      ((Handler.CreateBooking { lockService := u1HoldsA1A2, emitted := [] } demoDB
        (.ok { SessionID := "64b7f3a2c1d4e5f601234567", SeatIDs := ["A1", "A2"], UserID := "u1",
               UserEmail := "u1@x.org" }) 1000 77).response.data.map fun d => d.totalAmount) =
        some (["A1", "A2"].length * 150) :=
  ⟨by decide,
    CreateBooking_amount { lockService := u1HoldsA1A2, emitted := [] } demoDB
      { SessionID := "64b7f3a2c1d4e5f601234567", SeatIDs := ["A1", "A2"], UserID := "u1",
        UserEmail := "u1@x.org" } 1000 77 (by decide)⟩

/-- C18, as stated, fails: in the booking of `A1` and `A2` by `u1` the steps after the ownership
loop are, in program order, insert, mark `A1`, mark `A2`, release of the locks, broadcast of the
BOOKED update, audit event, email: the locks are released before the broadcast is issued. -/
theorem CreateBooking_releases_before_broadcast_example :
    (Handler.CreateBooking { lockService := u1HoldsA1A2, emitted := [] } demoDB
      (.ok { SessionID := "64b7f3a2c1d4e5f601234567", SeatIDs := ["A1", "A2"], UserID := "u1",
             UserEmail := "u1@x.org" }) 1000 77).response.code = 201 ∧
    ((Handler.CreateBooking { lockService := u1HoldsA1A2, emitted := [] } demoDB
      (.ok { SessionID := "64b7f3a2c1d4e5f601234567", SeatIDs := ["A1", "A2"], UserID := "u1",
             UserEmail := "u1@x.org" }) 1000 77).steps.drop 3).take 2 =
      [.unlockSeats "64b7f3a2c1d4e5f601234567" ["A1", "A2"] "u1",
       .broadcast "64b7f3a2c1d4e5f601234567"
         [{ SeatID := "A1", Status := .BOOKED }, { SeatID := "A2", Status := .BOOKED }]] := by
  decide

/-- C18, amended. In every run of `CreateBooking` answered with 201 the locks of the requested
seats are released first and the `SEATS_UPDATE` broadcast with status BOOKED is issued right
after: the steps end with release, broadcast, audit event, email, after the insert and the
marking of the seats; the lock store at return is the one `UnlockMultipleSeats` left. -/
theorem CreateBooking_release_then_broadcast (h : Handler) (db : MongoDB)
    (req : BookingRequest) (now : Nat) (newID : ObjectID)
    (hcode : (h.CreateBooking db (.ok req) now newID).response.code = 201) :
    ∃ (booking : Booking) (audit : AuditLog) (mail : BookingConfirmationData),
      (h.CreateBooking db (.ok req) now newID).steps =
        [BookingStep.insertBooking booking] ++
        (req.SeatIDs.map fun seatID => BookingStep.markBooked (bookingSessionID req) seatID) ++
        [BookingStep.unlockSeats req.SessionID req.SeatIDs req.UserID,
         BookingStep.broadcast req.SessionID (bookedUpdates req.SeatIDs),
         BookingStep.auditLog audit, BookingStep.email req.UserEmail mail] ∧
      (h.CreateBooking db (.ok req) now newID).handler.lockService =
        (UnlockMultipleSeats h.lockService req.SessionID req.SeatIDs req.UserID).1 ∧
      (h.CreateBooking db (.ok req) now newID).handler.emitted =
        h.emitted ++ [Emitted.broadcast req.SessionID "SEATS_UPDATE" (bookedUpdates req.SeatIDs),
          Emitted.auditLog audit] := by
  obtain ⟨_, _, hout⟩ := CreateBooking_created h db req now newID hcode
  rw [hout]
  exact ⟨_, _, _, rfl, rfl, rfl⟩

theorem CreateBooking_release_then_broadcast_witness :
    (Handler.CreateBooking { lockService := u1HoldsA1A2, emitted := [] } demoDB
      (.ok { SessionID := "64b7f3a2c1d4e5f601234567", SeatIDs := ["A1", "A2"], UserID := "u1",
             UserEmail := "u1@x.org" }) 1000 77).response.code = 201 ∧
    (Handler.CreateBooking { lockService := u1HoldsA1A2, emitted := [] } demoDB
      (.ok { SessionID := "64b7f3a2c1d4e5f601234567", SeatIDs := ["A1", "A2"], UserID := "u1",
             UserEmail := "u1@x.org" }) 1000 77).handler.lockService =
      (UnlockMultipleSeats u1HoldsA1A2 "64b7f3a2c1d4e5f601234567" ["A1", "A2"] "u1").1 :=
  ⟨by decide,
    (CreateBooking_release_then_broadcast { lockService := u1HoldsA1A2, emitted := [] } demoDB
      { SessionID := "64b7f3a2c1d4e5f601234567", SeatIDs := ["A1", "A2"], UserID := "u1",
        UserEmail := "u1@x.org" } 1000 77 (by decide)).choose_spec.choose_spec.choose_spec.2.1⟩

/-! ## Marking the seats of a booking -/

/-- The update of one label sets the status of that label, when the session has it, and changes
the status of no other label. -/
theorem seatStatus_setSeatStatus (seats : List Seat) (x y : String) (status : SeatStatus) :
    seatStatus (setSeatStatus x status seats) y =
      if y = x then (seatStatus seats y).map fun _ => status else seatStatus seats y := by
  induction seats with
  | nil => simp [setSeatStatus, seatStatus]
  | cons s rest ih =>
    unfold seatStatus at ih ⊢
    by_cases hx : s.ID = x
    · by_cases hy : s.ID = y
      · have hyx : y = x := hy.symm.trans hx
        simp [setSeatStatus, hx, hyx, List.find?_cons]
      · have hyx : ¬ y = x := fun h => hy (hx.trans h.symm)
        have hxy : ¬ x = y := fun h => hyx h.symm
        simp [setSeatStatus, hx, hyx, hxy, List.find?_cons]
    · by_cases hy : s.ID = y
      · have hyx : ¬ y = x := fun h => hx (hy.trans h)
        simp [setSeatStatus, hx, hy, hyx, List.find?_cons]
      · simp only [setSeatStatus, if_neg hx, List.find?_cons, hy, decide_False]
        exact ih

theorem setSeatStatus_absent (seats : List Seat) (x : String) (status : SeatStatus)
    (h : (seats.any fun seat => decide (seat.ID = x)) = false) :
    setSeatStatus x status seats = seats := by
  induction seats with
  | nil => rfl
  | cons s rest ih =>
    simp only [List.any_cons, Bool.or_eq_false_iff, decide_eq_false_iff_not] at h
    simp [setSeatStatus, h.1, ih h.2]

/-- The positional update rewrites the seats of the first document with the given identifier by
`setSeatStatus`, whether or not it has the label. -/
theorem find_updateFirstSession (id : ObjectID) (x : String) (status : SeatStatus)
    (sessions : List MovieSession) :
    (updateFirstSession id x status sessions).find? (fun s => decide (s.ID = id)) =
      (sessions.find? fun s => decide (s.ID = id)).map fun s =>
        { s with Seats := setSeatStatus x status s.Seats } := by
  induction sessions with
  | nil => rfl
  | cons s rest ih =>
    by_cases hid : s.ID = id
    · subst hid
      cases hany : (s.Seats.any fun seat => decide (seat.ID = x)) with
      | true => simp [updateFirstSession, hany, List.find?_cons]
      | false =>
        simp [updateFirstSession, hany, List.find?_cons,
          setSeatStatus_absent s.Seats x status hany]
    · simp only [updateFirstSession, hid, false_and, if_false, List.find?_cons, decide_False]
      exact ih

theorem markSeatsBooked_up (db : MongoDB) (id : ObjectID) (seatIDs : List String) :
    (markSeatsBooked db id seatIDs).up = db.up := by
  induction seatIDs generalizing db with
  | nil => rfl
  | cons a rest ih =>
    rw [markSeatsBooked, ih]
    unfold MongoDB.UpdateSeatStatus
    split <;> rfl

/-- On a database that answers, `FindSession` returns the first document with the identifier. -/
theorem FindSession_ok (db : MongoDB) (id : ObjectID) (s : MovieSession) (hup : db.up = true) :
    db.FindSession id = .ok s ↔ db.sessions.find? (fun s => decide (s.ID = id)) = some s := by
  unfold MongoDB.FindSession
  rw [if_pos hup]
  cases db.sessions.find? (fun s => decide (s.ID = id)) with
  | none => simp
  | some s0 => simp

theorem UpdateSeatStatus_up (db : MongoDB) (id : ObjectID) (a : String) (status : SeatStatus) :
    (db.UpdateSeatStatus id a status).up = db.up := by
  unfold MongoDB.UpdateSeatStatus
  split <;> rfl

theorem UpdateSeatStatus_updateFaults (db : MongoDB) (id : ObjectID) (a : String)
    (status : SeatStatus) :
    (db.UpdateSeatStatus id a status).updateFaults = db.updateFaults.tail := by
  unfold MongoDB.UpdateSeatStatus
  split <;> rfl

/-- Whether the `i`-th coming `UpdateOne` is one that fails, as a fact about the head and the
tail of the list. -/
theorem getD_zero_eq_false (faults : List Bool) :
    faults.getD 0 false = false ↔ faults.head? ≠ some true := by
  cases faults with
  | nil => simp
  | cons b later => cases b <;> simp

theorem getD_succ_tail (faults : List Bool) (i : Nat) :
    faults.getD (i + 1) false = faults.tail.getD i false := by
  cases faults with
  | nil => simp
  | cons b later => simp

/-- After the marking loop on a database that could be reached when the request started, the
first document with the identifier exists as before; every status in it is the one before or
BOOKED; each listed label that it had and whose `UpdateOne` was answered is BOOKED; and a label
whose `UpdateOne` calls all failed has the status it had. -/
theorem markSeatsBooked_status (db : MongoDB) (id : ObjectID) (seatIDs : List String)
    (hup : db.up = true) (s : MovieSession)
    (hs : db.sessions.find? (fun s => decide (s.ID = id)) = some s) :
    ∃ s', (markSeatsBooked db id seatIDs).sessions.find? (fun s => decide (s.ID = id)) = some s' ∧
      (∀ y, (seatStatus s.Seats y).isSome → (seatStatus s'.Seats y).isSome) ∧
      (∀ y, seatStatus s.Seats y = some .BOOKED → seatStatus s'.Seats y = some .BOOKED) ∧
      (∀ (i : Nat) (y : String), seatIDs[i]? = some y → db.updateFaults.getD i false = false →
        (seatStatus s.Seats y).isSome → seatStatus s'.Seats y = some .BOOKED) ∧
      (∀ y, (∀ i : Nat, seatIDs[i]? = some y → db.updateFaults.getD i false = true) →
        seatStatus s'.Seats y = seatStatus s.Seats y) := by
  induction seatIDs generalizing db s with
  | nil =>
    exact ⟨s, hs, fun _ h => h, fun _ h => h, fun i y hy => by simp at hy, fun _ _ => rfl⟩
  | cons a rest ih =>
    have hup1 : (db.UpdateSeatStatus id a .BOOKED).up = true :=
      (UpdateSeatStatus_up db id a .BOOKED).trans hup
    have hf1 := UpdateSeatStatus_updateFaults db id a .BOOKED
    by_cases hans : db.updateFaults.head? ≠ some true
    · have hstep : (db.UpdateSeatStatus id a .BOOKED).sessions.find?
          (fun s => decide (s.ID = id)) =
          some { s with Seats := setSeatStatus a .BOOKED s.Seats } := by
        unfold MongoDB.UpdateSeatStatus
        rw [if_pos ⟨hup, hans⟩]
        simp only [find_updateFirstSession, hs, Option.map_some']
      obtain ⟨s', h1, h2, h3, h4, h5⟩ := ih (db.UpdateSeatStatus id a .BOOKED) hup1 _ hstep
      have hsome : ∀ y, (seatStatus s.Seats y).isSome →
          (seatStatus (setSeatStatus a .BOOKED s.Seats) y).isSome := by
        intro y hy
        rw [seatStatus_setSeatStatus]
        split
        · simpa using hy
        · exact hy
      refine ⟨s', h1, fun y hy => h2 y (hsome y hy), ?_, ?_, ?_⟩
      · intro y hy
        apply h3
        show seatStatus (setSeatStatus a .BOOKED s.Seats) y = some .BOOKED
        rw [seatStatus_setSeatStatus]
        split
        · simp [hy]
        · exact hy
      · intro i y hi hfault hy
        cases i with
        | zero =>
          have hya : y = a := by simpa using hi.symm
          apply h3
          show seatStatus (setSeatStatus a .BOOKED s.Seats) y = some .BOOKED
          rw [seatStatus_setSeatStatus, if_pos hya]
          cases hst : seatStatus s.Seats y with
          | none => rw [hst] at hy; cases hy
          | some st => rfl
        | succ j =>
          have hj : rest[j]? = some y := by simpa using hi
          apply h4 j y hj _ (hsome y hy)
          rw [hf1, ← getD_succ_tail]
          exact hfault
      · intro y hall
        have hya : ¬ a = y := by
          intro hya
          have := hall 0 (by simp [hya])
          rw [(getD_zero_eq_false _).mpr hans] at this
          cases this
        have hrest : seatStatus s'.Seats y =
            seatStatus (setSeatStatus a .BOOKED s.Seats) y := by
          apply h5 y
          intro i hi
          rw [hf1, ← getD_succ_tail]
          exact hall (i + 1) (by simpa using hi)
        rw [hrest, seatStatus_setSeatStatus, if_neg (fun h => hya h.symm)]
    · have hsess : (db.UpdateSeatStatus id a .BOOKED).sessions = db.sessions := by
        unfold MongoDB.UpdateSeatStatus
        rw [if_neg (fun h => hans h.2)]
      have hstep : (db.UpdateSeatStatus id a .BOOKED).sessions.find?
          (fun s => decide (s.ID = id)) = some s := by
        rw [hsess]; exact hs
      obtain ⟨s', h1, h2, h3, h4, h5⟩ := ih (db.UpdateSeatStatus id a .BOOKED) hup1 _ hstep
      refine ⟨s', h1, h2, h3, ?_, ?_⟩
      · intro i y hi hfault hy
        cases i with
        | zero => exact absurd ((getD_zero_eq_false _).mp hfault) hans
        | succ j =>
          have hj : rest[j]? = some y := by simpa using hi
          apply h4 j y hj _ hy
          rw [hf1, ← getD_succ_tail]
          exact hfault
      · intro y hall
        apply h5 y
        intro i hi
        rw [hf1, ← getD_succ_tail]
        exact hall (i + 1) (by simpa using hi)

/-- C16, as stated, fails, in two ways. `u1` holds a lock on the label `Z9`, which is no seat of
the demo session, and books it: the handler answers 201 and inserts a CONFIRMED booking for `Z9`
that refers to the demo session, whose document has no seat `Z9` and is unchanged. And `u1`
books the seats `A1` and `A2` it holds while the database stops answering after the insert: the
handler discards the failures of the two updates, answers 201 and leaves a CONFIRMED booking of
`A1` and `A2`, both of which are still AVAILABLE in the session document. -/
theorem CreateBooking_confirms_seat_outside_session :
    ((Handler.CreateBooking { lockService := u1HoldsZ9, emitted := [] } demoDB
      (.ok { SessionID := "64b7f3a2c1d4e5f601234567", SeatIDs := ["Z9"], UserID := "u1",
             UserEmail := "u1@x.org" }) 1000 77).response.code = 201 ∧
    (Handler.CreateBooking { lockService := u1HoldsZ9, emitted := [] } demoDB
      (.ok { SessionID := "64b7f3a2c1d4e5f601234567", SeatIDs := ["Z9"], UserID := "u1",
             UserEmail := "u1@x.org" }) 1000 77).db.bookings =
      [{ ID := 77, SessionID := demoSession.ID, UserID := "u1", UserEmail := "u1@x.org",
         Seats := ["Z9"], TotalAmount := 150, Status := "CONFIRMED", CreatedAt := 1000,
         ConfirmedAt := some 1000 }] ∧
    (Handler.CreateBooking { lockService := u1HoldsZ9, emitted := [] } demoDB
      (.ok { SessionID := "64b7f3a2c1d4e5f601234567", SeatIDs := ["Z9"], UserID := "u1",
             UserEmail := "u1@x.org" }) 1000 77).db.sessions = [demoSession] ∧
    seatStatus demoSession.Seats "Z9" = none) ∧
    ((Handler.CreateBooking { lockService := u1HoldsA1A2, emitted := [] } demoDBUpdatesFail
      (.ok demoRequest) 1000 77).response.code = 201 ∧
    (Handler.CreateBooking { lockService := u1HoldsA1A2, emitted := [] } demoDBUpdatesFail
      (.ok demoRequest) 1000 77).db.bookings =
      [{ ID := 77, SessionID := demoSession.ID, UserID := "u1", UserEmail := "u1@x.org",
         Seats := ["A1", "A2"], TotalAmount := 300, Status := "CONFIRMED", CreatedAt := 1000,
         ConfirmedAt := some 1000 }] ∧
    (Handler.CreateBooking { lockService := u1HoldsA1A2, emitted := [] } demoDBUpdatesFail
      (.ok demoRequest) 1000 77).db.sessions = [demoSession] ∧
    seatStatus demoSession.Seats "A1" = some .AVAILABLE ∧
    seatStatus demoSession.Seats "A2" = some .AVAILABLE) := by
  decide

/-- C16, amended. After every `CreateBooking` answered with 201, when the database holds a
session document with the identifier the booking refers to, that document still exists, and
every seat label of the booking whose `UpdateOne` the database answered and that is the label of
one of its seats has status BOOKED in it (for the first seat with that label). A label whose
`UpdateOne` calls all failed, and every label that was not requested, has the status it had: the
handler discards the result of each update and answers 201 all the same. Labels the session
does not have, and bookings whose session document is missing, are accepted as well. -/
theorem CreateBooking_marks_session_seats (h : Handler) (db : MongoDB) (req : BookingRequest)
    (now : Nat) (newID : ObjectID)
    (hcode : (h.CreateBooking db (.ok req) now newID).response.code = 201)
    (s : MovieSession) (hs : db.FindSession (bookingSessionID req) = .ok s) :
    ∃ s', (h.CreateBooking db (.ok req) now newID).db.FindSession (bookingSessionID req) =
        .ok s' ∧
      (∀ (i : Nat) (seatID : String), req.SeatIDs[i]? = some seatID →
        db.updateFaults.getD i false = false → (seatStatus s.Seats seatID).isSome →
        seatStatus s'.Seats seatID = some .BOOKED) ∧
      (∀ seatID : String,
        (∀ i : Nat, req.SeatIDs[i]? = some seatID → db.updateFaults.getD i false = true) →
        seatStatus s'.Seats seatID = seatStatus s.Seats seatID) := by
  obtain ⟨_, hup, hout⟩ := CreateBooking_created h db req now newID hcode
  have hfind := (FindSession_ok db _ s hup).mp hs
  obtain ⟨s', h1, _, _, h4, h5⟩ := markSeatsBooked_status
    { db with bookings := db.bookings ++ [{ newBooking req now with ID := newID }] }
    (bookingSessionID req) req.SeatIDs hup s hfind
  refine ⟨s', ?_, h4, h5⟩
  rw [hout]
  exact (FindSession_ok
    (markSeatsBooked
      { db with bookings := db.bookings ++ [{ newBooking req now with ID := newID }] }
      (bookingSessionID req) req.SeatIDs) _ s' ((markSeatsBooked_up _ _ _).trans hup)).mpr h1

theorem CreateBooking_marks_session_seats_witness :
    (Handler.CreateBooking { lockService := u1HoldsA1A2, emitted := [] }
        { demoDB with updateFaults := [true, false] }
        (.ok demoRequest) 1000 77).response.code = 201 ∧
    MongoDB.FindSession { demoDB with updateFaults := [true, false] }
        (bookingSessionID demoRequest) = .ok demoSession ∧
    ∃ s', (Handler.CreateBooking { lockService := u1HoldsA1A2, emitted := [] }
        { demoDB with updateFaults := [true, false] }
        (.ok demoRequest) 1000 77).db.FindSession (bookingSessionID demoRequest) = .ok s' ∧
      (∀ (i : Nat) (seatID : String), demoRequest.SeatIDs[i]? = some seatID →
        [true, false].getD i false = false → (seatStatus demoSession.Seats seatID).isSome →
        seatStatus s'.Seats seatID = some .BOOKED) ∧
      (∀ seatID : String,
        (∀ i : Nat, demoRequest.SeatIDs[i]? = some seatID → [true, false].getD i false = true) →
        seatStatus s'.Seats seatID = seatStatus demoSession.Seats seatID) :=
  ⟨by decide, rfl,
    CreateBooking_marks_session_seats { lockService := u1HoldsA1A2, emitted := [] }
      { demoDB with updateFaults := [true, false] }
      demoRequest 1000 77 (by decide) demoSession rfl⟩

/-! ## The expiry monitor recovers session and seat from a lock key -/

theorem sliceChars_prefix (x y : List Char) : sliceChars (x ++ y) 0 x.length = some x := by
  simp [sliceChars]

theorem sliceChars_suffix (x y : List Char) :
    sliceChars (x ++ y) x.length (x ++ y).length = some y := by
  simp [sliceChars]

/-- Without a colon among the characters that are left, the loop changes nothing. -/
theorem parseKeyPartsLoop_no_colon (s rest : List Char) (i start : Nat) (parts : List String)
    (h : ∀ ch ∈ rest, ch ≠ ':') :
    parseKeyPartsLoop s rest i start parts = some (start, parts) := by
  induction rest generalizing i with
  | nil => rfl
  | cons ch rest ih =>
    have hch : ch ≠ ':' := h ch (List.mem_cons_self _ _)
    simp only [parseKeyPartsLoop, if_neg hch]
    exact ih _ (fun c hc => h c (List.mem_cons_of_mem _ hc))

/-- The loop skips the characters before the first colon. -/
theorem parseKeyPartsLoop_skip (s x rest : List Char) (i : Nat) (h : ∀ ch ∈ x, ch ≠ ':') :
    parseKeyPartsLoop s (x ++ rest) i 0 [] = parseKeyPartsLoop s rest (i + x.length) 0 [] := by
  induction x generalizing i with
  | nil => rfl
  | cons ch x ih =>
    have hch : ch ≠ ':' := h ch (List.mem_cons_self _ _)
    rw [List.cons_append, parseKeyPartsLoop, if_neg hch,
      ih _ (fun c hc => h c (List.mem_cons_of_mem _ hc)), List.length_cons]
    congr 1
    omega

/-- Two colon-free pieces joined by a colon are recovered, the second if it is not empty. -/
theorem parseKeyParts_two (x y : String) (hx : ∀ ch ∈ x.data, ch ≠ ':')
    (hy : ∀ ch ∈ y.data, ch ≠ ':') (hne : y ≠ "") :
    parseKeyParts (String.mk (x.data ++ ':' :: y.data)) = some [x, y] := by
  have hloop : parseKeyPartsLoop (x.data ++ ':' :: y.data) (x.data ++ ':' :: y.data) 0 0 [] =
      some (x.data.length + 1, [x]) := by
    rw [parseKeyPartsLoop_skip _ _ _ _ hx]
    simp only [parseKeyPartsLoop, if_true, Nat.zero_add, sliceChars_prefix, List.nil_append]
    exact parseKeyPartsLoop_no_colon _ _ _ _ _ hy
  have hylen : 0 < y.data.length := by
    rcases y with ⟨yd⟩
    cases yd with
    | nil => exact absurd rfl hne
    | cons c cs => simp
  have hsplit : x.data ++ ':' :: y.data = (x.data ++ [':']) ++ y.data := by
    rw [List.append_assoc]; rfl
  have hslice : sliceChars (x.data ++ ':' :: y.data) (x.data.length + 1)
      (x.data ++ ':' :: y.data).length = some y.data := by
    have := sliceChars_suffix (x.data ++ [':']) y.data
    rw [List.length_append, List.length_singleton] at this
    rw [hsplit]
    exact this
  have hlt : x.data.length + 1 < (String.mk (x.data ++ ':' :: y.data)).length := by
    show x.data.length + 1 < (x.data ++ ':' :: y.data).length
    rw [List.length_append, List.length_cons]
    omega
  simp only [parseKeyParts, hloop, if_pos hlt]
  have hlen : (String.mk (x.data ++ ':' :: y.data)).length =
      (x.data ++ ':' :: y.data).length := rfl
  rw [hlen, hslice]
  rfl

theorem getLockKey_data (sessionID seatID : String) :
    (getLockKey sessionID seatID).data =
      "seat_lock:".data ++ (sessionID.data ++ ':' :: seatID.data) := by
  simp [getLockKey, LockKeyPrefix, String.data_append]

/-- C19. Key build and parse round trip. For a non-empty session ID and seat ID without a colon,
`handleExpiredKey` on the key built by `getLockKey` emits exactly one `SEAT_UPDATE` for that
session with that seat and status AVAILABLE, then one `LOCK_EXPIRED` audit event with that session
ID and the seat list `[seatID]`, without a panic; on a key that does not begin with `seat_lock:`
it emits nothing and does not panic. -/
theorem handleExpiredKey_round_trip :
    (∀ sessionID seatID : String, sessionID ≠ "" → seatID ≠ "" →
      (∀ ch ∈ sessionID.data, ch ≠ ':') → (∀ ch ∈ seatID.data, ch ≠ ':') →
      handleExpiredKey (getLockKey sessionID seatID) =
        some [.broadcast sessionID "SEAT_UPDATE" [{ SeatID := seatID, Status := .AVAILABLE }],
              .auditLog { EventType := "LOCK_EXPIRED", SessionID := sessionID, UserID := "",
                          SeatIDs := [seatID],
                          Description := "Seat lock expired (5 min timeout)" }]) ∧
    (∀ key : String, ¬ "seat_lock:".data <+: key.data → handleExpiredKey key = some []) := by
  constructor
  · intro sessionID seatID _ hseat hs ha
    have hdata := getLockKey_data sessionID seatID
    have hlen : ¬ (getLockKey sessionID seatID).length < 11 := by
      have hpos : 0 < seatID.data.length := by
        rcases seatID with ⟨yd⟩
        cases yd with
        | nil => exact absurd rfl hseat
        | cons c cs => simp
      simp only [String.length, hdata, List.length_append, List.length_cons]
      have : "seat_lock:".data.length = 10 := by decide
      omega
    have hhead : sliceChars (getLockKey sessionID seatID).data 0 10 =
        some "seat_lock:".data := by
      rw [hdata]
      exact sliceChars_prefix "seat_lock:".data _
    have htail : sliceChars (getLockKey sessionID seatID).data 10
        (getLockKey sessionID seatID).length =
        some (sessionID.data ++ ':' :: seatID.data) := by
      simp only [String.length, hdata]
      exact sliceChars_suffix "seat_lock:".data _
    have hparts := parseKeyParts_two sessionID seatID hs ha hseat
    simp only [handleExpiredKey, if_neg hlen, hhead, htail, hparts]
    simp [BroadcastSeatUpdate, lockExpiredLog]
  · intro key hkey
    by_cases hlen : key.length < 11
    · simp [handleExpiredKey, hlen]
    · have hslice : sliceChars key.data 0 10 = some (key.data.take 10) := by
        have h10 : 10 ≤ key.data.length := by
          have : key.length = key.data.length := rfl
          omega
        unfold sliceChars
        rw [if_pos ⟨Nat.zero_le _, h10⟩]
        rfl
      have hne : String.mk (key.data.take 10) ≠ "seat_lock:" := by
        intro heq
        apply hkey
        have h1 : key.data.take 10 = "seat_lock:".data := by
          rw [← heq]
        rw [← h1]
        exact List.take_prefix _ _
      simp only [handleExpiredKey, if_neg hlen, hslice, if_pos hne]

theorem handleExpiredKey_round_trip_witness :
    handleExpiredKey (getLockKey "S1" "B5") =
      some [.broadcast "S1" "SEAT_UPDATE" [{ SeatID := "B5", Status := .AVAILABLE }],
            .auditLog { EventType := "LOCK_EXPIRED", SessionID := "S1", UserID := "",
                        SeatIDs := ["B5"],
                        Description := "Seat lock expired (5 min timeout)" }] ∧
    handleExpiredKey "__keyevent@0__:expired" = some [] :=
  ⟨handleExpiredKey_round_trip.1 "S1" "B5" (by decide) (by decide) (by decide) (by decide),
    handleExpiredKey_round_trip.2 "__keyevent@0__:expired" (by decide)⟩

/-! ## Session switch of a subscriber -/

/-- C20 on the code: the subscriber of `S1` handles `SUBSCRIBE` for `S2`. The hub unregisters it,
which closes its `send` channel, and registers it under `S2` with the closed channel. A later
broadcast for `S1` reaches no one, as claimed; a later broadcast for `S2` is not delivered: the
send on the closed channel panics. -/
theorem session_switch_leaves_closed_buffer :
    oneSubscriberS1.handleMessage 0 (.typed "SUBSCRIBE" (some "S2")) =
      .done { clients := [("S2", [0])],
              heap := [{ SessionID := "S2", UserID := "u1",
                         send := { queue := [], closed := true } }] } ∧
    Hub.broadcastToSession
        { clients := [("S2", [0])],
          heap := [{ SessionID := "S2", UserID := "u1",
                     send := { queue := [], closed := true } }] } "S1" "seats" =
      .done { clients := [("S2", [0])],
              heap := [{ SessionID := "S2", UserID := "u1",
                         send := { queue := [], closed := true } }] } ∧
    Hub.broadcastToSession
        { clients := [("S2", [0])],
          heap := [{ SessionID := "S2", UserID := "u1",
                     send := { queue := [], closed := true } }] } "S2" "seats" =
      .panic "send on closed channel" := by
  decide

/-! ## Lock keys of distinct seats are distinct -/

/-- Two colon-free heads followed by a colon and a tail give equal lists only when heads and
tails agree. -/
theorem split_at_first_colon (x1 x2 y1 y2 : List Char) (h1 : ∀ ch ∈ x1, ch ≠ ':')
    (h2 : ∀ ch ∈ x2, ch ≠ ':') (h : x1 ++ ':' :: y1 = x2 ++ ':' :: y2) :
    x1 = x2 ∧ y1 = y2 := by
  induction x1 generalizing x2 with
  | nil =>
    cases x2 with
    | nil => simpa using h
    | cons c2 x2 =>
      simp only [List.nil_append, List.cons_append, List.cons.injEq] at h
      exact absurd h.1.symm (h2 c2 (List.mem_cons_self _ _))
  | cons c1 x1 ih =>
    cases x2 with
    | nil =>
      simp only [List.nil_append, List.cons_append, List.cons.injEq] at h
      exact absurd h.1 (h1 c1 (List.mem_cons_self _ _))
    | cons c2 x2 =>
      simp only [List.cons_append, List.cons.injEq] at h
      obtain ⟨hx, hy⟩ := ih x2 (fun ch hc => h1 ch (List.mem_cons_of_mem _ hc))
        (fun ch hc => h2 ch (List.mem_cons_of_mem _ hc)) h.2
      exact ⟨by rw [h.1, hx], hy⟩

/-- C28. The function `getLockKey` is injective on pairs whose session ID contains no colon:
equal keys have equal session IDs and equal seat IDs, so two distinct (session, seat) pairs never
share a lock record. -/
theorem getLockKey_injective (s1 s2 a1 a2 : String) (h1 : ∀ ch ∈ s1.data, ch ≠ ':')
    (h2 : ∀ ch ∈ s2.data, ch ≠ ':') (h : getLockKey s1 a1 = getLockKey s2 a2) :
    s1 = s2 ∧ a1 = a2 := by
  have hd := congrArg String.data h
  rw [getLockKey_data, getLockKey_data] at hd
  have hd' := List.append_cancel_left hd
  obtain ⟨hs, ha⟩ := split_at_first_colon _ _ _ _ h1 h2 hd'
  exact ⟨String.ext hs, String.ext ha⟩

theorem getLockKey_injective_witness :
    (∀ ch ∈ "S1".data, ch ≠ ':') ∧ (∀ ch ∈ "S1".data, ch ≠ ':') ∧
    getLockKey "S1" "A:1" = getLockKey "S1" "A:1" ∧ ("S1" = "S1" ∧ "A:1" = "A:1") :=
  ⟨by decide, by decide, rfl,
    getLockKey_injective "S1" "S1" "A:1" "A:1" (by decide) (by decide) rfl⟩

/-! ## A seat requested twice -/

/-- A requested seat that already has a record makes the pipeline report a failure. -/
theorem pipeline_failed_of_held (c : RedisClient) (sessionID : String) (seatIDs : List String)
    (userID : String) (hon : c.online = true) (a : String) (ha : a ∈ seatIDs) (r : LockRecord)
    (h : lookup (getLockKey sessionID a) c.data = some r) :
    (partitionResults seatIDs (c.runSetNX (seatIDs.map fun seatID =>
      (getLockKey sessionID seatID, userID, LockDuration))).2).2 ≠ [] := by
  induction seatIDs generalizing c with
  | nil => cases ha
  | cons b rest ih =>
    simp only [List.map_cons]
    cases hl : lookup (getLockKey sessionID b) c.data with
    | some r0 =>
      rw [runSetNX_results_present c _ _ _ _ r0 hon hl]
      simp [partitionResults]
    | none =>
      rw [runSetNX_results_absent c _ _ _ _ hon hl]
      have hab : getLockKey sessionID b ≠ getLockKey sessionID a := by
        intro hk; rw [hk, h] at hl; cases hl
      have hne : a ≠ b := fun e => hab (by rw [e])
      have hrest : a ∈ rest := by
        rcases List.mem_cons.mp ha with e | e
        · exact absurd e hne
        · exact e
      have := ih { c with data := (getLockKey sessionID b,
          { owner := userID, ttl := LockDuration }) :: c.data } hon hrest
        (by simpa [lookup, hab] using h)
      simp only [partitionResults, if_true]
      exact this

/-- A seat list with a repeated label makes the pipeline report a failure. -/
theorem pipeline_failed_of_duplicate (c : RedisClient) (sessionID : String)
    (seatIDs : List String) (userID : String) (hon : c.online = true)
    (hdup : ¬ seatIDs.Nodup) :
    (partitionResults seatIDs (c.runSetNX (seatIDs.map fun seatID =>
      (getLockKey sessionID seatID, userID, LockDuration))).2).2 ≠ [] := by
  induction seatIDs generalizing c with
  | nil => exact absurd List.nodup_nil hdup
  | cons b rest ih =>
    simp only [List.map_cons]
    cases hl : lookup (getLockKey sessionID b) c.data with
    | some r0 =>
      rw [runSetNX_results_present c _ _ _ _ r0 hon hl]
      simp [partitionResults]
    | none =>
      rw [runSetNX_results_absent c _ _ _ _ hon hl]
      simp only [partitionResults, if_true]
      by_cases hb : b ∈ rest
      · exact pipeline_failed_of_held { c with data := (getLockKey sessionID b,
          { owner := userID, ttl := LockDuration }) :: c.data } sessionID rest userID hon b hb
          { owner := userID, ttl := LockDuration } (lookup_cons_self _ _ _)
      · have hrest : ¬ rest.Nodup := fun hn => hdup (List.nodup_cons.mpr ⟨hb, hn⟩)
        exact ih { c with data := (getLockKey sessionID b,
          { owner := userID, ttl := LockDuration }) :: c.data } hon hrest

/-- On a server that answers, a multi-acquire whose pipeline created some seats and failed on
others returns the conflict error with all requested seats and the client it started from. -/
theorem LockMultipleSeats_conflict (c : RedisClient) (sessionID : String)
    (seatIDs : List String) (userID : String) (hon : c.online = true)
    (hcreated : (partitionResults seatIDs (c.runSetNX (seatIDs.map fun seatID =>
      (getLockKey sessionID seatID, userID, LockDuration))).2).1 ≠ [])
    (hfailed : (partitionResults seatIDs (c.runSetNX (seatIDs.map fun seatID =>
      (getLockKey sessionID seatID, userID, LockDuration))).2).2 ≠ []) :
    LockMultipleSeats c sessionID seatIDs userID =
      (c, [], seatIDs, some "could not lock all seats, some are already locked") := by
  have hroll : rollback (c.runSetNX (seatIDs.map fun seatID =>
        (getLockKey sessionID seatID, userID, LockDuration))).1 sessionID
      (partitionResults seatIDs (c.runSetNX (seatIDs.map fun seatID =>
        (getLockKey sessionID seatID, userID, LockDuration))).2).1 userID = c := by
    rw [rollback_eq_eraseSeats _ _ _ _ ((runSetNX_online c _).trans hon)]
    · exact client_ext (runSetNX_online c _) (pipeline_eraseSeats c sessionID seatIDs userID hon)
    · intro a ha r hr
      rw [pipeline_locked_owned c sessionID seatIDs userID hon a ha] at hr
      cases hr; rfl
  simp only [LockMultipleSeats, lockPipeline_online c sessionID seatIDs userID hon]
  have h1 := List.length_pos.mpr hcreated
  have h2 := List.length_pos.mpr hfailed
  simp [h1, h2, hroll]

/-- C27. On a server that answers, for a seat list that contains a label more than once and of
which no seat has a lock record, `LockMultipleSeats` locks nothing: the pipeline creates the
first occurrence and fails on a repeated one, the call returns no locked seat, all requested
seats as failed and the conflict error, and the client at return equals the client before the
call, so no requested seat has a record. -/
theorem LockMultipleSeats_duplicate_label (c : RedisClient) (sessionID : String)
    (seatIDs : List String) (userID : String) (hon : c.online = true)
    (hdup : ¬ seatIDs.Nodup)
    (hfree : ∀ a ∈ seatIDs, lookup (getLockKey sessionID a) c.data = none) :
    (partitionResults seatIDs (lockPipeline c sessionID seatIDs userID).2.1).1 ≠ [] ∧
    (partitionResults seatIDs (lockPipeline c sessionID seatIDs userID).2.1).2 ≠ [] ∧
    LockMultipleSeats c sessionID seatIDs userID =
      (c, [], seatIDs, some "could not lock all seats, some are already locked") ∧
    ∀ a ∈ seatIDs,
      lookup (getLockKey sessionID a) (LockMultipleSeats c sessionID seatIDs userID).1.data =
        none := by
  have hfailed := pipeline_failed_of_duplicate c sessionID seatIDs userID hon hdup
  have hcreated : (partitionResults seatIDs (c.runSetNX (seatIDs.map fun seatID =>
      (getLockKey sessionID seatID, userID, LockDuration))).2).1 ≠ [] := by
    cases seatIDs with
    | nil => exact absurd List.nodup_nil hdup
    | cons b rest =>
      simp only [List.map_cons]
      rw [runSetNX_results_absent c _ _ _ _ hon (hfree b (List.mem_cons_self _ _))]
      simp [partitionResults]
  have hmain := LockMultipleSeats_conflict c sessionID seatIDs userID hon hcreated hfailed
  rw [lockPipeline_online c sessionID seatIDs userID hon]
  refine ⟨hcreated, hfailed, hmain, ?_⟩
  intro a ha
  rw [hmain]
  exact hfree a ha

theorem LockMultipleSeats_duplicate_label_witness :
    u1HoldsA1.online = true ∧ ¬ ["A2", "A3", "A2"].Nodup ∧
    (∀ a ∈ ["A2", "A3", "A2"], lookup (getLockKey "S1" a) u1HoldsA1.data = none) ∧
    LockMultipleSeats u1HoldsA1 "S1" ["A2", "A3", "A2"] "u2" =
      (u1HoldsA1, [], ["A2", "A3", "A2"],
        some "could not lock all seats, some are already locked") :=
  ⟨rfl, by decide, by decide,
    (LockMultipleSeats_duplicate_label u1HoldsA1 "S1" ["A2", "A3", "A2"] "u2" rfl
      (by decide) (by decide)).2.2.1⟩

/-! ## Broadcasts of the hub -/

/-- The loop blocks at a subscriber whose open buffer is full, before it serves the rest. -/
theorem broadcastLoop_head_full (h : Hub) (message : String) (client : Nat) (rest : List Nat)
    (c : Client) (hget : h.heap.get? client = some c) (hopen : c.send.closed = false)
    (hfull : ¬ c.send.queue.length < sendCapacity) :
    h.broadcastLoop message (client :: rest) = .blocked h client := by
  rw [Hub.broadcastLoop, hget]
  simp only [hopen, hfull, if_false, Bool.false_eq_true]

theorem slowAndFastS1_blocks :
    slowAndFastS1.broadcastToSession "S1" "seats" = .blocked slowAndFastS1 0 := by
  have hset : slowAndFastS1.sessionSet "S1" = some [0, 1] := by decide
  simp only [Hub.broadcastToSession, hset]
  exact broadcastLoop_head_full slowAndFastS1 "seats" 0 [1]
    { SessionID := "S1", UserID := "slow",
      send := { queue := List.replicate 256 "old", closed := false } } rfl rfl
    (by
      show ¬ (List.replicate 256 "old").length < 256
      rw [List.length_replicate]
      decide)

/-- C21 on the code: session `S1` has a subscriber with 256 pending messages and one with an
empty buffer. The broadcast does not finish: the hub loop blocks in `h.unregister <- client` for
the full subscriber, which stays in the set of `S1`, and the other subscriber of `S1` has not
received the message. -/
theorem broadcast_blocks_on_full_buffer :
    slowAndFastS1.broadcastToSession "S1" "seats" = .blocked slowAndFastS1 0 ∧
    slowAndFastS1.sessionSet "S1" = some [0, 1] ∧
    (slowAndFastS1.heap.get? 1).map (fun c => c.send.queue) = some [] := by
  exact ⟨slowAndFastS1_blocks, by decide, rfl⟩

/-- C22 on the code: from a hub with one new client, the steps register and `SUBSCRIBE` to `S2`
reach a state whose registry holds the client under `S2` with a closed buffer; there a broadcast
for `S2` panics with a send on the closed channel and an unregister of the client panics with
a second close. -/
theorem hub_reaches_closed_buffer_and_panics :
    freshHub.run [.register 0, .subscribe 0 "S2"] =
      .done { clients := [("S2", [0])],
              heap := [{ SessionID := "S2", UserID := "u1",
                         send := { queue := [], closed := true } }] } ∧
    freshHub.run [.register 0, .subscribe 0 "S2", .broadcast "S2" "seats"] =
      .panic "send on closed channel" ∧
    freshHub.run [.register 0, .subscribe 0 "S2", .unregister 0] =
      .panic "close of closed channel" := by
  decide

/-- C23 on the code: in the broadcast for `S1` the subscriber `1` of `S1` has room in its buffer,
but the message is not appended to it, because the loop blocks at the full subscriber `0` before
it; the subscriber `2` of session `S2` is unchanged. -/
theorem broadcast_skips_subscriber_with_room :
    slowAndFastS1.sessionSet "S1" = some [0, 1] ∧
    (slowAndFastS1.heap.get? 1).map (fun c => decide (c.send.queue.length < sendCapacity)) =
      some true ∧
    (∀ h, slowAndFastS1.broadcastToSession "S1" "seats" = .done h → False) ∧
    (∀ h p, slowAndFastS1.broadcastToSession "S1" "seats" = .blocked h p →
      (h.heap.get? 1).map (fun c => c.send.queue) = some [] ∧
      h.heap.get? 2 = slowAndFastS1.heap.get? 2) := by
  have hres := slowAndFastS1_blocks
  refine ⟨by decide, rfl, ?_, ?_⟩
  · intro h hd
    rw [hres] at hd
    cases hd
  · intro h p hb
    rw [hres] at hb
    cases hb
    exact ⟨rfl, rfl⟩

theorem get_set_other {α : Type} (l : List α) (p q : Nat) (a : α) (h : p ≠ q) :
    (l.set p a).get? q = l.get? q := by
  rw [List.get?_eq_getElem?, List.get?_eq_getElem?, List.getElem?_set, if_neg h]

theorem get_set_self {α : Type} (l : List α) (p : Nat) (a c : α) (h : l.get? p = some c) :
    (l.set p a).get? p = some a := by
  have hlt : p < l.length := by
    rw [List.get?_eq_getElem?] at h
    exact (List.getElem?_eq_some.mp h).1
  rw [List.get?_eq_getElem?, List.getElem?_set, if_pos rfl, if_pos hlt]

/-- A broadcast loop that ends, normally or blocked, leaves the registry as it was and changes no
client outside the set it ranges over. -/
theorem broadcastLoop_frame (message : String) (set : List Nat) :
    ∀ (h h' : Hub), (h.broadcastLoop message set = .done h' ∨
        ∃ q, h.broadcastLoop message set = .blocked h' q) →
      h'.clients = h.clients ∧ ∀ p, p ∉ set → h'.heap.get? p = h.heap.get? p := by
  induction set with
  | nil =>
    intro h h' hres
    rcases hres with hd | ⟨q, hb⟩
    · simp only [Hub.broadcastLoop, HubResult.done.injEq] at hd
      subst hd
      exact ⟨rfl, fun _ _ => rfl⟩
    · simp only [Hub.broadcastLoop] at hb
      cases hb
  | cons client rest ih =>
    intro h h' hres
    rw [Hub.broadcastLoop] at hres
    cases hget : h.heap.get? client with
    | none =>
      rw [hget] at hres
      rcases hres with hd | ⟨q, hb⟩
      · cases hd
      · cases hb
    | some c =>
      rw [hget] at hres
      simp only at hres
      by_cases hclosed : c.send.closed = true
      · rw [if_pos hclosed] at hres
        rcases hres with hd | ⟨q, hb⟩
        · cases hd
        · cases hb
      · rw [if_neg hclosed] at hres
        by_cases hroom : c.send.queue.length < sendCapacity
        · rw [if_pos hroom] at hres
          obtain ⟨h1, h2⟩ := ih _ h' hres
          refine ⟨h1, ?_⟩
          intro p hp
          rw [h2 p (fun hm => hp (List.mem_cons_of_mem _ hm))]
          exact get_set_other _ _ _ _ (fun e => hp (by rw [← e]; exact List.mem_cons_self _ _))
        · rw [if_neg hroom] at hres
          rcases hres with hd | ⟨q, hb⟩
          · cases hd
          · cases hb
            exact ⟨rfl, fun _ _ => rfl⟩

/-- A broadcast for a session without subscribers changes nothing, and a broadcast that ends,
normally or blocked, changes no client outside the session's set. -/
theorem broadcastToSession_frame (h : Hub) (sessionID message : String) :
    (h.sessionSet sessionID = none → h.broadcastToSession sessionID message = .done h) ∧
    ∀ h', (h.broadcastToSession sessionID message = .done h' ∨
        ∃ q, h.broadcastToSession sessionID message = .blocked h' q) →
      h'.clients = h.clients ∧
      ∀ p, (∀ set, h.sessionSet sessionID = some set → p ∉ set) →
        h'.heap.get? p = h.heap.get? p := by
  constructor
  · intro hnone
    simp only [Hub.broadcastToSession, hnone]
  · intro h' hres
    cases hset : h.sessionSet sessionID with
    | none =>
      simp only [Hub.broadcastToSession, hset] at hres
      rcases hres with hd | ⟨q, hb⟩
      · cases hd; exact ⟨rfl, fun _ _ => rfl⟩
      · cases hb
    | some set =>
      simp only [Hub.broadcastToSession, hset] at hres
      obtain ⟨h1, h2⟩ := broadcastLoop_frame message set h h' hres
      exact ⟨h1, fun p hp => h2 p (hp set rfl)⟩

/-- A broadcast loop that ends normally over a set without repetition has appended the message
to the buffer of every client of the set. -/
theorem broadcastLoop_delivers (message : String) (set : List Nat) :
    ∀ (h h' : Hub), set.Nodup → h.broadcastLoop message set = .done h' →
      ∀ p ∈ set, ∃ c, h.heap.get? p = some c ∧
        h'.heap.get? p =
          some { c with send := { c.send with queue := c.send.queue ++ [message] } } := by
  induction set with
  | nil => intro h h' _ _ p hp; cases hp
  | cons client rest ih =>
    intro h h' hnodup hres p hp
    rw [Hub.broadcastLoop] at hres
    cases hget : h.heap.get? client with
    | none => rw [hget] at hres; cases hres
    | some c =>
      rw [hget] at hres
      simp only at hres
      by_cases hclosed : c.send.closed = true
      · rw [if_pos hclosed] at hres; cases hres
      · rw [if_neg hclosed] at hres
        by_cases hroom : c.send.queue.length < sendCapacity
        · rw [if_pos hroom] at hres
          have hn := List.nodup_cons.mp hnodup
          rcases List.mem_cons.mp hp with hpc | hpr
          · subst hpc
            refine ⟨c, hget, ?_⟩
            have hframe := (broadcastLoop_frame message rest _ h' (Or.inl hres)).2 p hn.1
            rw [hframe]
            exact get_set_self _ _ _ _ hget
          · obtain ⟨c', hc', hres'⟩ := ih _ h' hn.2 hres p hpr
            have hne : client ≠ p := fun e => hn.1 (by rw [e]; exact hpr)
            rw [get_set_other _ _ _ _ hne] at hc'
            exact ⟨c', hc', hres'⟩
        · rw [if_neg hroom] at hres; cases hres

/-! ## The seat list of `GetSession` -/

theorem reconcileSeats_get (c : RedisClient) (sessionID : String) (seats : List Seat)
    (i : Nat) :
    (reconcileSeats c sessionID seats).get? i =
      (seats.get? i).map (reconcileSeat c sessionID) := by
  induction seats generalizing i with
  | nil => rfl
  | cons seat rest ih =>
    cases i with
    | zero => rfl
    | succ j => simpa [reconcileSeats] using ih j

theorem reconcileSeat_ID (c : RedisClient) (sessionID : String) (seat : Seat) :
    (reconcileSeat c sessionID seat).ID = seat.ID := by
  unfold reconcileSeat
  split
  split <;> rfl

theorem reconcileSeats_IDs (c : RedisClient) (sessionID : String) (seats : List Seat) :
    (reconcileSeats c sessionID seats).map (fun seat => seat.ID) =
      seats.map fun seat => seat.ID := by
  induction seats with
  | nil => rfl
  | cons seat rest ih => simp [reconcileSeats, reconcileSeat_ID, ih]

theorem reconcileSeat_booked (c : RedisClient) (sessionID : String) (seat : Seat)
    (h : seat.Status = .BOOKED) : reconcileSeat c sessionID seat = seat := by
  unfold reconcileSeat
  split
  simp [h]

theorem reconcileSeat_locked (c : RedisClient) (sessionID : String) (seat : Seat)
    (r : LockRecord) (hon : c.online = true)
    (hl : lookup (getLockKey sessionID seat.ID) c.data = some r) (h : seat.Status ≠ .BOOKED) :
    reconcileSeat c sessionID seat = { seat with Status := .LOCKED, LockedBy := r.owner } := by
  simp [reconcileSeat, IsLocked_owned c _ _ r hon hl, h]

theorem reconcileSeat_free (c : RedisClient) (sessionID : String) (seat : Seat)
    (hl : lookup (getLockKey sessionID seat.ID) c.data = none) :
    reconcileSeat c sessionID seat = seat := by
  rcases Bool.eq_false_or_eq_true c.online with hon | hon
  · simp [reconcileSeat, IsLocked_absent c _ _ hon hl]
  · simp [reconcileSeat, IsLocked_offline c _ _ hon]

/-- C25. When the path parameter parses and the session document is found, `GetSession` answers
200 with the session document in which only the seat list is rewritten: it has the same seats
in the same order; a seat stored as BOOKED is returned unchanged, whatever the lock store holds;
a seat not BOOKED whose key has a lock record is returned, when the lock store answers, with
status LOCKED and `lockedBy` equal to the owner of the record and is otherwise unchanged; a seat
not BOOKED without a lock record is returned unchanged. -/
theorem GetSession_reconciles (h : Handler) (db : MongoDB) (sessionID : String)
    (id : ObjectID) (s : MovieSession) (hid : ObjectIDFromHex sessionID = .ok id)
    (hs : db.FindSession id = .ok s) :
    ∃ seats',
      h.GetSession db sessionID =
        { code := 200, body := { Success := true },
          session := some { s with Seats := seats' } } ∧
      seats'.length = s.Seats.length ∧
      (seats'.map fun seat => seat.ID) = (s.Seats.map fun seat => seat.ID) ∧
      ∀ i seat, s.Seats.get? i = some seat →
        ∃ seat', seats'.get? i = some seat' ∧
          (seat.Status = .BOOKED → seat' = seat) ∧
          (seat.Status ≠ .BOOKED → h.lockService.online = true →
            ∀ r, lookup (getLockKey sessionID seat.ID) h.lockService.data = some r →
              seat' = { seat with Status := .LOCKED, LockedBy := r.owner }) ∧
          (seat.Status ≠ .BOOKED →
            lookup (getLockKey sessionID seat.ID) h.lockService.data = none →
            seat' = seat) := by
  refine ⟨reconcileSeats h.lockService sessionID s.Seats, ?_, ?_, ?_, ?_⟩
  · simp only [Handler.GetSession, hid, hs]
    rfl
  · have := congrArg List.length (reconcileSeats_IDs h.lockService sessionID s.Seats)
    simpa using this
  · exact reconcileSeats_IDs _ _ _
  · intro i seat hseat
    refine ⟨reconcileSeat h.lockService sessionID seat, ?_, ?_, ?_, ?_⟩
    · rw [reconcileSeats_get, hseat]
      rfl
    · exact reconcileSeat_booked _ _ _
    · intro hnb hon r hl
      exact reconcileSeat_locked _ _ _ r hon hl hnb
    · intro _ hl
      exact reconcileSeat_free _ _ _ hl

theorem GetSession_reconciles_witness :
    ObjectIDFromHex "64b7f3a2c1d4e5f601234567" = .ok demoSession.ID ∧
    MongoDB.FindSession { up := true, sessions := [demoSessionA1Booked], bookings := [] }
      demoSession.ID = .ok demoSessionA1Booked ∧
    (Handler.GetSession { lockService := u1HoldsA1A2, emitted := [] }
      { up := true, sessions := [demoSessionA1Booked], bookings := [] }
      "64b7f3a2c1d4e5f601234567").session =
      some { demoSession with
        Seats := [{ ID := "A1", Row := "A", Number := 1, Status := .BOOKED, Price := 150 },
                  { ID := "A2", Row := "A", Number := 2, Status := .LOCKED, LockedBy := "u1",
                    Price := 150 },
                  { ID := "A3", Row := "A", Number := 3, Status := .AVAILABLE,
                    Price := 150 }] } ∧
    ∃ seats',
      Handler.GetSession { lockService := u1HoldsA1A2, emitted := [] }
          { up := true, sessions := [demoSessionA1Booked], bookings := [] }
          "64b7f3a2c1d4e5f601234567" =
        { code := 200, body := { Success := true },
          session := some { demoSessionA1Booked with Seats := seats' } } ∧
      seats'.length = demoSessionA1Booked.Seats.length :=
  ⟨rfl, rfl, by decide,
    (GetSession_reconciles { lockService := u1HoldsA1A2, emitted := [] }
      { up := true, sessions := [demoSessionA1Booked], bookings := [] }
      "64b7f3a2c1d4e5f601234567" demoSession.ID demoSessionA1Booked rfl rfl).imp
      fun _ hx => ⟨hx.1, hx.2.1⟩⟩

/-! ## Selling a booked seat again -/

/-- The status code of `CreateBooking` depends on the lock store and on whether the database
answers, not on the session documents or the bookings it holds. -/
theorem CreateBooking_code (h : Handler) (db : MongoDB) (req : BookingRequest) (now : Nat)
    (newID : ObjectID) :
    (h.CreateBooking db (.ok req) now newID).response.code =
      if (firstNotOwned h.lockService req.SessionID req.UserID req.SeatIDs).isSome then 409
      else if db.up = true then 201 else 500 := by
  cases hf : firstNotOwned h.lockService req.SessionID req.UserID req.SeatIDs with
  | some seatID => simp [Handler.CreateBooking, hf, StatusConflict]
  | none =>
    rcases Bool.eq_false_or_eq_true db.up with hup | hup
    · simp [Handler.CreateBooking, hf, MongoDB.InsertBooking, hup, finishBooking, StatusCreated]
    · simp [Handler.CreateBooking, hf, MongoDB.InsertBooking, hup, StatusInternalServerError]

/-- C26. A BOOKED seat can be locked and sold again. In the run `resaleLock1`, `resaleBooking1`,
`resaleLock2`, `resaleBooking2`, user `u1` locks and books `A1` of the demo session, after which
`A1` is BOOKED in the session document and has no lock record; then `u2` locks `A1` with a 200
answer and books it with a 201 answer, and the database holds two CONFIRMED bookings of `A1` for
the same session. The lock handler takes no session document at all, and the booking of `u2` is
answered 201 whatever session documents and bookings the database holds. -/
theorem booked_seat_sold_twice :
    resaleLock1.2.1 = 200 ∧
    resaleBooking1.response.code = 201 ∧
    (resaleBooking1.db.sessions.map fun s => seatStatus s.Seats "A1") = [some .BOOKED] ∧
    lookup (getLockKey "64b7f3a2c1d4e5f601234567" "A1")
      resaleBooking1.handler.lockService.data = none ∧
    resaleLock2.2.1 = 200 ∧
    resaleLock2.2.2.Data = .lockedSeats ["A1"] 300 ∧
    lookup (getLockKey "64b7f3a2c1d4e5f601234567" "A1") resaleLock2.1.lockService.data =
      some { owner := "u2", ttl := 300 } ∧
    resaleBooking2.response.code = 201 ∧
    (resaleBooking2.db.bookings.map fun b => (b.SessionID, b.UserID, b.Seats, b.Status)) =
      [(demoSession.ID, "u1", ["A1"], "CONFIRMED"), (demoSession.ID, "u2", ["A1"], "CONFIRMED")] ∧
    (∀ sessions bookings,
      (resaleLock2.1.CreateBooking { up := true, sessions := sessions, bookings := bookings }
        (.ok resaleRequest2) 2000 78).response.code = 201) := by
  refine ⟨by decide, by decide, by decide, by decide, by decide, by decide, by decide,
    by decide, by decide, ?_⟩
  intro sessions bookings
  rw [CreateBooking_code]
  have hown : firstNotOwned resaleLock2.1.lockService resaleRequest2.SessionID
      resaleRequest2.UserID resaleRequest2.SeatIDs = none := by decide
  rw [hown]
  rfl

/-! ## The pagination parser -/

theorem parseIntHelper_error (cs : List Char) (result : Int) :
    (parseIntHelper cs result).2.1 = none := by
  induction cs generalizing result with
  | nil => rfl
  | cons ch rest ih =>
    unfold parseIntHelper
    split
    · rfl
    · exact ih _

theorem not_digit_iff (ch : Char) : (ch < '0' ∨ ch > '9') ↔ isDecimalDigit ch = false := by
  simp [isDecimalDigit, not_lt]
  constructor
  · intro h hle
    rcases h with h | h
    · exact absurd hle (not_le.mpr h)
    · exact h
  · intro h
    by_cases hle : '0' ≤ ch
    · exact Or.inr (h hle)
    · exact Or.inl (not_le.mp hle)

/-- The helper stops at the first non-digit: its result is the result on the leading digits. -/
theorem parseIntHelper_leading (cs : List Char) (result : Int) :
    (parseIntHelper cs result).2.2 =
      (parseIntHelper (cs.takeWhile isDecimalDigit) result).2.2 := by
  induction cs generalizing result with
  | nil => rfl
  | cons ch rest ih =>
    cases hd : isDecimalDigit ch with
    | false =>
      have hnd := (not_digit_iff ch).mpr hd
      simp only [List.takeWhile_cons, hd, parseIntHelper, if_pos hnd]
    | true =>
      have hnd : ¬ (ch < '0' ∨ ch > '9') := by
        intro h
        rw [(not_digit_iff ch).mp h] at hd
        cases hd
      simp only [List.takeWhile_cons, hd, parseIntHelper, if_neg hnd, if_true]
      exact ih _

theorem le_decimalValue (cs : List Char) (acc : Nat) : acc ≤ decimalValue acc cs := by
  induction cs generalizing acc with
  | nil => exact Nat.le_refl _
  | cons ch rest ih =>
    show acc ≤ decimalValue (acc * 10 + (ch.toNat - '0'.toNat)) rest
    exact Nat.le_trans
      (Nat.le_trans (Nat.le_mul_of_pos_right acc (by decide)) (Nat.le_add_right _ _)) (ih _)

/-- On digits whose decimal value fits in an `int`, the helper computes that value. -/
theorem parseIntHelper_digits (cs : List Char) (acc : Nat)
    (hdig : ∀ ch ∈ cs, isDecimalDigit ch = true) (hfit : decimalValue acc cs < 2 ^ 63) :
    (parseIntHelper cs (acc : Int)).2.2 = (decimalValue acc cs : Int) := by
  induction cs generalizing acc with
  | nil => rfl
  | cons ch rest ih =>
    have hd := hdig ch (List.mem_cons_self _ _)
    have hnd : ¬ (ch < '0' ∨ ch > '9') := by
      intro h
      rw [(not_digit_iff ch).mp h] at hd
      cases hd
    have hge : '0'.toNat ≤ ch.toNat := by
      simp only [isDecimalDigit, decide_eq_true_eq] at hd
      exact hd.1
    have h48 : '0'.toNat = 48 := rfl
    have hfit : decimalValue (acc * 10 + (ch.toNat - 48)) rest < 2 ^ 63 := hfit
    have hle := le_decimalValue rest (acc * 10 + (ch.toNat - 48))
    rw [h48] at hge
    have hlt : acc * 10 + (ch.toNat - 48) < 2 ^ 63 := Nat.lt_of_le_of_lt hle hfit
    have hstep : wrapInt ((acc : Int) * 10 + ((ch.toNat : Int) - ('0'.toNat : Int))) =
        ((acc * 10 + (ch.toNat - '0'.toNat) : Nat) : Int) := by
      rw [h48]
      unfold wrapInt
      generalize ch.toNat = n at hge hlt
      push_cast
      omega
    show (parseIntHelper (ch :: rest) (acc : Int)).2.2 =
      (decimalValue (acc * 10 + (ch.toNat - 48)) rest : Int)
    rw [parseIntHelper, if_neg hnd, hstep, h48]
    exact ih _ (fun c hc => hdig c (List.mem_cons_of_mem _ hc)) hfit

/-- C29. The function `parseInt` never returns an error. For a string of decimal digits whose
value fits in an `int` it returns that value; for any string it returns the value of the digits
that precede the first non-digit (0 if there are none), provided that value fits. So
`GetBookings` takes `page=12abc` as page 12, and it uses the default page 1 exactly when the
parsed page is not positive and the default limit 20 exactly when the parsed limit is not
positive or exceeds 100. -/
theorem parseInt_never_fails :
    (∀ s : String, (parseInt s).2 = none) ∧
    (∀ s : String, (∀ ch ∈ s.data, isDecimalDigit ch = true) → decimalValue 0 s.data < 2 ^ 63 →
      (parseInt s).1 = (decimalValue 0 s.data : Int)) ∧
    (∀ s : String, decimalValue 0 (leadingDigits s) < 2 ^ 63 →
      (parseInt s).1 = (decimalValue 0 (leadingDigits s) : Int)) ∧
    parseInt "12abc" = (12, none) ∧ parseInt "abc" = (0, none) ∧
    (bookingsPagination "12abc" "").page = 12 ∧
    (∀ p l : String, (bookingsPagination p l).page =
      if (parseInt p).1 > 0 then (parseInt p).1 else 1) ∧
    (∀ p l : String, (bookingsPagination p l).limit =
      if (parseInt l).1 > 0 ∧ (parseInt l).1 ≤ 100 then (parseInt l).1 else 20) := by
  have herr : ∀ s : String, (parseInt s).2 = none := fun s => parseIntHelper_error s.data 0
  have hlead : ∀ s : String, decimalValue 0 (leadingDigits s) < 2 ^ 63 →
      (parseInt s).1 = (decimalValue 0 (leadingDigits s) : Int) := by
    intro s hfit
    show (parseIntHelper s.data 0).2.2 = _
    rw [parseIntHelper_leading]
    exact parseIntHelper_digits (s.data.takeWhile isDecimalDigit) 0
      (fun ch hc => (List.mem_takeWhile_imp hc)) hfit
  have hempty : parseInt "" = (0, none) := rfl
  refine ⟨herr, ?_, hlead, by decide, by decide, by decide, ?_, ?_⟩
  · intro s hdig hfit
    exact parseIntHelper_digits s.data 0 hdig hfit
  · intro p l
    by_cases hp : p = ""
    · subst hp
      simp [bookingsPagination, hempty]
    · have h1 : parseInt p = ((parseInt p).1, none) := by
        rw [← herr p]
      simp only [bookingsPagination, if_pos hp]
      rw [h1]
      simp
  · intro p l
    by_cases hl : l = ""
    · subst hl
      simp [bookingsPagination, hempty]
    · have h1 : parseInt l = ((parseInt l).1, none) := by
        rw [← herr l]
      simp only [bookingsPagination, if_pos hl]
      rw [h1]
      simp

theorem parseInt_never_fails_witness :
    (∀ ch ∈ "150".data, isDecimalDigit ch = true) ∧ decimalValue 0 "150".data < 2 ^ 63 ∧
    (parseInt "150").1 = (decimalValue 0 "150".data : Int) ∧
    decimalValue 0 (leadingDigits "12abc") < 2 ^ 63 ∧
    (parseInt "12abc").1 = (decimalValue 0 (leadingDigits "12abc") : Int) :=
  ⟨by decide, by decide, parseInt_never_fails.2.1 "150" (by decide) (by decide), by decide,
    parseInt_never_fails.2.2.1 "12abc" (by decide)⟩

/-! ## Audit round trip -/

theorem unmarshal_marshal (e : AuditLogEntry) : unmarshalAuditLog (marshalAuditLog e) = .ok e :=
  rfl

/-- C24, as stated, fails: the event that `LogSeatLocked` publishes has no identity and no
timestamp; the producer stamps it at 1000, the consumer gives it the fresh identity 77, and the
inserted entry and its JSON differ from the event and its JSON in `id` and `timestamp`. -/
theorem audit_entry_differs_from_event :
    SendAuditLog (some { up := true, written := [] }) 1000 seatLockedEvent =
      (some { up := true,
              written := [auditMessage { seatLockedEvent with Timestamp := 1000 }] }, none) ∧
    processMessage { up := true, logs := [] }
        (auditMessage { seatLockedEvent with Timestamp := 1000 }) 2000 77 =
      ({ up := true, logs := [{ seatLockedEvent with ID := 77, Timestamp := 1000 }] }, none) ∧
    ({ seatLockedEvent with ID := 77, Timestamp := 1000 } : AuditLogEntry) ≠ seatLockedEvent ∧
    marshalAuditLog { seatLockedEvent with ID := 77, Timestamp := 1000 } ≠
      marshalAuditLog seatLockedEvent := by
  decide

/-- C24, amended. When writer and database can be reached, publishing an audit event `E` with
`SendAuditLog` writes one message keyed by the session ID, and `processMessage` on that message
inserts one entry that agrees with `E` in event type, session ID, user ID, seat IDs and
description; its timestamp is the one of `E` if set, else the producer's clock reading (else the
consumer's), and its identity is the one of `E` if set, else a fresh one. An event with identity
and timestamp set is inserted unchanged. -/
theorem audit_round_trip (w : KafkaWriter) (store : AuditStore) (E : AuditLogEntry)
    (now1 now2 : Nat) (freshID : ObjectID) (hw : w.up = true) (hs : store.up = true) :
    ∃ msg entry,
      SendAuditLog (some w) now1 E = (some { w with written := w.written ++ [msg] }, none) ∧
      msg.Key = E.SessionID ∧
      processMessage store msg now2 freshID =
        ({ store with logs := store.logs ++ [entry] }, none) ∧
      entry.toAuditLog = E.toAuditLog ∧
      entry.Timestamp =
        (if E.Timestamp ≠ 0 then E.Timestamp else if now1 ≠ 0 then now1 else now2) ∧
      entry.ID = (if E.ID ≠ NilObjectID then E.ID else freshID) ∧
      (E.ID ≠ NilObjectID → E.Timestamp ≠ 0 → entry = E) := by
  by_cases ht : E.Timestamp = 0
  · by_cases hn : now1 = 0
    · by_cases hid : E.ID = NilObjectID
      · refine ⟨auditMessage { E with Timestamp := now1 },
          { E with ID := freshID, Timestamp := now2 }, ?_, rfl, ?_, rfl, ?_, ?_, ?_⟩
        · simp [SendAuditLog, hw, ht]
        · simp [processMessage, auditMessage, unmarshal_marshal, hs, hid, hn]
        · simp [ht, hn]
        · simp [hid]
        · intro h; exact absurd hid h
      · refine ⟨auditMessage { E with Timestamp := now1 },
          { E with Timestamp := now2 }, ?_, rfl, ?_, rfl, ?_, ?_, ?_⟩
        · simp [SendAuditLog, hw, ht]
        · simp [processMessage, auditMessage, unmarshal_marshal, hs, hid, hn]
        · simp [ht, hn]
        · simp [hid]
        · intro _ h; exact absurd ht h
    · by_cases hid : E.ID = NilObjectID
      · refine ⟨auditMessage { E with Timestamp := now1 },
          { E with ID := freshID, Timestamp := now1 }, ?_, rfl, ?_, rfl, ?_, ?_, ?_⟩
        · simp [SendAuditLog, hw, ht]
        · simp [processMessage, auditMessage, unmarshal_marshal, hs, hid, hn]
        · simp [ht, hn]
        · simp [hid]
        · intro h; exact absurd hid h
      · refine ⟨auditMessage { E with Timestamp := now1 },
          { E with Timestamp := now1 }, ?_, rfl, ?_, rfl, ?_, ?_, ?_⟩
        · simp [SendAuditLog, hw, ht]
        · simp [processMessage, auditMessage, unmarshal_marshal, hs, hid, hn]
        · simp [ht, hn]
        · simp [hid]
        · intro _ h; exact absurd ht h
  · by_cases hid : E.ID = NilObjectID
    · refine ⟨auditMessage E, { E with ID := freshID }, ?_, rfl, ?_, rfl, ?_, ?_, ?_⟩
      · simp [SendAuditLog, hw, ht]
      · simp [processMessage, auditMessage, unmarshal_marshal, hs, hid, ht]
      · simp [ht]
      · simp [hid]
      · intro h; exact absurd hid h
    · refine ⟨auditMessage E, E, ?_, rfl, ?_, rfl, ?_, ?_, ?_⟩
      · simp [SendAuditLog, hw, ht]
      · simp [processMessage, auditMessage, unmarshal_marshal, hs, hid, ht]
      · simp [ht]
      · simp [hid]
      · intro _ _; rfl

theorem audit_round_trip_witness :
    (true = true) ∧
    ∃ msg entry,
      SendAuditLog (some { up := true, written := [] }) 1000 seatLockedEvent =
        (some { up := true, written := [] ++ [msg] }, none) ∧
      msg.Key = seatLockedEvent.SessionID ∧
      processMessage { up := true, logs := [] } msg 2000 77 =
        ({ up := true, logs := [] ++ [entry] }, none) ∧
      entry.toAuditLog = seatLockedEvent.toAuditLog ∧
      entry.Timestamp =
        (if seatLockedEvent.Timestamp ≠ 0 then seatLockedEvent.Timestamp
          else if 1000 ≠ 0 then 1000 else 2000) ∧
      entry.ID = (if seatLockedEvent.ID ≠ NilObjectID then seatLockedEvent.ID else 77) ∧
      (seatLockedEvent.ID ≠ NilObjectID → seatLockedEvent.Timestamp ≠ 0 →
        entry = seatLockedEvent) :=
  ⟨rfl, audit_round_trip { up := true, written := [] } { up := true, logs := [] }
    seatLockedEvent 1000 2000 77 rfl rfl⟩

/-! ## Mutual exclusion under interleaved round trips -/

theorem lockPipeline_client (c : RedisClient) (sessionID : String) (seatIDs : List String)
    (userID : String) :
    (lockPipeline c sessionID seatIDs userID).1 =
      (c.runSetNX (seatIDs.map fun seatID =>
        (getLockKey sessionID seatID, userID, LockDuration))).1 := by
  cases seatIDs with
  | nil => rfl
  | cons a rest => rfl

theorem Call_step_lockMultipleSeats_store (c : RedisClient) (sessionID : String)
    (seatIDs : List String) (userID : String) :
    ((Call.lockMultipleSeats sessionID seatIDs userID).step c).1 =
      (lockPipeline c sessionID seatIDs userID).1 := by
  simp only [Call.step]
  split
  · rfl
  · split <;> rfl

theorem Call_step_lockMultipleSeats_next (c : RedisClient) (sessionID : String)
    (seatIDs : List String) (userID : String) :
    ((Call.lockMultipleSeats sessionID seatIDs userID).step c).2 = none ∨
    ∃ seats, ((Call.lockMultipleSeats sessionID seatIDs userID).step c).2 =
      some (.unlockSeats sessionID seats userID) := by
  simp only [Call.step]
  split
  · left; rfl
  · split
    · right; exact ⟨_, rfl⟩
    · left; rfl

/-- The store after a round trip is the store before it, or the store after one `SET NX`, one
pipeline of `SET NX`, one `EXPIRE` or one `DEL`. -/
theorem Call_step_store (c : RedisClient) (call : Call) :
    (call.step c).1 = c ∨
    (∃ key value ttl, (call.step c).1 = (c.SetNX key value ttl).1) ∨
    (∃ queued, (call.step c).1 = (c.runSetNX queued).1) ∨
    (∃ key ttl, (call.step c).1 = (c.Expire key ttl).1) ∨
    (∃ key, (call.step c).1 = (c.Del key).1) := by
  cases call with
  | lockSeat sessionID seatID userID => exact Or.inr (Or.inl ⟨_, _, _, rfl⟩)
  | extendLock sessionID seatID userID =>
    left
    simp only [Call.step]
    split
    · rfl
    · split <;> rfl
  | extendExpire sessionID seatID userID => exact Or.inr (Or.inr (Or.inr (Or.inl ⟨_, _, rfl⟩)))
  | lockMultipleSeats sessionID seatIDs userID =>
    right; right; left
    exact ⟨_, (Call_step_lockMultipleSeats_store c sessionID seatIDs userID).trans
      (lockPipeline_client c sessionID seatIDs userID)⟩
  | unlockSeats sessionID seatIDs userID =>
    left
    cases seatIDs with
    | nil => rfl
    | cons a rest =>
      simp only [Call.step]
      split
      · rfl
      · split <;> rfl
  | unlockDel sessionID seatID rest userID => exact Or.inr (Or.inr (Or.inr (Or.inr ⟨_, rfl⟩)))

theorem Expire_data (c : RedisClient) (key : String) (ttl : Nat) :
    (c.Expire key ttl).1 = c ∨ (c.Expire key ttl).1 = { c with data := setTTL key ttl c.data } := by
  unfold RedisClient.Expire
  split
  · right; rfl
  · left; rfl

theorem Del_data (c : RedisClient) (key : String) :
    (c.Del key).1 = c ∨ (c.Del key).1 = { c with data := erase key c.data } := by
  unfold RedisClient.Del
  split
  · right; rfl
  · left; rfl

theorem Call_step_countKey (c : RedisClient) (call : Call)
    (hinv : ∀ k, countKey k c.data ≤ 1) : ∀ k, countKey k (call.step c).1.data ≤ 1 := by
  intro k
  rcases Call_step_store c call with h | ⟨key, value, ttl, h⟩ | ⟨queued, h⟩ | ⟨key, ttl, h⟩ |
    ⟨key, h⟩
  · rw [h]; exact hinv k
  · rw [h]; exact SetNX_countKey c key value ttl hinv k
  · rw [h]; exact runSetNX_countKey c queued hinv k
  · rw [h]
    rcases Expire_data c key ttl with h1 | h1
    · rw [h1]; exact hinv k
    · rw [h1]; exact (countKey_setTTL _ _ _ _).trans_le (hinv k)
  · rw [h]
    rcases Del_data c key with h1 | h1
    · rw [h1]; exact hinv k
    · rw [h1]; exact Nat.le_trans (countKey_erase_le _ _ _) (hinv k)

theorem LockSystem_step_countKey (s : LockSystem) (e : LockStep)
    (hinv : ∀ k, countKey k s.store.data ≤ 1) : ∀ k, countKey k (s.step e).store.data ≤ 1 := by
  cases e with
  | arrive op => exact hinv
  | advance i =>
    simp only [LockSystem.step]
    split
    · exact Call_step_countKey _ _ hinv
    · exact hinv
  | wait dt => intro k; exact Nat.le_trans (countKey_expireAfter_le k dt s.store.data) (hinv k)
  | setOnline b => exact hinv

theorem LockSystem_run_countKey (s : LockSystem) (steps : List LockStep)
    (hinv : ∀ k, countKey k s.store.data ≤ 1) :
    ∀ k, countKey k (s.run steps).store.data ≤ 1 := by
  induction steps generalizing s with
  | nil => exact hinv
  | cons e rest ih => exact ih _ (LockSystem_step_countKey s e hinv)

/-- A round trip other than the pending `EXPIRE` or `DEL` on key `k` leaves the record under
`k` as it is. -/
theorem Call_step_keeps (c : RedisClient) (call : Call) (k : String) (r : LockRecord)
    (h : lookup k c.data = some r) (hp : call.pendingKey ≠ some k) :
    lookup k (call.step c).1.data = some r := by
  cases call with
  | lockSeat sessionID seatID userID => exact SetNX_keeps c _ _ _ k r h
  | extendLock sessionID seatID userID =>
    simp only [Call.step]
    split
    · exact h
    · split <;> exact h
  | extendExpire sessionID seatID userID =>
    have hk : getLockKey sessionID seatID ≠ k := fun hk => hp (by rw [Call.pendingKey, hk])
    simp only [Call.step]
    rcases Expire_data c (getLockKey sessionID seatID) LockDuration with h1 | h1
    · rw [h1]; exact h
    · rw [h1]; simpa [lookup_setTTL_ne hk] using h
  | lockMultipleSeats sessionID seatIDs userID =>
    rw [Call_step_lockMultipleSeats_store, lockPipeline_client]
    exact runSetNX_keeps c _ k r h
  | unlockSeats sessionID seatIDs userID =>
    cases seatIDs with
    | nil => exact h
    | cons a rest =>
      simp only [Call.step]
      split
      · exact h
      · split <;> exact h
  | unlockDel sessionID seatID rest userID =>
    have hk : getLockKey sessionID seatID ≠ k := fun hk => hp (by rw [Call.pendingKey, hk])
    simp only [Call.step]
    rcases Del_data c (getLockKey sessionID seatID) with h1 | h1
    · rw [h1]; exact h
    · rw [h1]; simpa [lookup_erase_ne hk] using h

/-- The pending `EXPIRE` changes at most the TTL of a record. -/
theorem Call_step_expire (c : RedisClient) (sessionID seatID userID k : String)
    (r : LockRecord) (h : lookup k c.data = some r) :
    ∃ ttl, lookup k ((Call.extendExpire sessionID seatID userID).step c).1.data =
      some { r with ttl := ttl } := by
  simp only [Call.step]
  rcases Expire_data c (getLockKey sessionID seatID) LockDuration with h1 | h1
  · rw [h1]; exact ⟨r.ttl, h⟩
  · rw [h1]
    by_cases hk : getLockKey sessionID seatID = k
    · subst hk
      exact ⟨LockDuration, lookup_setTTL_self _ h⟩
    · exact ⟨r.ttl, by simpa [lookup_setTTL_ne hk] using h⟩

/-- A call comes to its pending `EXPIRE` or `DEL` on key `k` only by a round trip that changed
nothing and read the caller as the owner of the record under `k`. -/
theorem Call_step_pending (c : RedisClient) (call next : Call) (k : String)
    (hnext : (call.step c).2 = some next) (hp : next.pendingKey = some k) :
    (call.step c).1 = c ∧ next.user = call.user ∧ call.pendingKey = none ∧
    ∃ r, lookup k c.data = some r ∧ r.owner = call.user := by
  cases call with
  | lockSeat sessionID seatID userID => simp [Call.step] at hnext
  | extendLock sessionID seatID userID =>
    rcases Bool.eq_false_or_eq_true c.online with hon | hon
    · cases hl : lookup (getLockKey sessionID seatID) c.data with
      | none => simp [Call.step, RedisClient.Get, hon, hl] at hnext
      | some r =>
        by_cases hown : r.owner = userID
        · simp [Call.step, RedisClient.Get, hon, hl, hown] at hnext ⊢
          subst hnext
          simp only [Call.pendingKey, Option.some.injEq] at hp
          subst hp
          exact ⟨rfl, rfl, r, hl, hown⟩
        · simp [Call.step, RedisClient.Get, hon, hl, hown] at hnext
    · simp [Call.step, RedisClient.Get, hon] at hnext
  | extendExpire sessionID seatID userID => simp [Call.step] at hnext
  | lockMultipleSeats sessionID seatIDs userID =>
    exfalso
    rcases Call_step_lockMultipleSeats_next c sessionID seatIDs userID with h1 | ⟨seats, h1⟩
    · rw [h1] at hnext; cases hnext
    · rw [h1] at hnext
      cases hnext
      simp [Call.pendingKey] at hp
  | unlockSeats sessionID seatIDs userID =>
    cases seatIDs with
    | nil => simp [Call.step] at hnext
    | cons a rest =>
      rcases Bool.eq_false_or_eq_true c.online with hon | hon
      · cases hl : lookup (getLockKey sessionID a) c.data with
        | none =>
          simp [Call.step, RedisClient.Get, hon, hl] at hnext
          subst hnext
          simp [Call.pendingKey] at hp
        | some r =>
          by_cases hown : r.owner = userID
          · simp [Call.step, RedisClient.Get, hon, hl, hown] at hnext ⊢
            subst hnext
            simp only [Call.pendingKey, Option.some.injEq] at hp
            subst hp
            exact ⟨rfl, rfl, r, hl, hown⟩
          · simp [Call.step, RedisClient.Get, hon, hl, hown] at hnext
            subst hnext
            simp [Call.pendingKey] at hp
      · simp [Call.step, RedisClient.Get, hon] at hnext
        subst hnext
        simp [Call.pendingKey] at hp
  | unlockDel sessionID seatID rest userID =>
    simp [Call.step] at hnext
    subst hnext
    simp [Call.pendingKey] at hp

theorem rollback_eq_UnlockMultipleSeats (c : RedisClient) (sessionID : String)
    (seats : List String) (userID : String) :
    rollback c sessionID seats userID = (UnlockMultipleSeats c sessionID seats userID).1 := by
  induction seats generalizing c with
  | nil => rfl
  | cons a rest ih => rw [rollback, UnlockMultipleSeats, ih]

theorem partitionResults_length (seatIDs : List String) (results : List BoolCmd) :
    (partitionResults seatIDs results).1.length ≤ seatIDs.length := by
  induction seatIDs generalizing results with
  | nil => simp [partitionResults]
  | cons a rest ih =>
    cases results with
    | nil => simp [partitionResults]
    | cons cmd more =>
      have := ih more
      simp only [partitionResults]
      split <;> simp only [List.length_cons] <;> omega

/-- The loop of `UnlockSeat` calls, run through its round trips with nothing in between, leaves
the store that `UnlockMultipleSeats` leaves. -/
theorem Call_finish_unlockSeats (c : RedisClient) (sessionID : String) (seatIDs : List String)
    (userID : String) (fuel : Nat) (hfuel : 2 * seatIDs.length + 1 ≤ fuel) :
    Call.finish fuel c (.unlockSeats sessionID seatIDs userID) =
      (UnlockMultipleSeats c sessionID seatIDs userID).1 := by
  induction seatIDs generalizing c fuel with
  | nil =>
    obtain ⟨f, rfl⟩ : ∃ f, fuel = f + 1 := ⟨fuel - 1, by omega⟩
    rfl
  | cons a rest ih =>
    simp only [List.length_cons] at hfuel
    obtain ⟨f, rfl⟩ : ∃ f, fuel = f + 2 := ⟨fuel - 2, by omega⟩
    have hf : 2 * rest.length + 1 ≤ f := by omega
    have hf1 : 2 * rest.length + 1 ≤ f + 1 := by omega
    rw [UnlockMultipleSeats]
    rcases Bool.eq_false_or_eq_true c.online with hon | hon
    · cases hl : lookup (getLockKey sessionID a) c.data with
      | none =>
        have h1 : (UnlockSeat c sessionID a userID).1 = c := by
          simp [UnlockSeat, RedisClient.Get, hon, hl]
        have h2 : (Call.unlockSeats sessionID (a :: rest) userID).step c =
            (c, some (.unlockSeats sessionID rest userID)) := by
          simp [Call.step, RedisClient.Get, hon, hl]
        rw [h1, Call.finish, h2]
        exact ih c (f + 1) hf1
      | some r =>
        by_cases hown : r.owner = userID
        · have h1 : (UnlockSeat c sessionID a userID).1 =
              (c.Del (getLockKey sessionID a)).1 := by
            simp [UnlockSeat, RedisClient.Get, RedisClient.Del, hon, hl, hown]
          have h2 : (Call.unlockSeats sessionID (a :: rest) userID).step c =
              (c, some (.unlockDel sessionID a rest userID)) := by
            simp [Call.step, RedisClient.Get, hon, hl, hown]
          rw [h1, Call.finish, h2]
          show Call.finish (f + 1) c (.unlockDel sessionID a rest userID) = _
          rw [Call.finish]
          exact ih _ f hf
        · have h1 : (UnlockSeat c sessionID a userID).1 = c := by
            simp [UnlockSeat, RedisClient.Get, hon, hl, hown]
          have h2 : (Call.unlockSeats sessionID (a :: rest) userID).step c =
              (c, some (.unlockSeats sessionID rest userID)) := by
            simp [Call.step, RedisClient.Get, hon, hl, hown]
          rw [h1, Call.finish, h2]
          exact ih c (f + 1) hf1
    · have h1 : (UnlockSeat c sessionID a userID).1 = c := by
        simp [UnlockSeat, RedisClient.Get, hon, connRefused]
      have h2 : (Call.unlockSeats sessionID (a :: rest) userID).step c =
          (c, some (.unlockSeats sessionID rest userID)) := by
        simp [Call.step, RedisClient.Get, hon]
      rw [h1, Call.finish, h2]
      exact ih c (f + 1) hf1

/-- A call that runs through its round trips with nothing in between leaves the store that
`Op.run` gives. -/
theorem Call_finish_ofOp (c : RedisClient) (op : Op) (fuel : Nat)
    (hfuel : (Call.ofOp op).rounds ≤ fuel) : Call.finish fuel c (Call.ofOp op) = op.run c := by
  cases op with
  | lockSeat sessionID seatID userID =>
    simp only [Call.ofOp, Call.rounds] at hfuel
    obtain ⟨f, rfl⟩ : ∃ f, fuel = f + 1 := ⟨fuel - 1, by omega⟩
    simp only [Op.run, LockSeat_client, Option.getD_some]
    rfl
  | unlockSeat sessionID seatID userID =>
    simp only [Call.ofOp, Call.rounds] at hfuel
    rw [Call.ofOp, Call_finish_unlockSeats c sessionID [seatID] userID fuel hfuel]
    rfl
  | extendLock sessionID seatID userID =>
    simp only [Call.ofOp, Call.rounds] at hfuel
    obtain ⟨f, rfl⟩ : ∃ f, fuel = f + 2 := ⟨fuel - 2, by omega⟩
    simp only [Call.ofOp, Op.run]
    rcases Bool.eq_false_or_eq_true c.online with hon | hon
    · cases hl : lookup (getLockKey sessionID seatID) c.data with
      | none => simp [Call.finish, Call.step, ExtendLock, RedisClient.Get, hon, hl]
      | some r =>
        by_cases hown : r.owner = userID
        · simp [Call.finish, Call.step, ExtendLock, RedisClient.Get, RedisClient.Expire, hon,
            hl, hown]
        · simp [Call.finish, Call.step, ExtendLock, RedisClient.Get, hon, hl, hown]
    · simp [Call.finish, Call.step, ExtendLock, RedisClient.Get, hon, connRefused]
  | lockMultipleSeats sessionID seatIDs userID =>
    simp only [Call.ofOp, Call.rounds] at hfuel
    obtain ⟨f, rfl⟩ : ∃ f, fuel = f + 1 := ⟨fuel - 1, by omega⟩
    have hf : 2 * seatIDs.length + 1 ≤ f := by omega
    have hlen := partitionResults_length seatIDs (lockPipeline c sessionID seatIDs userID).2.1
    have hle : 2 * (partitionResults seatIDs
        (lockPipeline c sessionID seatIDs userID).2.1).1.length + 1 ≤ f := by omega
    simp only [Call.ofOp, Op.run, Call.finish, Call.step, LockMultipleSeats]
    by_cases herr : (lockPipeline c sessionID seatIDs userID).2.2.isSome = true ∧
        (lockPipeline c sessionID seatIDs userID).2.2 ≠ some RedisError.Nil
    · rw [if_pos herr, if_pos herr]
    · rw [if_neg herr, if_neg herr]
      by_cases hpart :
          (partitionResults seatIDs (lockPipeline c sessionID seatIDs userID).2.1).2.length > 0 ∧
          (partitionResults seatIDs (lockPipeline c sessionID seatIDs userID).2.1).1.length > 0
      · rw [if_pos hpart, if_pos hpart]
        show Call.finish f _ _ = rollback _ _ _ _
        rw [Call_finish_unlockSeats _ _ _ _ f hle, rollback_eq_UnlockMultipleSeats]
      · rw [if_neg hpart, if_neg hpart]
  | unlockMultipleSeats sessionID seatIDs userID =>
    simp only [Call.ofOp, Call.rounds] at hfuel
    exact Call_finish_unlockSeats c sessionID seatIDs userID fuel hfuel

/-- C7, as stated, fails. `UnlockSeat` reads the owner and deletes the key in two round trips.
`u2` locks `A1` of `S1` and 299 s later asks for its release; the release reads the owner `u2`;
within the next second the record expires and `u1` locks `A1`, so that `IsLocked` reports `u1`.
The `DEL` of the release issued by `u2` then arrives and removes the lock held by `u1`: the store
is empty and the seat is free. -/
theorem release_deletes_lock_of_other_user :
    (LockSystem.initial.run releaseAcrossExpiry).store.data =
      [("seat_lock:S1:A1", { owner := "u1", ttl := 300 })] ∧
    (LockSystem.initial.run releaseAcrossExpiry).calls =
      [none, some (.unlockDel "S1" "A1" [] "u2"), none] ∧
    IsLocked (LockSystem.initial.run releaseAcrossExpiry).store "S1" "A1" = (true, "u1", none) ∧
    ((LockSystem.initial.run releaseAcrossExpiry).step (.advance 1)).store.data = [] ∧
    IsLocked ((LockSystem.initial.run releaseAcrossExpiry).step (.advance 1)).store "S1" "A1" =
      (false, "", none) := by
  decide

/-- C7, amended. (1) In every state the lock store reaches from the empty store by round trips
of calls of any users in any interleaving, passage of time and outages of the server, a seat of
a session has at most one recorded owner, who is the owner `IsLocked` reads. (2) A call of
`LockSeat`, `UnlockSeat`, `ExtendLock`, `LockMultipleSeats` (its rollback included) or
`UnlockMultipleSeats` issued by `u2` that runs through its round trips with nothing in between
leaves a record owned by `u1 ≠ u2` in place with its owner and TTL. (3) Under interleaving, a
round trip leaves the record under a key unchanged unless it is the pending `EXPIRE` or `DEL` on
that key; no round trip other than that `DEL` removes a record or changes its owner, and the
`DEL` removes whatever record the key holds when it arrives. (4) A call comes to its pending
`EXPIRE` or `DEL` only by a round trip that read the caller as the owner of the record: the
record of another user is removed only when it was created between the two round trips of a
release, after the caller's own record had expired or been released. -/
theorem mutual_exclusion :
    (∀ (steps : List LockStep) (sessionID seatID : String),
      (owners (LockSystem.initial.run steps).store sessionID seatID).length ≤ 1 ∧
      (owners (LockSystem.initial.run steps).store sessionID seatID).head? =
        (lookup (getLockKey sessionID seatID) (LockSystem.initial.run steps).store.data).map
          fun r => r.owner) ∧
    (∀ (c : RedisClient) (op : Op) (fuel : Nat) (u1 sessionID seatID : String) (r : LockRecord),
      op.user ≠ u1 → (Call.ofOp op).rounds ≤ fuel →
      lookup (getLockKey sessionID seatID) c.data = some r → r.owner = u1 →
      lookup (getLockKey sessionID seatID) (Call.finish fuel c (Call.ofOp op)).data = some r) ∧
    (∀ (c : RedisClient) (call : Call) (k : String) (r : LockRecord),
      lookup k c.data = some r →
      (call.pendingKey ≠ some k → lookup k (call.step c).1.data = some r) ∧
      ((∀ sessionID seatID rest userID, call ≠ .unlockDel sessionID seatID rest userID) →
        ∃ ttl, lookup k (call.step c).1.data = some { r with ttl := ttl })) ∧
    (∀ (c : RedisClient) (sessionID seatID : String) (rest : List String) (userID : String),
      c.online = true →
      lookup (getLockKey sessionID seatID)
        ((Call.unlockDel sessionID seatID rest userID).step c).1.data = none) ∧
    (∀ (c : RedisClient) (call next : Call) (k : String),
      (call.step c).2 = some next → next.pendingKey = some k →
      (call.step c).1 = c ∧ next.user = call.user ∧
      ∃ r, lookup k c.data = some r ∧ r.owner = call.user) := by
  refine ⟨?_, ?_, ?_, ?_, ?_⟩
  · intro steps sessionID seatID
    refine ⟨?_, owners_head _ _ _⟩
    rw [owners_length]
    exact LockSystem_run_countKey LockSystem.initial steps (fun k => Nat.zero_le 1) _
  · intro c op fuel u1 sessionID seatID r hu hfuel h hown
    rw [Call_finish_ofOp c op fuel hfuel]
    exact Op_run_keeps_others c op _ r h (by rw [hown]; exact Ne.symm hu)
  · intro c call k r h
    refine ⟨Call_step_keeps c call k r h, ?_⟩
    intro hdel
    by_cases hp : call.pendingKey = some k
    · cases call with
      | extendExpire sessionID seatID userID => exact Call_step_expire c _ _ _ k r h
      | unlockDel sessionID seatID rest userID => exact absurd rfl (hdel _ _ _ _)
      | lockSeat _ _ _ => simp [Call.pendingKey] at hp
      | extendLock _ _ _ => simp [Call.pendingKey] at hp
      | lockMultipleSeats _ _ _ => simp [Call.pendingKey] at hp
      | unlockSeats _ _ _ => simp [Call.pendingKey] at hp
    · exact ⟨r.ttl, Call_step_keeps c call k r h hp⟩
  · intro c sessionID seatID rest userID hon
    simp [Call.step, RedisClient.Del, hon, lookup_erase_self]
  · intro c call next k hnext hp
    obtain ⟨h1, h2, _, h3⟩ := Call_step_pending c call next k hnext hp
    exact ⟨h1, h2, h3⟩

theorem mutual_exclusion_witness :
    (owners (LockSystem.initial.run releaseAcrossExpiry).store "S1" "A1").length ≤ 1 ∧
    ("u2" ≠ "u1" ∧ (Call.ofOp (.lockMultipleSeats "S1" ["A2", "A1"] "u2")).rounds ≤ 6 ∧
      lookup (getLockKey "S1" "A1") u1HoldsA1.data = some { owner := "u1", ttl := 120 }) ∧
    lookup (getLockKey "S1" "A1")
        (Call.finish 6 u1HoldsA1 (Call.ofOp (.lockMultipleSeats "S1" ["A2", "A1"] "u2"))).data =
      some { owner := "u1", ttl := 120 } :=
  ⟨(mutual_exclusion.1 releaseAcrossExpiry "S1" "A1").1,
    ⟨by decide, by decide, by decide⟩,
    mutual_exclusion.2.1 u1HoldsA1 (.lockMultipleSeats "S1" ["A2", "A1"] "u2") 6 "u1" "S1" "A1"
      { owner := "u1", ttl := 120 } (by decide) (by decide) (by decide) rfl⟩

end CinemaBooking
